import Mathlib

/-!
# WaterFurnace Aurora driver: frame codec, register cache and state machine

A shallow embedding of `components/waterfurnace/protocol.{h,cpp}`,
`registers.h` and `waterfurnace.{h,cpp}`.

Conventions of the embedding:

* `uint8_t`, `uint16_t` and `uint32_t` values are natural numbers; a byte
  buffer is a `List Nat` whose elements are below 256, a register address or
  value is a `Nat` below 65536. Where the C++ masks (`& 0xFF`) or shifts, the
  embedding does the same on `Nat`; where an unsigned result is stored into a
  narrower field and can exceed it, the embedding reduces it modulo the
  width.
* `std::vector<T>` is `List T`; `push_back` is `xs ++ [x]`.
* `std::map<uint16_t, uint16_t>` is a function `Nat → Option Nat`: `find`
  is application and `operator[]=` is a pointwise update. The code never
  iterates over the map.
* `std::string` is `List Char`, one `Char` per byte.
* A listener callback is opaque consumer code (no callback in the repository
  calls back into the hub); its invocation is recorded as an effect carrying
  the position of the listener in `listeners_` and the value passed.
* Writing a frame to the UART is recorded as an effect carrying the frame.
  The optional flow-control pin is not modelled.
* The clock `millis()` and the bytes held by the UART are inputs: every entry
  point that reads the clock takes the reading as an argument, and bytes that
  arrived on the wire are queued in `uart_rx` until `read_frame_` drains
  them.
-/

namespace waterfurnace

/-! ## protocol.h constants -/

def FUNC_READ_RANGES : Nat := 65
def FUNC_READ_REGISTERS : Nat := 66
def FUNC_WRITE_REGISTERS : Nat := 67
def FUNC_WRITE_SINGLE : Nat := 6
def SLAVE_ADDRESS : Nat := 1
def ERROR_MASK : Nat := 0x80
def MAX_REGISTERS_PER_REQUEST : Nat := 100
def MIN_FRAME_SIZE : Nat := 4
def MAX_FRAME_SIZE : Nat := 256

/-! ## protocol.cpp -/

/-- One pass of the body of the inner loop of `crc16`:
`if (crc & 0x0001) crc = (crc >> 1) ^ 0xA001; else crc >>= 1;`. -/
def crc16_shift (crc : Nat) : Nat :=
  if crc &&& 0x0001 ≠ 0 then (crc >>> 1) ^^^ 0xA001 else crc >>> 1

/-- The inner loop `for (int j = 0; j < 8; j++)` of `crc16`, as `j` passes of
its body. -/
def crc16_bits : Nat → Nat → Nat
  | 0, crc => crc
  | j + 1, crc => crc16_bits j (crc16_shift crc)

/-- One pass of the outer loop body of `crc16`: `crc ^= data[i]` and then the
eight passes of the inner loop. -/
def crc16_byte (crc b : Nat) : Nat :=
  crc16_bits 8 (crc ^^^ b)

/-- The function `uint16_t crc16(const uint8_t *data, size_t len)` applied to
the buffer `data[0..len)`: `crc` starts at `0xFFFF` and the outer loop visits
the bytes in order. -/
def crc16 (data : List Nat) : Nat :=
  data.foldl crc16_byte 0xFFFF

/-- The helper `append_crc`: pushes `crc & 0xFF`, then `(crc >> 8) & 0xFF`. -/
def append_crc (frame : List Nat) : List Nat :=
  let crc := crc16 frame
  (frame ++ [crc &&& 0xFF]) ++ [(crc >>> 8) &&& 0xFF]

/-- The function `build_read_ranges_request`. -/
def build_read_ranges_request (ranges : List (Nat × Nat)) : List Nat :=
  let frame := [SLAVE_ADDRESS] ++ [FUNC_READ_RANGES]
  let frame := ranges.foldl
    (fun frame range =>
      frame ++ [(range.1 >>> 8) &&& 0xFF] ++ [range.1 &&& 0xFF]
            ++ [(range.2 >>> 8) &&& 0xFF] ++ [range.2 &&& 0xFF])
    frame
  append_crc frame

/-- The function `build_read_registers_request`. -/
def build_read_registers_request (addresses : List Nat) : List Nat :=
  let frame := [SLAVE_ADDRESS] ++ [FUNC_READ_REGISTERS]
  let frame := addresses.foldl
    (fun frame addr => frame ++ [(addr >>> 8) &&& 0xFF] ++ [addr &&& 0xFF])
    frame
  append_crc frame

/-- The function `build_write_registers_request`. -/
def build_write_registers_request (writes : List (Nat × Nat)) : List Nat :=
  let frame := [SLAVE_ADDRESS] ++ [FUNC_WRITE_REGISTERS]
  let frame := writes.foldl
    (fun frame w =>
      frame ++ [(w.1 >>> 8) &&& 0xFF] ++ [w.1 &&& 0xFF]
            ++ [(w.2 >>> 8) &&& 0xFF] ++ [w.2 &&& 0xFF])
    frame
  append_crc frame

/-- The function `build_write_single_request`. -/
def build_write_single_request (address value : Nat) : List Nat :=
  let frame := [SLAVE_ADDRESS] ++ [FUNC_WRITE_SINGLE]
  let frame := frame ++ [(address >>> 8) &&& 0xFF]
  let frame := frame ++ [address &&& 0xFF]
  let frame := frame ++ [(value >>> 8) &&& 0xFF]
  let frame := frame ++ [value &&& 0xFF]
  append_crc frame

/-- The function `bool validate_frame_crc(const uint8_t *data, size_t len)`
applied to the buffer `data[0..len)`, with `len = data.length`. -/
def validate_frame_crc (data : List Nat) : Bool :=
  let len := data.length
  if len < MIN_FRAME_SIZE then false
  else
    let received_crc := data.getD (len - 2) 0 ||| (data.getD (len - 1) 0 <<< 8)
    let calculated_crc := crc16 (data.take (len - 2))
    received_crc == calculated_crc

/-- The function `bool is_error_response(uint8_t function_code)`. -/
def is_error_response (function_code : Nat) : Bool :=
  function_code &&& ERROR_MASK != 0

/-- The function `size_t get_response_header_size(uint8_t function_code)`. -/
def get_response_header_size (function_code : Nat) : Nat :=
  if is_error_response function_code then 5
  else if function_code = FUNC_READ_RANGES ∨ function_code = FUNC_READ_REGISTERS then 3
  else if function_code = FUNC_WRITE_REGISTERS then 4
  else if function_code = FUNC_WRITE_SINGLE then 8
  else 3

/-- The loop of `parse_register_values`,
`for (size_t i = 0; i + 1 < data_len; i += 2) values.push_back(...)`, entered
at index `i` with the `values` collected so far; the first argument bounds the
number of passes. -/
def parse_register_values_loop (data : List Nat) (data_len : Nat) :
    Nat → Nat → List Nat → List Nat
  | 0, _, values => values
  | fuel + 1, i, values =>
    if i + 1 < data_len then
      parse_register_values_loop data data_len fuel (i + 2)
        (values ++ [(data.getD i 0 <<< 8) ||| data.getD (i + 1) 0])
    else values

/-- The function `parse_register_values(const uint8_t *data, size_t data_len)`;
its loop is given `data_len` passes, more than it can use. -/
def parse_register_values (data : List Nat) (data_len : Nat) : List Nat :=
  parse_register_values_loop data data_len data_len 0 []

/-! ## registers.h: addresses and poll groups -/

def REG_THERMOSTAT_STATUS : Nat := 800
def REG_AXB_STATUS : Nat := 806
def REG_IZ2_STATUS : Nat := 812
def REG_AOC_STATUS : Nat := 815
def REG_MOC_STATUS : Nat := 818
def COMPONENT_ACTIVE : Nat := 1
def COMPONENT_ADDED : Nat := 2
def COMPONENT_REMOVED : Nat := 3
def COMPONENT_MISSING : Nat := 0xFFFF
def REG_THERMOSTAT_VERSION : Nat := 801
def REG_AXB_VERSION : Nat := 807
def REG_IZ2_VERSION : Nat := 813
def REG_ABC_PROGRAM : Nat := 88
def REG_MODEL_NUMBER : Nat := 92
def REG_SERIAL_NUMBER : Nat := 105
def REG_IZ2_ZONE_COUNT : Nat := 483

def get_system_id_ranges : List (Nat × Nat) :=
  [(2, 1), (88, 4), (92, 12), (105, 5), (400, 2), (404, 1), (412, 2)]

def get_component_detect_ranges : List (Nat × Nat) :=
  [(800, 3), (806, 3), (812, 3), (815, 3), (818, 3), (824, 3), (827, 3), (483, 1)]

def get_thermostat_ranges : List (Nat × Nat) :=
  [(19, 2), (25, 2), (30, 2), (502, 1), (740, 3), (745, 3)]

def get_thermostat_config_registers : List Nat :=
  [12005, 12006]

def get_axb_ranges : List (Nat × Nat) :=
  [(400, 2), (900, 1), (1103, 6), (1109, 11), (1124, 2), (1134, 3)]

def get_power_ranges : List (Nat × Nat) :=
  [(16, 1), (1146, 12), (1164, 2)]

def get_vs_drive_ranges : List (Nat × Nat) :=
  [(3000, 2), (3220, 8), (3322, 9), (3522, 1), (3524, 1)]

/-- The function `get_iz2_ranges(uint8_t zone_count)`; the count of each range
is `static_cast<uint16_t>(zone_count * 3)`. -/
def get_iz2_ranges (zone_count : Nat) : List (Nat × Nat) :=
  if zone_count > 0 then
    [(31007, (zone_count * 3) % 65536)] ++ [(31200, (zone_count * 3) % 65536)]
  else []

/-! ## waterfurnace.h: the hub state -/

/-- The enumeration `WaterFurnace::State`. -/
inductive State
  | SETUP_READ_ID
  | SETUP_DETECT_COMPONENTS
  | IDLE
  | WAITING_RESPONSE
  | ERROR_BACKOFF
  deriving DecidableEq, Repr

/-- The struct `RegisterListener`. The callback itself is consumer code; it is
identified by the position of the listener in `listeners_`. -/
structure RegisterListener where
  address : Nat
  deriving DecidableEq, Repr

/-- The struct `WaterFurnace::PollGroup`. -/
structure PollGroup where
  ranges : List (Nat × Nat) := []
  individual : List Nat := []
  deriving DecidableEq, Repr

/-- What the hub does to the outside world: `tx frame` is one `send_frame_`
(the frame written to the UART and flushed), `call i v` is the call
`listeners_[i].callback(v)`. -/
inductive Effect
  | tx (frame : List Nat)
  | call (listener : Nat) (value : Nat)
  deriving DecidableEq, Repr

def RESPONSE_TIMEOUT : Nat := 2000
def ERROR_BACKOFF_TIME : Nat := 5000

/-- The data members of `class WaterFurnace`, with their initial values, plus
the two ends of the outside world: `uart_rx`, the bytes the UART has received
and the hub has not read yet, and `effects`, everything the hub has done so
far, oldest first. -/
structure WaterFurnace where
  state_ : State := State.SETUP_READ_ID
  setup_phase_ : Nat := 0
  poll_groups_ : List PollGroup := []
  current_poll_group_ : Nat := 0
  expected_addresses_ : List Nat := []
  has_thermostat_ : Bool := false
  has_iz2_ : Bool := false
  has_axb_ : Bool := false
  has_vs_drive_ : Bool := false
  has_energy_monitoring_ : Bool := false
  has_aoc_ : Bool := false
  has_moc_ : Bool := false
  iz2_zone_count_ : Nat := 0
  awl_thermostat_ : Bool := false
  awl_iz2_ : Bool := false
  awl_axb_ : Bool := false
  model_number_ : List Char := []
  serial_number_ : List Char := []
  abc_program_ : List Char := []
  registers_ : Nat → Option Nat := fun _ => none
  listeners_ : List RegisterListener := []
  pending_writes_ : List (Nat × Nat) := []
  last_request_time_ : Nat := 0
  last_response_time_ : Nat := 0
  error_backoff_until_ : Nat := 0
  rx_buffer_ : List Nat := []
  uart_rx : List Nat := []
  effects : List Effect := []

/-- The assignment `registers_[addr] = val` on the register map. -/
def map_assign (regs : Nat → Option Nat) (addr val : Nat) : Nat → Option Nat :=
  fun a => if a = addr then some val else regs a

/-- The environment delivers `bytes` to the UART receive queue. -/
def uart_receive (bytes : List Nat) (s : WaterFurnace) : WaterFurnace :=
  { s with uart_rx := s.uart_rx ++ bytes }

/-! ## waterfurnace.cpp -/

/-- The method `WaterFurnace::setup` (the flow-control pin apart). -/
def setup (s : WaterFurnace) : WaterFurnace :=
  { s with state_ := State.SETUP_READ_ID, setup_phase_ := 0 }

/-- The method `WaterFurnace::register_listener`. -/
def register_listener (register_addr : Nat) (s : WaterFurnace) : WaterFurnace :=
  { s with listeners_ := s.listeners_ ++ [{ address := register_addr }] }

/-- The method `WaterFurnace::write_register`. -/
def write_register (addr value : Nat) (s : WaterFurnace) : WaterFurnace :=
  { s with pending_writes_ := s.pending_writes_ ++ [(addr, value)] }

/-- The method `WaterFurnace::get_register`: `some value` when it returns true
and stores `value`, `none` when it returns false. -/
def get_register (addr : Nat) (s : WaterFurnace) : Option Nat :=
  s.registers_ addr

/-- The method `WaterFurnace::send_frame_`; `t` is the reading of `millis()`
taken after the frame is flushed. -/
def send_frame_ (frame : List Nat) (t : Nat) (s : WaterFurnace) : WaterFurnace :=
  { s with
    effects := s.effects ++ [Effect.tx frame]
    last_request_time_ := t
    rx_buffer_ := [] }

/-- The method `WaterFurnace::read_frame_`: the returned flag, the contents of
the out-parameter `frame` (left empty when nothing was assigned to it), and
the hub afterwards. The `while (available())` loop moves every byte the UART
holds to `rx_buffer_`. -/
def read_frame_ (s : WaterFurnace) : Bool × List Nat × WaterFurnace :=
  let s := { s with rx_buffer_ := s.rx_buffer_ ++ s.uart_rx, uart_rx := [] }
  if s.rx_buffer_.length < 3 then (false, [], s)
  else
    let func_code := s.rx_buffer_.getD 1 0
    if is_error_response func_code then
      if s.rx_buffer_.length ≥ 5 then
        let frame := s.rx_buffer_.take 5
        let s := { s with rx_buffer_ := s.rx_buffer_.drop 5 }
        (validate_frame_crc frame, frame, s)
      else (false, [], s)
    else
      let expected_size :=
        if func_code = FUNC_READ_RANGES ∨ func_code = FUNC_READ_REGISTERS then
          3 + s.rx_buffer_.getD 2 0 + 2
        else if func_code = FUNC_WRITE_REGISTERS then 4
        else if func_code = FUNC_WRITE_SINGLE then 8
        else 3 + s.rx_buffer_.getD 2 0 + 2
      if s.rx_buffer_.length < expected_size then (false, [], s)
      else
        let frame := s.rx_buffer_.take expected_size
        let s := { s with rx_buffer_ := s.rx_buffer_.drop expected_size }
        if !validate_frame_crc frame then (false, frame, s)
        else (true, frame, s)

/-- The method `WaterFurnace::dispatch_register_`, its loop entered at the
listener in position `i` with the effects `effs` so far. -/
def dispatch_loop (addr value : Nat) : List RegisterListener → Nat → List Effect → List Effect
  | [], _, effs => effs
  | listener :: rest, i, effs =>
    dispatch_loop addr value rest (i + 1)
      (if listener.address = addr then effs ++ [Effect.call i value] else effs)

/-- The method `WaterFurnace::dispatch_register_`. -/
def dispatch_register_ (addr value : Nat) (s : WaterFurnace) : WaterFurnace :=
  { s with effects := dispatch_loop addr value s.listeners_ 0 s.effects }

/-- The loops that build `expected_addresses_` (and `all_addrs`) from a list of
ranges: for each range, `for (uint16_t i = 0; i < range.second; i++)` pushes
`range.first + i`, stored as `uint16_t`. -/
def push_range_addresses (ranges : List (Nat × Nat)) (addrs : List Nat) : List Nat :=
  ranges.foldl
    (fun addrs range =>
      (List.range range.2).foldl (fun addrs i => addrs ++ [(range.1 + i) % 65536]) addrs)
    addrs

/-- The method `WaterFurnace::read_system_id_`. -/
def read_system_id_ (t : Nat) (s : WaterFurnace) : WaterFurnace :=
  let ranges := get_system_id_ranges
  let s := { s with expected_addresses_ := push_range_addresses ranges [] }
  let frame := build_read_ranges_request ranges
  let s := send_frame_ frame t s
  { s with state_ := State.WAITING_RESPONSE }

/-- The method `WaterFurnace::detect_components_`. -/
def detect_components_ (t : Nat) (s : WaterFurnace) : WaterFurnace :=
  let ranges := get_component_detect_ranges
  let s := { s with expected_addresses_ := push_range_addresses ranges [] }
  let frame := build_read_ranges_request ranges
  let s := send_frame_ frame t s
  { s with state_ := State.WAITING_RESPONSE }

/-- The method `WaterFurnace::build_poll_groups_`. -/
def build_poll_groups_ (s : WaterFurnace) : WaterFurnace :=
  let groups : List PollGroup := []
  let groups := groups ++ [{ ranges := get_thermostat_ranges }]
  let groups :=
    if s.awl_thermostat_ && !s.has_iz2_ then
      groups ++ [{ individual := get_thermostat_config_registers }]
    else groups
  let groups := if s.has_axb_ then groups ++ [{ ranges := get_axb_ranges }] else groups
  let groups :=
    if s.has_energy_monitoring_ then groups ++ [{ ranges := get_power_ranges }] else groups
  let groups :=
    if s.has_vs_drive_ then groups ++ [{ ranges := get_vs_drive_ranges }] else groups
  let groups :=
    if s.awl_iz2_ && decide (s.iz2_zone_count_ > 0) then
      groups ++ [{ ranges := get_iz2_ranges s.iz2_zone_count_ }]
    else groups
  { s with poll_groups_ := groups }

/-- The method `WaterFurnace::poll_next_group_`. -/
def poll_next_group_ (t : Nat) (s : WaterFurnace) : WaterFurnace :=
  match s.poll_groups_[s.current_poll_group_]? with
  | none => s
  | some group =>
    let s := { s with
      expected_addresses_ := push_range_addresses group.ranges [] ++ group.individual }
    let s :=
      if group.ranges ≠ [] ∧ group.individual = [] then
        send_frame_ (build_read_ranges_request group.ranges) t s
      else if group.ranges = [] ∧ group.individual ≠ [] then
        send_frame_ (build_read_registers_request group.individual) t s
      else
        let all_addrs := push_range_addresses group.ranges [] ++ group.individual
        if all_addrs.length ≤ MAX_REGISTERS_PER_REQUEST then
          send_frame_ (build_read_registers_request all_addrs) t s
        else
          send_frame_ (build_read_ranges_request group.ranges) t s
    { s with state_ := State.WAITING_RESPONSE }

/-- The method `WaterFurnace::process_pending_writes_`. -/
def process_pending_writes_ (t : Nat) (s : WaterFurnace) : WaterFurnace :=
  if s.pending_writes_ = [] then s
  else
    let frame := build_write_registers_request s.pending_writes_
    let s := { s with expected_addresses_ := [] }
    let s := { s with pending_writes_ := [] }
    let s := send_frame_ frame t s
    { s with state_ := State.WAITING_RESPONSE }

/-- The loop of `WaterFurnace::decode_string_`, with `n` passes left, entered
at index `i` with the `result` so far; a register missing from the map ends
the loop. -/
def decode_string_loop (regs : Nat → Option Nat) (start : Nat) :
    Nat → Nat → List Char → List Char
  | 0, _, result => result
  | n + 1, i, result =>
    match regs ((start + i) % 65536) with
    | none => result
    | some val =>
      let hi := (val >>> 8) &&& 0xFF
      let lo := val &&& 0xFF
      let result := if hi ≠ 0 then result ++ [Char.ofNat hi] else result
      let result := if lo ≠ 0 then result ++ [Char.ofNat lo] else result
      decode_string_loop regs start n (i + 1) result

/-- The method `WaterFurnace::decode_string_`. -/
def decode_string_ (regs : Nat → Option Nat) (start num_regs : Nat) : List Char :=
  decode_string_loop regs start num_regs 0 []

/-- The loop `while (!s.empty() && (s.back() == ' ' || s.back() == 0))
s.pop_back();` of the identity branch of `process_response_`. -/
def trim_trailing (s : List Char) : List Char :=
  (s.reverse.dropWhile (fun c => c == Char.ofNat 32 || c == Char.ofNat 0)).reverse

/-- The lambda `check_component` of `process_response_`. -/
def check_component (regs : Nat → Option Nat) (status_reg : Nat) : Bool :=
  match regs status_reg with
  | none => false
  | some v => v != COMPONENT_REMOVED && v != COMPONENT_MISSING && v != 0

/-- The lambda `get_version` of `process_response_`, in hundredths: the code
returns the float `v / 100.0f` (and `0.0f` for a missing register) and only
compares it with `3.0f` and `2.0f`; for a 16-bit `v` the float quotient is at
least `3.0f` exactly when `v` is at least 300, and at least `2.0f` exactly when
`v` is at least 200. -/
def get_version (regs : Nat → Option Nat) (version_reg : Nat) : Nat :=
  match regs version_reg with
  | none => 0
  | some v => v

/-- The body of the loop of the read branch of `process_response_`, for the
pair `(addr, val)`: `this->registers_[addr] = val;` and then
`this->dispatch_register_(addr, val);`. -/
def store_and_dispatch_ (s : WaterFurnace) (av : Nat × Nat) : WaterFurnace :=
  dispatch_register_ av.1 av.2 { s with registers_ := map_assign s.registers_ av.1 av.2 }

/-- The read branch of `process_response_` once the frame is known to hold at
least 5 bytes: the values are parsed from `frame.data() + 3` with the byte
count `frame[2]`; when their number equals that of the expected addresses, each
pair is stored in the map and dispatched, in index order; otherwise nothing is
done (a warning is logged). -/
def process_read_values_ (frame : List Nat) (s : WaterFurnace) : WaterFurnace :=
  let byte_count := frame.getD 2 0
  let values := parse_register_values (frame.drop 3) byte_count
  if values.length = s.expected_addresses_.length then
    (s.expected_addresses_.zip values).foldl store_and_dispatch_ s
  else s

/-- The write-single branch of `process_response_`:
`if (func_code == FUNC_WRITE_SINGLE && frame.size() >= 6)`, the echoed address
and value, each stored as `uint16_t`, go to the map and the listeners. -/
def process_write_single_ (frame : List Nat) (s : WaterFurnace) : WaterFurnace :=
  if frame.getD 1 0 = FUNC_WRITE_SINGLE ∧ frame.length ≥ 6 then
    let addr := ((frame.getD 2 0 <<< 8) ||| frame.getD 3 0) % 65536
    let val := ((frame.getD 4 0 <<< 8) ||| frame.getD 5 0) % 65536
    dispatch_register_ addr val { s with registers_ := map_assign s.registers_ addr val }
  else s

/-- The identity branch of the state transitions of `process_response_`. -/
def finish_system_id_ (s : WaterFurnace) : WaterFurnace :=
  let s := { s with
    abc_program_ := decode_string_ s.registers_ REG_ABC_PROGRAM 4
    model_number_ := decode_string_ s.registers_ REG_MODEL_NUMBER 12
    serial_number_ := decode_string_ s.registers_ REG_SERIAL_NUMBER 5 }
  let s := { s with abc_program_ := trim_trailing s.abc_program_ }
  let s := { s with model_number_ := trim_trailing s.model_number_ }
  let s := { s with serial_number_ := trim_trailing s.serial_number_ }
  let s := { s with
    has_vs_drive_ :=
      decide (s.abc_program_ = "ABCVSP".toList) ||
      decide (s.abc_program_ = "ABCVSPR".toList) ||
      decide (s.abc_program_ = "ABCSPLVS".toList) }
  { s with state_ := State.SETUP_DETECT_COMPONENTS, setup_phase_ := 0 }

/-- The detection branch of the state transitions of `process_response_`. -/
def finish_detection_ (s : WaterFurnace) : WaterFurnace :=
  let s := { s with
    has_thermostat_ := check_component s.registers_ REG_THERMOSTAT_STATUS
    has_axb_ := check_component s.registers_ REG_AXB_STATUS
    has_iz2_ := check_component s.registers_ REG_IZ2_STATUS
    has_aoc_ := check_component s.registers_ REG_AOC_STATUS
    has_moc_ := check_component s.registers_ REG_MOC_STATUS }
  let therm_ver := get_version s.registers_ REG_THERMOSTAT_VERSION
  let axb_ver := get_version s.registers_ REG_AXB_VERSION
  let iz2_ver := get_version s.registers_ REG_IZ2_VERSION
  let s := { s with
    awl_thermostat_ := s.has_thermostat_ && decide (therm_ver ≥ 300)
    awl_axb_ := s.has_axb_ && decide (axb_ver ≥ 200)
    awl_iz2_ := s.has_iz2_ && decide (iz2_ver ≥ 200) }
  let s := { s with has_energy_monitoring_ := s.has_axb_ }
  let s :=
    if s.awl_iz2_ then
      match s.registers_ REG_IZ2_ZONE_COUNT with
      | none => s
      | some v => if v > 0 ∧ v ≤ 6 then { s with iz2_zone_count_ := v } else s
    else s
  let s := build_poll_groups_ s
  { s with setup_phase_ := 0, state_ := State.IDLE }

/-- The block `if (this->state_ == State::WAITING_RESPONSE)` that ends
`process_response_`; `current_poll_group_` is a `uint8_t`. -/
def process_transition_ (t : Nat) (s : WaterFurnace) : WaterFurnace :=
  if s.state_ = State.WAITING_RESPONSE then
    if s.poll_groups_ = [] ∧ s.model_number_ = [] then finish_system_id_ s
    else if s.setup_phase_ ≠ 0 then finish_detection_ s
    else
      let s := { s with current_poll_group_ := (s.current_poll_group_ + 1) % 256 }
      if s.current_poll_group_ < s.poll_groups_.length then poll_next_group_ t s
      else { s with state_ := State.IDLE }
  else s

/-- The method `WaterFurnace::process_response_`; `t` is the reading of
`millis()` it takes (in the error branch, or in `send_frame_` when the next
poll group is requested). -/
def process_response_ (frame : List Nat) (t : Nat) (s : WaterFurnace) : WaterFurnace :=
  if frame.length < MIN_FRAME_SIZE then s
  else
    let func_code := frame.getD 1 0
    if is_error_response func_code then
      if s.state_ = State.WAITING_RESPONSE ∧ (s.model_number_ = [] ∨ s.poll_groups_ = []) then
        { s with
          error_backoff_until_ := (t + ERROR_BACKOFF_TIME) % 4294967296
          state_ := State.ERROR_BACKOFF }
      else { s with state_ := State.IDLE }
    else if (func_code = FUNC_READ_RANGES ∨ func_code = FUNC_READ_REGISTERS)
        ∧ frame.length < 5 then s
    else
      let s :=
        if func_code = FUNC_READ_RANGES ∨ func_code = FUNC_READ_REGISTERS then
          process_read_values_ frame s
        else s
      let s := process_write_single_ frame s
      process_transition_ t s

/-- The method `WaterFurnace::update`; `t` is the reading of `millis()` taken
by `send_frame_`. -/
def update (t : Nat) (s : WaterFurnace) : WaterFurnace :=
  if s.state_ = State.IDLE then
    poll_next_group_ t { s with current_poll_group_ := 0 }
  else s

/-- The method `WaterFurnace::loop`; `now` is the reading of `millis()` on
entry and `t` the later reading taken while sending a frame or handling an
error response. Both are 32-bit, and so are the difference and the sum the
code forms from them. -/
def loop (now t : Nat) (s : WaterFurnace) : WaterFurnace :=
  match s.state_ with
  | State.SETUP_READ_ID =>
    if s.setup_phase_ = 0 then
      let s := read_system_id_ t s
      { s with setup_phase_ := 1, state_ := State.WAITING_RESPONSE }
    else s
  | State.SETUP_DETECT_COMPONENTS =>
    if s.setup_phase_ = 0 then
      let s := detect_components_ t s
      { s with setup_phase_ := 1, state_ := State.WAITING_RESPONSE }
    else s
  | State.IDLE =>
    if s.pending_writes_ ≠ [] then process_pending_writes_ t s else s
  | State.WAITING_RESPONSE =>
    let r := read_frame_ s
    if r.1 then
      process_response_ r.2.1 t { r.2.2 with last_response_time_ := now }
    else
      let s := r.2.2
      if (now + 4294967296 - s.last_request_time_) % 4294967296 > RESPONSE_TIMEOUT then
        { s with
          rx_buffer_ := []
          error_backoff_until_ := (now + ERROR_BACKOFF_TIME) % 4294967296
          state_ := State.ERROR_BACKOFF }
      else s
  | State.ERROR_BACKOFF =>
    if now ≥ s.error_backoff_until_ then
      if s.setup_phase_ ≠ 0 then
        let s := { s with setup_phase_ := 0 }
        if s.model_number_ = [] then { s with state_ := State.SETUP_READ_ID }
        else if !s.has_thermostat_ && !s.has_axb_ then
          { s with state_ := State.SETUP_DETECT_COMPONENTS }
        else { s with state_ := State.IDLE }
      else { s with state_ := State.IDLE }
    else s

/-- The calls to listeners among a list of effects, in order. -/
def listener_calls : List Effect → List (Nat × Nat)
  | [] => []
  | Effect.call i v :: rest => (i, v) :: listener_calls rest
  | Effect.tx _ :: rest => listener_calls rest

/-- The frames sent among a list of effects, in order. -/
def sent_frames : List Effect → List (List Nat)
  | [] => []
  | Effect.tx frame :: rest => frame :: sent_frames rest
  | Effect.call _ _ :: rest => sent_frames rest

/-- A frame with bit `k` of byte `i` inverted. -/
def flip_bit (frame : List Nat) (i k : Nat) : List Nat :=
  frame.set i (frame.getD i 0 ^^^ (1 <<< k))

/-! ## Executions -/

/-- What can happen to the hub: a tick of the host (`loop`), a poll trigger
(`update`), a consumer queueing a write or registering a listener, and bytes
arriving at the UART. -/
inductive Event
  | tick (now t : Nat)
  | poll (t : Nat)
  | write (addr value : Nat)
  | listen (addr : Nat)
  | rx (bytes : List Nat)
  deriving DecidableEq, Repr

/-- The hub after one event. -/
def step (s : WaterFurnace) : Event → WaterFurnace
  | Event.tick now t => loop now t s
  | Event.poll t => update t s
  | Event.write addr value => write_register addr value s
  | Event.listen addr => register_listener addr s
  | Event.rx bytes => uart_receive bytes s

/-- The hub after a sequence of events, oldest first. -/
def run (s : WaterFurnace) (events : List Event) : WaterFurnace :=
  events.foldl step s

/-- The event is a tick that drains the pending-write queue: a tick that finds
the hub in `IDLE` with a non-empty queue. -/
def drains (s : WaterFurnace) : Event → Bool
  | Event.tick _ _ => decide (s.state_ = State.IDLE) && decide (s.pending_writes_ ≠ [])
  | _ => false

/-- No event of the sequence, run from `s`, drains the pending-write queue. -/
def no_drain (s : WaterFurnace) : List Event → Prop
  | [] => True
  | e :: rest => drains s e = false ∧ no_drain (step s e) rest

/-- The (address, value) pairs of the `write_register` calls of a sequence of
events, in call order. -/
def writes_of : List Event → List (Nat × Nat)
  | [] => []
  | Event.write addr value :: rest => (addr, value) :: writes_of rest
  | _ :: rest => writes_of rest

/-- The positions, in registration order, of the listeners registered for
`addr`. -/
def listeners_for (listeners : List RegisterListener) (addr : Nat) : List Nat :=
  (listeners.enum.filter (fun p => decide (p.2.address = addr))).map (fun p => p.1)

/-- The addresses a poll group stands for, in the order `poll_next_group_`
records them: the ranges flattened, then the individual addresses. -/
def group_addresses (group : PollGroup) : List Nat :=
  push_range_addresses group.ranges [] ++ group.individual

/-- No address is expected twice: the recorded expected addresses are distinct,
so are the addresses of every poll group, and the zone count is at most 6. -/
def distinct_addresses (s : WaterFurnace) : Prop :=
  s.expected_addresses_.Nodup
  ∧ (∀ group ∈ s.poll_groups_, (group_addresses group).Nodup)
  ∧ s.iz2_zone_count_ ≤ 6

/-! ## Views of the hub used by the claims -/

/-- The hub with the register cache, the effects, both receive buffers and the
time of the last response blanked: what is left is everything that receiving
and storing a response leaves alone before the state transition runs. -/
def control_part (s : WaterFurnace) : WaterFurnace :=
  { s with
    registers_ := fun _ => none
    effects := []
    rx_buffer_ := []
    uart_rx := []
    last_response_time_ := 0 }

/-- What setup establishes: the capability flags, the zone count, the identity
strings and the poll-group list. -/
structure Capabilities where
  has_thermostat : Bool
  has_iz2 : Bool
  has_axb : Bool
  has_vs_drive : Bool
  has_energy_monitoring : Bool
  has_aoc : Bool
  has_moc : Bool
  iz2_zone_count : Nat
  awl_thermostat : Bool
  awl_iz2 : Bool
  awl_axb : Bool
  model_number : List Char
  serial_number : List Char
  abc_program : List Char
  poll_groups : List PollGroup
  deriving DecidableEq, Repr

/-- The capabilities a hub currently reports. -/
def capabilities (s : WaterFurnace) : Capabilities :=
  { has_thermostat := s.has_thermostat_
    has_iz2 := s.has_iz2_
    has_axb := s.has_axb_
    has_vs_drive := s.has_vs_drive_
    has_energy_monitoring := s.has_energy_monitoring_
    has_aoc := s.has_aoc_
    has_moc := s.has_moc_
    iz2_zone_count := s.iz2_zone_count_
    awl_thermostat := s.awl_thermostat_
    awl_iz2 := s.awl_iz2_
    awl_axb := s.awl_axb_
    model_number := s.model_number_
    serial_number := s.serial_number_
    abc_program := s.abc_program_
    poll_groups := s.poll_groups_ }

/-- Setup is over: poll groups exist, no setup request is outstanding and the
hub is in none of the two setup states. -/
def setup_done (s : WaterFurnace) : Prop :=
  s.poll_groups_ ≠ [] ∧ s.setup_phase_ = 0
  ∧ s.state_ ≠ State.SETUP_READ_ID ∧ s.state_ ≠ State.SETUP_DETECT_COMPONENTS

/-- The characters one register value contributes to an identity string as the
specification describes it: the high byte, then the low byte, zero bytes
omitted. -/
def register_chars (v : Nat) : List Char :=
  ([v / 256 % 256, v % 256].filter (fun b => b != 0)).map Char.ofNat

/-- The characters of the `n` registers from `start` on, in address order; a
register that is not cached contributes nothing. -/
def identity_chars (regs : Nat → Option Nat) (start n : Nat) : List Char :=
  (List.range n).flatMap (fun i => register_chars ((regs (start + i)).getD 0))

/-- A string with its trailing spaces removed. -/
def strip_trailing_spaces (chars : List Char) : List Char :=
  chars.rdropWhile (fun c => c == ' ')

/-! ## A simulated device -/

/-- The function 65 response of a device whose register `a` holds `fixture a`
to a read of `addresses`: 01 41, the byte count, each value big-endian, and the
CRC. -/
def mock_response (fixture : Nat → Nat) (addresses : List Nat) : List Nat :=
  append_crc ([SLAVE_ADDRESS, FUNC_READ_RANGES, 2 * addresses.length]
    ++ addresses.flatMap (fun a => [fixture a / 256, fixture a % 256]))

/-- The identity registers of the test fixture: 88..91 hold 16706, 17235,
20556, 22099, registers 92..94 hold 20308, 20533, 12345, register 105 holds
12345, every other register holds 0. -/
def identity_fixture (a : Nat) : Nat :=
  if a = 88 then 16706 else if a = 89 then 17235 else if a = 90 then 20556
  else if a = 91 then 22099 else if a = 92 then 20308 else if a = 93 then 20533
  else if a = 94 then 12345 else if a = 105 then 12345 else 0

/-- Detection registers with thermostat and AXB active (status 1), thermostat
version `thermostat_version` and AXB version `axb_version` (raw, in
hundredths), every other register 0. -/
def detection_fixture (thermostat_version axb_version : Nat) (a : Nat) : Nat :=
  if a = 800 then COMPONENT_ACTIVE else if a = 801 then thermostat_version
  else if a = 806 then COMPONENT_ACTIVE else if a = 807 then axb_version else 0

/-- Detection registers with an active IZ2 of version 2.0 (raw 200) and the
zone-count register 483 holding `zones`, every other register 0. -/
def iz2_fixture (zones : Nat) (a : Nat) : Nat :=
  if a = 812 then COMPONENT_ACTIVE else if a = 813 then 200
  else if a = 483 then zones else 0

/-- Setup from the initial hub up to the point where the detection response is
held by the UART: the identity request, the identity response of a device
holding `identity_fixture`, the tick that processes it, the detection request
and the detection response of a device holding `detection`. -/
def setup_events (detection : Nat → Nat) : List Event :=
  [Event.tick 0 0,
   Event.rx (mock_response identity_fixture (push_range_addresses get_system_id_ranges [])),
   Event.tick 10 10,
   Event.tick 20 20,
   Event.rx (mock_response detection (push_range_addresses get_component_detect_ranges []))]

/-! ## Sample hubs -/

/-- A hub that has finished setup and sits in `IDLE`, with three listeners
registered, two of them for register 745. -/
def idle_hub : WaterFurnace :=
  { state_ := State.IDLE
    poll_groups_ := [{ ranges := get_thermostat_ranges }]
    model_number_ := "OTP509".toList
    listeners_ := [{ address := 745 }, { address := 746 }, { address := 745 }] }

/-- A hub that has requested registers 745 and 746 (function 66) and waits for
the response, with `bytes` held by the UART and register 19 already cached. -/
def waiting_hub (bytes : List Nat) : WaterFurnace :=
  { state_ := State.WAITING_RESPONSE
    poll_groups_ := [{ individual := [745, 746] }]
    model_number_ := "OTP509".toList
    expected_addresses_ := [745, 746]
    registers_ := map_assign (fun _ => none) 19 512
    listeners_ := [{ address := 745 }, { address := 746 }, { address := 745 }]
    uart_rx := bytes }

/-- A function 66 response carrying the two values 700 and 730:
01 42 04 02 BC 02 DA and its CRC. -/
def sample_read_response : List Nat :=
  [0x01, 0x42, 0x04, 0x02, 0xBC, 0x02, 0xDA, 0xB5, 0x85]

/-- A function 66 response carrying the single value 700: 01 42 02 02 BC and
its CRC. -/
def sample_short_response : List Nat :=
  [0x01, 0x42, 0x02, 0x02, 0xBC, 0xAC, 0xA9]

/-! ## The codec as the specification words it -/

/-- One right shift of the running CRC as the specification describes it: the
bit shifted out is `crc % 2`, and `0xA001` is XORed in when it was 1. -/
def modbus_shift (crc : Nat) : Nat :=
  let shifted_out := crc % 2
  let shifted := crc / 2
  if shifted_out = 1 then shifted ^^^ 0xA001 else shifted

/-- Bit-at-a-time CRC16/MODBUS continued from a running value: each byte is
XORed into the running CRC, which is then shifted right 8 times. -/
def modbus_crc_from : Nat → List Nat → Nat
  | crc, [] => crc
  | crc, b :: rest => modbus_crc_from (modbus_shift^[8] (crc ^^^ b)) rest

/-- Bit-at-a-time CRC16/MODBUS with initial value `0xFFFF`. -/
def modbus_crc (data : List Nat) : Nat :=
  modbus_crc_from 0xFFFF data

/-- The four bytes the builders push for one pair (a range or a write). -/
def pair_bytes (p : Nat × Nat) : List Nat :=
  [(p.1 >>> 8) &&& 0xFF, p.1 &&& 0xFF, (p.2 >>> 8) &&& 0xFF, p.2 &&& 0xFF]

/-- The two bytes `build_read_registers_request` pushes for one address. -/
def addr_bytes (a : Nat) : List Nat :=
  [(a >>> 8) &&& 0xFF, a &&& 0xFF]

/-- The hub after the identity request, with the identity response of the
fixture device held by the UART. -/
def identity_pending : WaterFurnace :=
  run {} [Event.tick 0 0,
    Event.rx (mock_response identity_fixture (push_range_addresses get_system_id_ranges []))]

/-- The hub after the detection request, with the detection response of a
device holding `detection` held by the UART. -/
def detection_pending (detection : Nat → Nat) : WaterFurnace :=
  run {} (setup_events detection)

/-- One step forward in setup terms: either the poll-group list and the zone
count are what they were, or setup is over. -/
def setup_progress (s s' : WaterFurnace) : Prop :=
  (s'.poll_groups_ = s.poll_groups_ ∧ s'.iz2_zone_count_ = s.iz2_zone_count_) ∨ setup_done s'

/-- What holds in every hub reached from the initial one: while no poll groups
exist the zone count is 0, and once poll groups exist setup is over. -/
def setup_inv (s : WaterFurnace) : Prop :=
  (s.poll_groups_ = [] → s.iz2_zone_count_ = 0) ∧ (s.poll_groups_ ≠ [] → setup_done s)

/-- The consumer calls `write_register(i, 0)` for `i = 0, …, n - 1`, in
order. -/
def many_writes (n : Nat) : List Event :=
  (List.range n).map (fun i => Event.write i 0)

/-- Written from the specification's words: the length the framing rule
derives from the header of a response, 5 for an error code, 4 for function 67,
8 for function 6, 3 + byte count + 2 otherwise. -/
def framing_rule_length (f : List Nat) : Nat :=
  if is_error_response (f.getD 1 0) then 5
  else if f.getD 1 0 = 67 then 4
  else if f.getD 1 0 = 6 then 8
  else 3 + f.getD 2 0 + 2

/-- A response delivered in chunks: each chunk `(bytes, now, t)` reaches the
UART and is followed by one tick of the host with the clock readings `now` and
`t`. -/
def chunk_events (chunks : List (List Nat × Nat × Nat)) : List Event :=
  chunks.flatMap (fun c => [Event.rx c.1, Event.tick c.2.1 c.2.2])

/-- The bytes of a sequence of chunks, in order of arrival. -/
def chunk_bytes (chunks : List (List Nat × Nat × Nat)) : List Nat :=
  chunks.flatMap (fun c => c.1)

/-! ## registers.h: 32-bit values, IZ2 zone helpers, fault table -/

def FAN_AUTO : Nat := 0
def FAN_CONTINUOUS : Nat := 1
def FAN_INTERMITTENT : Nat := 2

def MODE_OFF : Nat := 0
def MODE_AUTO : Nat := 1
def MODE_COOL : Nat := 2
def MODE_HEAT : Nat := 3

def REG_LAST_FAULT : Nat := 25

/-- The function `uint32_t to_uint32(uint16_t hi, uint16_t lo)`: the shift and
the `|` are done in `uint32_t`. -/
def to_uint32 (hi lo : Nat) : Nat :=
  (((hi <<< 16) % 4294967296) ||| lo) % 4294967296

/-- The function `int32_t to_int32(uint16_t hi, uint16_t lo)`:
`static_cast<int32_t>` of the 32-bit pattern, two's complement. -/
def to_int32 (hi lo : Nat) : Int :=
  if to_uint32 hi lo < 2147483648 then (to_uint32 hi lo : Int)
  else (to_uint32 hi lo : Int) - 4294967296

/-- The function `uint8_t iz2_extract_mode(uint16_t config2)`. -/
def iz2_extract_mode (config2 : Nat) : Nat :=
  ((config2 >>> 8) &&& 0x03) % 256

/-- The function `uint8_t iz2_extract_fan_mode(uint16_t config1)`. -/
def iz2_extract_fan_mode (config1 : Nat) : Nat :=
  if config1 &&& 0x80 ≠ 0 then FAN_CONTINUOUS % 256
  else if config1 &&& 0x100 ≠ 0 then FAN_INTERMITTENT % 256
  else FAN_AUTO % 256

/-- The function `uint8_t iz2_extract_cooling_setpoint(uint16_t config1)`; the
sum is formed in `int` and converted to `uint8_t`. -/
def iz2_extract_cooling_setpoint (config1 : Nat) : Nat :=
  (((config1 &&& 0x7E) >>> 1) + 36) % 256

/-- The function
`uint8_t iz2_extract_heating_setpoint(uint16_t config1, uint16_t config2)`;
`carry` is a `uint8_t`, the sum is formed in `int` and converted to
`uint8_t`. -/
def iz2_extract_heating_setpoint (config1 config2 : Nat) : Nat :=
  let carry := (config1 &&& 0x01) % 256
  (((carry <<< 5) ||| ((config2 &&& 0xF800) >>> 11)) + 36) % 256

/-- The struct `FaultInfo`. -/
structure FaultInfo where
  code : Nat
  description : String
  deriving DecidableEq, Repr

/-- The array `FAULT_TABLE`. -/
def FAULT_TABLE : List FaultInfo :=
  [ ⟨1, "Input Error"⟩,
    ⟨2, "High Pressure"⟩,
    ⟨3, "Low Pressure"⟩,
    ⟨4, "Freeze Detect FP2"⟩,
    ⟨5, "Freeze Detect FP1"⟩,
    ⟨7, "Condensate Overflow"⟩,
    ⟨8, "Over/Under Voltage"⟩,
    ⟨9, "AirF/RPM"⟩,
    ⟨10, "Compressor Monitor"⟩,
    ⟨11, "FP1/2 Sensor Error"⟩,
    ⟨12, "RefPerfrm Error"⟩,
    ⟨13, "Non-Critical AXB Sensor Error"⟩,
    ⟨14, "Critical AXB Sensor Error"⟩,
    ⟨15, "Hot Water Limit"⟩,
    ⟨16, "VS Pump Error"⟩,
    ⟨17, "Communicating Thermostat Error"⟩,
    ⟨18, "Non-Critical Comms Error"⟩,
    ⟨19, "Critical Comms Error"⟩,
    ⟨21, "Low Loop Pressure"⟩,
    ⟨22, "Communicating ECM Error"⟩,
    ⟨23, "HA Alarm 1"⟩,
    ⟨24, "HA Alarm 2"⟩,
    ⟨25, "AxbEev Error"⟩,
    ⟨41, "High Drive Temp"⟩,
    ⟨42, "High Discharge Temp"⟩,
    ⟨99, "System Reset"⟩ ]

/-- The loop of `fault_code_to_string` over the entries still to visit. -/
def fault_code_to_string_from : List FaultInfo → Nat → String
  | [], _ => "Unknown Fault"
  | info :: rest, code =>
    if info.code = code then info.description else fault_code_to_string_from rest code

/-- The function `const char *fault_code_to_string(uint8_t code)`. -/
def fault_code_to_string (code : Nat) : String :=
  fault_code_to_string_from FAULT_TABLE code

/-! ## text_sensor/waterfurnace_text_sensor.cpp -/

/-- The method `WaterFurnaceTextSensor::on_fault_register_`: the string it
publishes. `fault_code` is declared `uint8_t`, so the masked value is reduced
modulo 256 on assignment; `%d` prints it in decimal. The longest result has 45
characters, within the 64-byte buffer of `snprintf`. -/
def on_fault_register_ (value : Nat) : String :=
  let locked_out := (value &&& 0x8000) != 0
  let fault_code := (value &&& 0x7FFF) % 256
  if fault_code = 0 then "No Fault"
  else
    let desc := fault_code_to_string fault_code
    "E" ++ toString fault_code ++ " " ++ desc ++ (if locked_out then " (LOCKOUT)" else "")

/-- The register pairs of the 32-bit power and energy quantities, high word
first: `REG_COMPRESSOR_WATTS_HI/_LO`, `REG_BLOWER_WATTS_HI/_LO`,
`REG_AUX_HEAT_WATTS_HI/_LO`, `REG_TOTAL_WATTS_HI/_LO`,
`REG_HEAT_EXTRACTION_HI/_LO`, `REG_HEAT_REJECTION_HI/_LO` and
`REG_PUMP_WATTS_HI/_LO`. -/
def power_register_pairs : List (Nat × Nat) :=
  [(1146, 1147), (1148, 1149), (1150, 1151), (1152, 1153), (1154, 1155), (1156, 1157),
    (1164, 1165)]

/-- The listener calls a list of (address, value) pairs gives rise to, pair by
pair, each pair calling the listeners registered for its address in
registration order. -/
def calls_for (listeners : List RegisterListener) (pairs : List (Nat × Nat)) :
    List (Nat × Nat) :=
  pairs.flatMap (fun av => (listeners_for listeners av.1).map (fun j => (j, av.2)))

/-- Register contents of a device for the power poll group: register `a` holds
`a - 1000` (and register 16 holds 240). -/
def power_fixture (a : Nat) : Nat :=
  if a = 16 then 240 else a - 1000

/-- A hub that has requested the power poll group (second of two groups) and
waits for the response, with `bytes` held by the UART and listeners for the
low and the high word of the total watts and for the line voltage. -/
def power_waiting_hub (bytes : List Nat) : WaterFurnace :=
  { state_ := State.WAITING_RESPONSE
    poll_groups_ := [{ ranges := get_thermostat_ranges }, { ranges := get_power_ranges }]
    current_poll_group_ := 1
    model_number_ := "OTP509".toList
    has_axb_ := true
    has_energy_monitoring_ := true
    expected_addresses_ := push_range_addresses get_power_ranges []
    listeners_ := [{ address := 1153 }, { address := 1152 }, { address := 16 }]
    uart_rx := bytes }

/-- The response of a device holding `power_fixture` to the request for the
power poll group. -/
def power_response : List Nat :=
  mock_response power_fixture (push_range_addresses get_power_ranges [])

/-- Register contents of a device whose model-number registers 92 to 103 are
all zero; the other identity registers are those of `identity_fixture`. -/
def blank_model_fixture (a : Nat) : Nat :=
  if 92 ≤ a ∧ a ≤ 103 then 0 else identity_fixture a

/-- From the initial hub to the hub that waits with the detection response
held by the UART, for a device whose identity response is that of
`blank_model_fixture` and whose detection registers are `detection`. -/
def blank_model_detection_pending (detection : Nat → Nat) : WaterFurnace :=
  run {}
    [Event.tick 0 0,
     Event.rx (mock_response blank_model_fixture (push_range_addresses get_system_id_ranges [])),
     Event.tick 10 10,
     Event.tick 20 20,
     Event.rx (mock_response detection (push_range_addresses get_component_detect_ranges []))]

/-- Written from the specification's words: the poll-group list for given
capability flags and zone count, in order: the core thermostat and status
ranges, always; the thermostat configuration registers 12005 and 12006, when
the thermostat is AWL and no IZ2 is present; the AXB ranges, when the AXB is
present; the power ranges, when energy monitoring is available; the
variable-speed-drive ranges, when the drive is present; the per-zone ranges
(31007, 3n) and (31200, 3n) for zone count n, when the IZ2 is AWL and n > 0. -/
def expected_poll_groups (s : WaterFurnace) : List PollGroup :=
  [{ ranges := [(19, 2), (25, 2), (30, 2), (502, 1), (740, 3), (745, 3)] }]
  ++ (if s.awl_thermostat_ = true ∧ s.has_iz2_ = false then
        [{ individual := [12005, 12006] }] else [])
  ++ (if s.has_axb_ = true then
        [{ ranges := [(400, 2), (900, 1), (1103, 6), (1109, 11), (1124, 2), (1134, 3)] }]
      else [])
  ++ (if s.has_energy_monitoring_ = true then
        [{ ranges := [(16, 1), (1146, 12), (1164, 2)] }] else [])
  ++ (if s.has_vs_drive_ = true then
        [{ ranges := [(3000, 2), (3220, 8), (3322, 9), (3522, 1), (3524, 1)] }] else [])
  ++ (if s.awl_iz2_ = true ∧ s.iz2_zone_count_ > 0 then
        [{ ranges := [(31007, 3 * s.iz2_zone_count_), (31200, 3 * s.iz2_zone_count_)] }]
      else [])

/-- Written from the wire format: the (start, count) pairs a read-ranges
payload carries, each as two big-endian 16-bit words. -/
def decode_range_pairs : List Nat → List (Nat × Nat)
  | a :: b :: c :: d :: rest => (256 * a + b, 256 * c + d) :: decode_range_pairs rest
  | _ => []

/-- Written from the wire format: the addresses a read-registers payload
carries, each as one big-endian 16-bit word. -/
def decode_addresses : List Nat → List Nat
  | a :: b :: rest => (256 * a + b) :: decode_addresses rest
  | _ => []

/-- Written from the wire format: the register addresses a read request asks
for, in the order the controller answers them. The payload lies between the
two header bytes and the two CRC bytes; function 65 carries ranges, each
standing for `count` consecutive addresses from `start`, function 66 carries
the addresses themselves. -/
def requested_addresses (frame : List Nat) : List Nat :=
  let payload := (frame.drop 2).take (frame.length - 4)
  if frame.getD 1 0 = 65 then push_range_addresses (decode_range_pairs payload) []
  else if frame.getD 1 0 = 66 then decode_addresses payload
  else []

/-- An Idle hub whose only poll group mixes a range with an individual
address. -/
def mixed_group_hub : WaterFurnace :=
  { state_ := State.IDLE
    poll_groups_ := [{ ranges := [(19, 2)], individual := [12005] }]
    model_number_ := "OTP509".toList }

/-- The frame `poll_next_group_` sends for a poll group: the three-way choice of
its "Send the request" block. -/
def group_request (group : PollGroup) : List Nat :=
  if group.ranges ≠ [] ∧ group.individual = [] then build_read_ranges_request group.ranges
  else if group.ranges = [] ∧ group.individual ≠ [] then
    build_read_registers_request group.individual
  else if (push_range_addresses group.ranges [] ++ group.individual).length
      ≤ MAX_REGISTERS_PER_REQUEST then
    build_read_registers_request (push_range_addresses group.ranges [] ++ group.individual)
  else build_read_ranges_request group.ranges

/-- From the initial hub through setup of a device with thermostat and AXB
(five poll groups, index 0, no poll yet), then one `write_register`, the tick
that sends it, and its function 67 echo held by the UART. -/
def write_echo_pending : WaterFurnace :=
  run (loop 30 30 (detection_pending (detection_fixture 300 200)))
    [Event.write 12619 700, Event.tick 40 40, Event.rx (append_crc [1, 67])]

/-- The sample hub waiting since clock reading `entered - 2001`, after the tick
at clock reading `entered` that times the request out: it has just entered
`ERROR_BACKOFF`. -/
def backoff_hub (entered : Nat) : WaterFurnace :=
  loop entered entered { waiting_hub [] with last_request_time_ := entered - 2001 }

/-- What holds in every hub reached from the initial one. Once poll groups
exist, setup is over and the model number is known. While none exist, no
thermostat and no AXB is recorded, the hub is not `IDLE`, the setup-phase flag
is 0 in the two setup states and set while a setup request is outstanding or
backed off. -/
def reach_inv (s : WaterFurnace) : Prop :=
  (s.poll_groups_ ≠ [] → setup_done s ∧ s.model_number_ ≠ [])
  ∧ (s.poll_groups_ = [] →
      s.has_thermostat_ = false ∧ s.has_axb_ = false ∧ s.state_ ≠ State.IDLE
      ∧ (s.state_ = State.SETUP_READ_ID ∨ s.state_ = State.SETUP_DETECT_COMPONENTS →
          s.setup_phase_ = 0)
      ∧ (s.state_ = State.WAITING_RESPONSE ∨ s.state_ = State.ERROR_BACKOFF →
          s.setup_phase_ ≠ 0))

/-- A poll cycle in progress, `k` responses in: what the hub `m` reached from
the Idle hub `s` looks like while it waits for the response of group `k`. -/
def awaiting_group (s m : WaterFurnace) (k : Nat) : Prop :=
  m.state_ = State.WAITING_RESPONSE
  ∧ m.poll_groups_ = s.poll_groups_
  ∧ m.setup_phase_ = 0
  ∧ m.rx_buffer_ = []
  ∧ m.uart_rx = []
  ∧ m.current_poll_group_ = k
  ∧ sent_frames m.effects
      = sent_frames s.effects ++ (s.poll_groups_.take (k + 1)).map group_request
  ∧ ∃ group, s.poll_groups_[k]? = some group
      ∧ m.expected_addresses_ = group_addresses group

/-- An Idle hub after setup with two poll groups, the thermostat ranges and the
power ranges, and listeners for total watts and line voltage. -/
def two_group_hub : WaterFurnace :=
  { power_waiting_hub [] with state_ := State.IDLE, expected_addresses_ := [] }

/-- The responses of a device holding `power_fixture` to the two requests of
`two_group_hub`, delivered at clock readings 10 and 20. -/
def two_group_responses : List (List Nat × Nat × Nat) :=
  [(mock_response power_fixture (push_range_addresses get_thermostat_ranges []), 10, 10),
    (power_response, 20, 20)]

/-! ## Bit-level facts -/

theorem and_0xFF_eq_mod (c : Nat) : c &&& 0xFF = c % 256 :=
  Nat.and_pow_two_sub_one_eq_mod c 8

theorem shr8_eq_div (c : Nat) : c >>> 8 = c / 256 :=
  Nat.shiftRight_eq_div_pow c 8

theorem or_shl8_eq_add (lo hi : Nat) (h : lo < 256) : lo ||| (hi <<< 8) = lo + 256 * hi := by
  have e := Nat.mul_add_lt_is_or (i := 8) (b := lo) (by simpa using h) hi
  rw [Nat.shiftLeft_eq, Nat.or_comm, Nat.mul_comm hi (2 ^ 8), ← e]
  omega

theorem shl8_or_eq_add (hi lo : Nat) (h : lo < 256) : (hi <<< 8) ||| lo = 256 * hi + lo := by
  rw [Nat.or_comm, or_shl8_eq_add lo hi h]
  omega

theorem crc_bytes_recombine (c : Nat) (h : c < 65536) :
    (c &&& 0xFF) ||| (((c >>> 8) &&& 0xFF) <<< 8) = c := by
  rw [and_0xFF_eq_mod, and_0xFF_eq_mod, shr8_eq_div,
    or_shl8_eq_add _ _ (Nat.mod_lt _ (by decide))]
  omega

/-! ## Bounds on the running CRC -/

theorem crc16_shift_eq (c : Nat) :
    crc16_shift c = if c % 2 = 1 then (c / 2) ^^^ 0xA001 else c / 2 := by
  unfold crc16_shift
  rw [Nat.and_one_is_mod, Nat.shiftRight_eq_div_pow]
  rcases Nat.mod_two_eq_zero_or_one c with h | h <;> simp [h]

theorem crc16_shift_lt (c : Nat) (h : c < 65536) : crc16_shift c < 65536 := by
  rw [crc16_shift_eq]
  have h2 : c / 2 < 2 ^ 16 := by omega
  split
  · exact Nat.xor_lt_two_pow h2 (by decide)
  · omega

theorem crc16_bits_lt (j c : Nat) (h : c < 65536) : crc16_bits j c < 65536 := by
  induction j generalizing c with
  | zero => simpa [crc16_bits] using h
  | succ j ih => exact ih _ (crc16_shift_lt c h)

theorem crc16_byte_lt (c b : Nat) (hc : c < 65536) (hb : b < 256) :
    crc16_byte c b < 65536 := by
  apply crc16_bits_lt
  exact Nat.xor_lt_two_pow (n := 16) hc (by omega)

theorem foldl_crc16_byte_lt (data : List Nat) (c : Nat) (hc : c < 65536)
    (hd : ∀ b ∈ data, b < 256) : data.foldl crc16_byte c < 65536 := by
  induction data generalizing c with
  | nil => simpa using hc
  | cons b rest ih =>
    simp only [List.foldl_cons]
    exact ih _ (crc16_byte_lt c b hc (hd b (by simp)))
      (fun x hx => hd x (List.mem_cons_of_mem _ hx))

theorem crc16_lt (data : List Nat) (hd : ∀ b ∈ data, b < 256) : crc16 data < 65536 :=
  foldl_crc16_byte_lt data 0xFFFF (by decide) hd

/-! ## Frames closed by `append_crc` -/

theorem append_crc_eq (frame : List Nat) :
    append_crc frame = frame ++ [crc16 frame % 256, crc16 frame / 256 % 256] := by
  simp [append_crc, and_0xFF_eq_mod, shr8_eq_div]

theorem validate_body_crc (body : List Nat) (lo hi : Nat) (hlen : 2 ≤ body.length) :
    validate_frame_crc (body ++ [lo, hi]) = (lo ||| (hi <<< 8) == crc16 body) := by
  unfold validate_frame_crc
  have hl : (body ++ [lo, hi]).length = body.length + 2 := by simp
  have h1 : (body ++ [lo, hi]).getD (body.length + 2 - 2) 0 = lo := by
    rw [Nat.add_sub_cancel, List.getD_eq_getElem?_getD,
      List.getElem?_append_right (Nat.le_refl _)]
    simp
  have h2 : (body ++ [lo, hi]).getD (body.length + 2 - 1) 0 = hi := by
    have e : body.length + 2 - 1 = body.length + 1 := by omega
    rw [e, List.getD_eq_getElem?_getD, List.getElem?_append_right (Nat.le_succ _)]
    simp
  have h3 : (body ++ [lo, hi]).take (body.length + 2 - 2) = body := by simp
  simp only [hl, h1, h2, h3, MIN_FRAME_SIZE]
  have : ¬ (body.length + 2 < 4) := by omega
  simp [this]

theorem validate_append_crc (frame : List Nat) (hlen : 2 ≤ frame.length)
    (hb : ∀ b ∈ frame, b < 256) : validate_frame_crc (append_crc frame) = true := by
  have hc := crc16_lt frame hb
  rw [append_crc_eq, validate_body_crc _ _ _ hlen,
    or_shl8_eq_add _ _ (Nat.mod_lt _ (by decide))]
  simp only [beq_iff_eq]
  omega

/-! ## The request builders in closed form -/

theorem foldl_push_eq_flatMap {α : Type} (f : α → List Nat) (xs : List α) (init : List Nat) :
    xs.foldl (fun frame x => frame ++ f x) init = init ++ xs.flatMap f := by
  induction xs generalizing init with
  | nil => simp
  | cons x rest ih => simp [ih, List.append_assoc]

theorem build_read_ranges_request_eq (ranges : List (Nat × Nat)) :
    build_read_ranges_request ranges = append_crc ([1, 65] ++ ranges.flatMap pair_bytes) := by
  have h := foldl_push_eq_flatMap pair_bytes ranges [1, 65]
  simp only [pair_bytes] at h
  simp only [build_read_ranges_request, SLAVE_ADDRESS, FUNC_READ_RANGES, pair_bytes,
    List.append_assoc, List.singleton_append, List.cons_append, List.nil_append]
  rw [h]
  rfl

theorem build_read_registers_request_eq (addresses : List Nat) :
    build_read_registers_request addresses
      = append_crc ([1, 66] ++ addresses.flatMap addr_bytes) := by
  have h := foldl_push_eq_flatMap addr_bytes addresses [1, 66]
  simp only [addr_bytes] at h
  simp only [build_read_registers_request, SLAVE_ADDRESS, FUNC_READ_REGISTERS, addr_bytes,
    List.append_assoc, List.singleton_append, List.cons_append, List.nil_append]
  rw [h]
  rfl

theorem build_write_registers_request_eq (writes : List (Nat × Nat)) :
    build_write_registers_request writes
      = append_crc ([1, 67] ++ writes.flatMap pair_bytes) := by
  have h := foldl_push_eq_flatMap pair_bytes writes [1, 67]
  simp only [pair_bytes] at h
  simp only [build_write_registers_request, SLAVE_ADDRESS, FUNC_WRITE_REGISTERS, pair_bytes,
    List.append_assoc, List.singleton_append, List.cons_append, List.nil_append]
  rw [h]
  rfl

theorem build_write_single_request_eq (address value : Nat) :
    build_write_single_request address value
      = append_crc ([1, 6] ++ pair_bytes (address, value)) := by
  simp [build_write_single_request, SLAVE_ADDRESS, FUNC_WRITE_SINGLE, pair_bytes]

theorem pair_bytes_lt (p : Nat × Nat) : ∀ b ∈ pair_bytes p, b < 256 := by
  intro b hb
  simp only [pair_bytes, and_0xFF_eq_mod, List.mem_cons, List.mem_singleton,
    List.not_mem_nil, or_false] at hb
  rcases hb with h | h | h | h <;> (rw [h]; exact Nat.mod_lt _ (by decide))

theorem addr_bytes_lt (a : Nat) : ∀ b ∈ addr_bytes a, b < 256 := by
  intro b hb
  simp only [addr_bytes, and_0xFF_eq_mod, List.mem_cons, List.mem_singleton,
    List.not_mem_nil, or_false] at hb
  rcases hb with h | h <;> (rw [h]; exact Nat.mod_lt _ (by decide))

theorem header_payload_lt {α : Type} (f : α → List Nat) (hf : ∀ x, ∀ b ∈ f x, b < 256)
    (fc : Nat) (hfc : fc < 256) (xs : List α) :
    ∀ b ∈ [1, fc] ++ xs.flatMap f, b < 256 := by
  intro b hb
  simp only [List.cons_append, List.nil_append, List.mem_cons, List.mem_flatMap] at hb
  rcases hb with h | h | ⟨x, _, hx⟩
  · omega
  · omega
  · exact hf x b hx

theorem length_flatMap_pair_bytes (xs : List (Nat × Nat)) :
    (xs.flatMap pair_bytes).length = 4 * xs.length := by
  induction xs with
  | nil => simp
  | cons x rest ih => simp [List.flatMap_cons, ih, pair_bytes]; omega

theorem length_flatMap_addr_bytes (xs : List Nat) :
    (xs.flatMap addr_bytes).length = 2 * xs.length := by
  induction xs with
  | nil => simp
  | cons x rest ih => simp [List.flatMap_cons, ih, addr_bytes]; omega

/-! ## Frame codec: the claims -/

/-- C1: every frame returned by `build_read_ranges_request`,
`build_read_registers_request`, `build_write_registers_request` and
`build_write_single_request`, for any list of ranges, addresses or pairs (the
empty list included) and any single address and value, passes
`validate_frame_crc`. -/
theorem C1_built_frames_pass_validate_frame_crc (ranges : List (Nat × Nat))
    (addresses : List Nat) (writes : List (Nat × Nat)) (address value : Nat) :
    validate_frame_crc (build_read_ranges_request ranges) = true
    ∧ validate_frame_crc (build_read_registers_request addresses) = true
    ∧ validate_frame_crc (build_write_registers_request writes) = true
    ∧ validate_frame_crc (build_write_single_request address value) = true := by
  refine ⟨?_, ?_, ?_, ?_⟩
  · rw [build_read_ranges_request_eq]
    exact validate_append_crc _ (by simp)
      (header_payload_lt pair_bytes pair_bytes_lt 65 (by decide) ranges)
  · rw [build_read_registers_request_eq]
    exact validate_append_crc _ (by simp)
      (header_payload_lt addr_bytes addr_bytes_lt 66 (by decide) addresses)
  · rw [build_write_registers_request_eq]
    exact validate_append_crc _ (by simp)
      (header_payload_lt pair_bytes pair_bytes_lt 67 (by decide) writes)
  · rw [build_write_single_request_eq]
    have h := header_payload_lt pair_bytes pair_bytes_lt 6 (by decide) [(address, value)]
    simp only [List.flatMap_cons, List.flatMap_nil, List.append_nil] at h
    exact validate_append_crc _ (by simp [pair_bytes]) h

/-! ## The CRC update is injective -/

theorem crc16_shift_inj (a b : Nat) (ha : a < 65536) (hb : b < 65536)
    (h : crc16_shift a = crc16_shift b) : a = b := by
  rw [crc16_shift_eq, crc16_shift_eq] at h
  have top : ∀ x y : Nat, x < 65536 → y < 65536 → (x / 2) ^^^ 0xA001 ≠ y / 2 := by
    intro x y hx hy e
    have hx2 : x / 2 < 2 ^ 15 := by omega
    have hy2 : y / 2 < 2 ^ 15 := by omega
    have t := congrArg (fun n => Nat.testBit n 15) e
    simp only [Nat.testBit_xor, Nat.testBit_lt_two_pow hx2, Nat.testBit_lt_two_pow hy2] at t
    revert t
    decide
  by_cases pa : a % 2 = 1 <;> by_cases pb : b % 2 = 1
  · simp only [pa, pb, if_true] at h
    have := Nat.xor_left_inj.mp h
    omega
  · simp only [pa, pb, if_true, if_false] at h
    exact absurd h (top a b ha hb)
  · simp only [pa, pb, if_true, if_false] at h
    exact absurd h.symm (top b a hb ha)
  · simp only [pa, pb, if_false] at h
    omega

theorem crc16_bits_inj (j a b : Nat) (ha : a < 65536) (hb : b < 65536)
    (h : crc16_bits j a = crc16_bits j b) : a = b := by
  induction j generalizing a b with
  | zero => simpa [crc16_bits] using h
  | succ j ih =>
    exact crc16_shift_inj a b ha hb
      (ih _ _ (crc16_shift_lt a ha) (crc16_shift_lt b hb) h)

theorem crc16_byte_inj_crc (a b x : Nat) (ha : a < 65536) (hb : b < 65536) (hx : x < 256)
    (h : crc16_byte a x = crc16_byte b x) : a = b := by
  have hx16 : x < 2 ^ 16 := by omega
  exact Nat.xor_left_inj.mp
    (crc16_bits_inj 8 _ _ (Nat.xor_lt_two_pow (n := 16) ha hx16)
      (Nat.xor_lt_two_pow (n := 16) hb hx16) h)

theorem crc16_byte_inj_byte (c x y : Nat) (hc : c < 65536) (hx : x < 256) (hy : y < 256)
    (h : crc16_byte c x = crc16_byte c y) : x = y := by
  have hx16 : x < 2 ^ 16 := by omega
  have hy16 : y < 2 ^ 16 := by omega
  exact Nat.xor_right_inj.mp
    (crc16_bits_inj 8 _ _ (Nat.xor_lt_two_pow (n := 16) hc hx16)
      (Nat.xor_lt_two_pow (n := 16) hc hy16) h)

theorem foldl_crc16_byte_inj (data : List Nat) (a b : Nat) (ha : a < 65536) (hb : b < 65536)
    (hd : ∀ x ∈ data, x < 256) (h : data.foldl crc16_byte a = data.foldl crc16_byte b) :
    a = b := by
  induction data generalizing a b with
  | nil => simpa using h
  | cons x rest ih =>
    have hx : x < 256 := hd x (by simp)
    simp only [List.foldl_cons] at h
    exact crc16_byte_inj_crc a b x ha hb hx
      (ih _ _ (crc16_byte_lt a x ha hx) (crc16_byte_lt b x hb hx)
        (fun y hy => hd y (List.mem_cons_of_mem _ hy)) h)

/-- Changing one byte of a buffer changes its CRC. -/
theorem crc16_ne_of_byte_ne (pre suf : List Nat) (x y : Nat)
    (hpre : ∀ b ∈ pre, b < 256) (hsuf : ∀ b ∈ suf, b < 256)
    (hx : x < 256) (hy : y < 256) (hxy : x ≠ y) :
    crc16 (pre ++ x :: suf) ≠ crc16 (pre ++ y :: suf) := by
  intro h
  unfold crc16 at h
  simp only [List.foldl_append, List.foldl_cons] at h
  have hc := foldl_crc16_byte_lt pre 0xFFFF (by decide) hpre
  have h1 := foldl_crc16_byte_inj suf _ _ (crc16_byte_lt _ x hc hx) (crc16_byte_lt _ y hc hy)
    hsuf h
  exact hxy (crc16_byte_inj_byte _ x y hc hx hy h1)

theorem xor_bit_ne (b k : Nat) : b ^^^ (1 <<< k) ≠ b := by
  intro h
  have h0 : b ^^^ (1 <<< k) = b ^^^ 0 := by simpa using h
  have := Nat.xor_right_inj.mp h0
  rw [Nat.shiftLeft_eq, Nat.one_mul] at this
  exact absurd this (Nat.pos_iff_ne_zero.mp (Nat.two_pow_pos k))

theorem xor_bit_lt (b k : Nat) (hb : b < 256) (hk : k < 8) : b ^^^ (1 <<< k) < 256 := by
  have h2 : 1 <<< k < 2 ^ 8 := by
    rw [Nat.shiftLeft_eq, Nat.one_mul]
    exact Nat.pow_lt_pow_right (by decide) hk
  exact Nat.xor_lt_two_pow (n := 8) (by simpa using hb) h2

/-- A frame closed by `append_crc` fails validation once a bit of a byte before
the CRC is inverted. -/
theorem validate_flip_bit_append_crc (body : List Nat) (i k : Nat)
    (hlen : 2 ≤ body.length) (hb : ∀ b ∈ body, b < 256) (hi : i < body.length) (hk : k < 8) :
    validate_frame_crc (flip_bit (append_crc body) i k) = false := by
  have hc := crc16_lt body hb
  have hsplit : body = body.take i ++ body[i] :: body.drop (i + 1) := by
    rw [List.getElem_cons_drop body i hi, List.take_append_drop]
  have hget : (append_crc body).getD i 0 = body[i] := by
    rw [append_crc_eq, List.getD_append _ _ _ _ hi, List.getD_eq_getElem _ _ hi]
  have hset : flip_bit (append_crc body) i k
      = (body.take i ++ (body[i] ^^^ (1 <<< k)) :: body.drop (i + 1))
        ++ [crc16 body % 256, crc16 body / 256 % 256] := by
    unfold flip_bit
    rw [hget, append_crc_eq, List.set_append_left _ _ hi, List.set_eq_take_append_cons_drop]
    simp [hi]
  have hbi : body[i] < 256 := hb _ (List.getElem_mem hi)
  have hne := crc16_ne_of_byte_ne (body.take i) (body.drop (i + 1)) (body[i] ^^^ (1 <<< k))
    body[i] (fun b h => hb b (List.mem_of_mem_take h)) (fun b h => hb b (List.mem_of_mem_drop h))
    (xor_bit_lt _ k hbi hk) hbi (xor_bit_ne _ k)
  rw [← hsplit] at hne
  rw [hset, validate_body_crc _ _ _ (by simp; omega),
    or_shl8_eq_add _ _ (Nat.mod_lt _ (by decide))]
  have e : crc16 body % 256 + 256 * (crc16 body / 256 % 256) = crc16 body := by omega
  rw [e]
  simpa using fun h => hne h.symm

/-- C2: for every list of ranges, inverting any single bit `k` of any payload
byte `i` of `build_read_ranges_request ranges` (a byte after the function code
and before the two CRC bytes) gives a frame that fails `validate_frame_crc`. -/
theorem C2_flipped_payload_bit_fails_crc (ranges : List (Nat × Nat)) (i k : Nat)
    (_hlo : 2 ≤ i) (hhi : i + 2 < (build_read_ranges_request ranges).length) (hk : k < 8) :
    validate_frame_crc (flip_bit (build_read_ranges_request ranges) i k) = false := by
  rw [build_read_ranges_request_eq] at hhi ⊢
  have hlen : (append_crc ([1, 65] ++ List.flatMap ranges pair_bytes)).length
      = ([1, 65] ++ List.flatMap ranges pair_bytes).length + 2 := by
    rw [append_crc_eq]; simp
  exact validate_flip_bit_append_crc _ i k (by simp)
    (header_payload_lt pair_bytes pair_bytes_lt 65 (by decide) ranges) (by omega) hk

set_option maxRecDepth 100000 in
/-- C2 at the frame for the single range (88, 4): inverting bit 0 of byte 3. -/
theorem C2_flipped_payload_bit_fails_crc_witness :
    (2 ≤ 3 ∧ 3 + 2 < (build_read_ranges_request [(88, 4)]).length ∧ 0 < 8)
    ∧ validate_frame_crc (flip_bit (build_read_ranges_request [(88, 4)]) 3 0) = false :=
  ⟨⟨by decide, by decide, by decide⟩,
    C2_flipped_payload_bit_fails_crc [(88, 4)] 3 0 (by decide) (by decide) (by decide)⟩

/-! ## `crc16` is CRC16/MODBUS -/

theorem crc16_shift_eq_modbus_shift (c : Nat) : crc16_shift c = modbus_shift c := by
  rw [crc16_shift_eq]
  rfl

theorem crc16_bits_eq_iterate (j c : Nat) : crc16_bits j c = modbus_shift^[j] c := by
  induction j generalizing c with
  | zero => rfl
  | succ j ih =>
    rw [Function.iterate_succ_apply, ← crc16_shift_eq_modbus_shift]
    exact ih _

theorem foldl_crc16_byte_eq_modbus (data : List Nat) (c : Nat) :
    data.foldl crc16_byte c = modbus_crc_from c data := by
  induction data generalizing c with
  | nil => rfl
  | cons b rest ih =>
    rw [List.foldl_cons, ih, crc16_byte, crc16_bits_eq_iterate]
    rfl

set_option maxRecDepth 100000 in
/-- C3: `crc16` is the bit-at-a-time CRC16/MODBUS of the specification (initial
value 0xFFFF, each byte XORed into the running CRC, then eight right shifts
with an XOR of 0xA001 whenever the bit shifted out was 1), and it returns
0x0A84 for 01 03 00 00 00 01, 0xD5BD for 01 41 00 58 00 04, 0x6629 for
01 42 02 E9 02 EA and 0x10C0 for 01 41. -/
theorem C3_crc16_is_modbus_crc :
    (∀ data : List Nat, crc16 data = modbus_crc data)
    ∧ crc16 [0x01, 0x03, 0x00, 0x00, 0x00, 0x01] = 0x0A84
    ∧ crc16 [0x01, 0x41, 0x00, 0x58, 0x00, 0x04] = 0xD5BD
    ∧ crc16 [0x01, 0x42, 0x02, 0xE9, 0x02, 0xEA] = 0x6629
    ∧ crc16 [0x01, 0x41] = 0x10C0 := by
  refine ⟨fun data => foldl_crc16_byte_eq_modbus data 0xFFFF, ?_, ?_, ?_, ?_⟩ <;> decide

/-! ## Layout of the read requests -/

theorem pair_bytes_of_lt (p : Nat × Nat) (h1 : p.1 < 65536) (h2 : p.2 < 65536) :
    pair_bytes p = [p.1 / 256, p.1 % 256, p.2 / 256, p.2 % 256] := by
  simp only [pair_bytes, and_0xFF_eq_mod, shr8_eq_div]
  rw [Nat.mod_eq_of_lt (by omega : p.1 / 256 < 256),
    Nat.mod_eq_of_lt (by omega : p.2 / 256 < 256)]

theorem addr_bytes_of_lt (a : Nat) (h : a < 65536) : addr_bytes a = [a / 256, a % 256] := by
  simp only [addr_bytes, and_0xFF_eq_mod, shr8_eq_div]
  rw [Nat.mod_eq_of_lt (by omega : a / 256 < 256)]

theorem flatMap_pair_bytes_of_lt (xs : List (Nat × Nat))
    (h : ∀ p ∈ xs, p.1 < 65536 ∧ p.2 < 65536) :
    xs.flatMap pair_bytes
      = xs.flatMap (fun p => [p.1 / 256, p.1 % 256, p.2 / 256, p.2 % 256]) := by
  induction xs with
  | nil => rfl
  | cons p rest ih =>
    have hp := h p (by simp)
    rw [List.flatMap_cons, List.flatMap_cons, pair_bytes_of_lt p hp.1 hp.2,
      ih (fun q hq => h q (List.mem_cons_of_mem _ hq))]

theorem flatMap_addr_bytes_of_lt (xs : List Nat) (h : ∀ a ∈ xs, a < 65536) :
    xs.flatMap addr_bytes = xs.flatMap (fun a => [a / 256, a % 256]) := by
  induction xs with
  | nil => rfl
  | cons a rest ih =>
    rw [List.flatMap_cons, List.flatMap_cons, addr_bytes_of_lt a (h a (by simp)),
      ih (fun q hq => h q (List.mem_cons_of_mem _ hq))]

/-- A body of bytes closed by `append_crc`: the CRC low byte, then the high
byte, which needs no mask. -/
theorem append_crc_of_bytes (body : List Nat) (hb : ∀ b ∈ body, b < 256) :
    append_crc body = body ++ [crc16 body % 256, crc16 body / 256] := by
  have hc := crc16_lt body hb
  rw [append_crc_eq, Nat.mod_eq_of_lt (by omega : crc16 body / 256 < 256)]

set_option maxRecDepth 100000 in
/-- C4: for a list of `k` ranges of 16-bit starts and counts,
`build_read_ranges_request` returns exactly `4k+4` bytes: 1 (unit address),
65 (0x41), then for each range in input order the start high byte, start low
byte, count high byte, count low byte, and finally the CRC16 of all preceding
bytes, low byte then high byte; for [(88, 4)] the frame is
01 41 00 58 00 04 BD D5. -/
theorem C4_build_read_ranges_request_layout (ranges : List (Nat × Nat))
    (h16 : ∀ r ∈ ranges, r.1 < 65536 ∧ r.2 < 65536) :
    (build_read_ranges_request ranges).length = 4 * ranges.length + 4
    ∧ build_read_ranges_request ranges
        = ([1, 65] ++ ranges.flatMap (fun r => [r.1 / 256, r.1 % 256, r.2 / 256, r.2 % 256]))
          ++ [crc16 ([1, 65] ++ ranges.flatMap
                (fun r => [r.1 / 256, r.1 % 256, r.2 / 256, r.2 % 256])) % 256,
              crc16 ([1, 65] ++ ranges.flatMap
                (fun r => [r.1 / 256, r.1 % 256, r.2 / 256, r.2 % 256])) / 256]
    ∧ build_read_ranges_request [(88, 4)] = [0x01, 0x41, 0x00, 0x58, 0x00, 0x04, 0xBD, 0xD5] := by
  have hb := header_payload_lt pair_bytes pair_bytes_lt 65 (by decide) ranges
  refine ⟨?_, ?_, by decide⟩
  · rw [build_read_ranges_request_eq, append_crc_eq]
    simp only [List.length_append, List.length_cons, List.length_nil,
      length_flatMap_pair_bytes]
    omega
  · rw [build_read_ranges_request_eq, append_crc_of_bytes _ hb,
      flatMap_pair_bytes_of_lt ranges h16]

set_option maxRecDepth 100000 in
/-- C4 at the two ranges (19, 2) and (30, 2). -/
theorem C4_build_read_ranges_request_layout_witness :
    (∀ r ∈ [(19, 2), (30, 2)], r.1 < 65536 ∧ r.2 < 65536)
    ∧ (build_read_ranges_request [(19, 2), (30, 2)]).length = 4 * 2 + 4
    ∧ build_read_ranges_request [(19, 2), (30, 2)]
        = [0x01, 0x41, 0x00, 0x13, 0x00, 0x02, 0x00, 0x1E, 0x00, 0x02]
          ++ [crc16 [0x01, 0x41, 0x00, 0x13, 0x00, 0x02, 0x00, 0x1E, 0x00, 0x02] % 256,
              crc16 [0x01, 0x41, 0x00, 0x13, 0x00, 0x02, 0x00, 0x1E, 0x00, 0x02] / 256] :=
  ⟨by decide,
    (C4_build_read_ranges_request_layout [(19, 2), (30, 2)] (by decide)).1,
    (C4_build_read_ranges_request_layout [(19, 2), (30, 2)] (by decide)).2.1⟩

set_option maxRecDepth 100000 in
/-- C5: for a list of `n` 16-bit addresses, `build_read_registers_request`
returns exactly `2n+4` bytes: 01, 42 (hex), then each address in input order
as high byte then low byte, then the CRC16 of all preceding bytes, low byte
first; for [745, 746] the frame is 01 42 02 E9 02 EA 29 66. -/
theorem C5_build_read_registers_request_layout (addresses : List Nat)
    (h16 : ∀ a ∈ addresses, a < 65536) :
    (build_read_registers_request addresses).length = 2 * addresses.length + 4
    ∧ build_read_registers_request addresses
        = ([0x01, 0x42] ++ addresses.flatMap (fun a => [a / 256, a % 256]))
          ++ [crc16 ([0x01, 0x42] ++ addresses.flatMap (fun a => [a / 256, a % 256])) % 256,
              crc16 ([0x01, 0x42] ++ addresses.flatMap (fun a => [a / 256, a % 256])) / 256]
    ∧ build_read_registers_request [745, 746]
        = [0x01, 0x42, 0x02, 0xE9, 0x02, 0xEA, 0x29, 0x66] := by
  have hb := header_payload_lt addr_bytes addr_bytes_lt 66 (by decide) addresses
  refine ⟨?_, ?_, by decide⟩
  · rw [build_read_registers_request_eq, append_crc_eq]
    simp only [List.length_append, List.length_cons, List.length_nil,
      length_flatMap_addr_bytes]
    omega
  · rw [build_read_registers_request_eq, append_crc_of_bytes _ hb,
      flatMap_addr_bytes_of_lt addresses h16]

set_option maxRecDepth 100000 in
/-- C5 at the three addresses 12005, 12006 and 2. -/
theorem C5_build_read_registers_request_layout_witness :
    (∀ a ∈ [12005, 12006, 2], a < 65536)
    ∧ (build_read_registers_request [12005, 12006, 2]).length = 2 * 3 + 4
    ∧ build_read_registers_request [12005, 12006, 2]
        = [0x01, 0x42, 0x2E, 0xE5, 0x2E, 0xE6, 0x00, 0x02]
          ++ [crc16 [0x01, 0x42, 0x2E, 0xE5, 0x2E, 0xE6, 0x00, 0x02] % 256,
              crc16 [0x01, 0x42, 0x2E, 0xE5, 0x2E, 0xE6, 0x00, 0x02] / 256] :=
  ⟨by decide,
    (C5_build_read_registers_request_layout [12005, 12006, 2] (by decide)).1,
    (C5_build_read_registers_request_layout [12005, 12006, 2] (by decide)).2.1⟩

/-! ## `validate_frame_crc` and `parse_register_values` -/

theorem getD_lt_of_forall_lt (data : List Nat) (i : Nat) (hb : ∀ b ∈ data, b < 256) :
    data.getD i 0 < 256 := by
  by_cases hi : i < data.length
  · rw [List.getD_eq_getElem _ _ hi]
    exact hb _ (List.getElem_mem hi)
  · rw [List.getD_eq_default _ _ (by omega)]
    decide

/-- C6: `validate_frame_crc` returns false for every buffer shorter than 4
bytes, and for a buffer of `n >= 4` bytes it returns true exactly when byte
`n-2` plus 256 times byte `n-1` equals `crc16` of the first `n-2` bytes. -/
theorem C6_validate_frame_crc_spec (data : List Nat) (hb : ∀ b ∈ data, b < 256) :
    (data.length < 4 → validate_frame_crc data = false)
    ∧ (4 ≤ data.length →
        (validate_frame_crc data = true ↔
          data.getD (data.length - 2) 0 + 256 * data.getD (data.length - 1) 0
            = crc16 (data.take (data.length - 2)))) := by
  constructor
  · intro h
    simp [validate_frame_crc, MIN_FRAME_SIZE, h]
  · intro h
    have hn : ¬ data.length < 4 := by omega
    simp only [validate_frame_crc, MIN_FRAME_SIZE, hn, if_false, beq_iff_eq]
    rw [or_shl8_eq_add _ _ (getD_lt_of_forall_lt data _ hb)]

set_option maxRecDepth 100000 in
/-- C6 at the two-byte buffer 01 03 (too short) and the frame 01 41 C0 10. -/
theorem C6_validate_frame_crc_spec_witness :
    (∀ b ∈ [0x01, 0x03], b < 256) ∧ validate_frame_crc [0x01, 0x03] = false
    ∧ (∀ b ∈ [0x01, 0x41, 0xC0, 0x10], b < 256)
    ∧ (validate_frame_crc [0x01, 0x41, 0xC0, 0x10] = true ↔
        0xC0 + 256 * 0x10 = crc16 [0x01, 0x41]) :=
  ⟨by decide, (C6_validate_frame_crc_spec [0x01, 0x03] (by decide)).1 (by decide),
    by decide, (C6_validate_frame_crc_spec [0x01, 0x41, 0xC0, 0x10] (by decide)).2 (by decide)⟩

theorem parse_register_values_loop_eq (data : List Nat) (n fuel i : Nat) (values : List Nat)
    (hf : (n - i) / 2 ≤ fuel) :
    parse_register_values_loop data n fuel i values
      = values ++ (List.range ((n - i) / 2)).map
          (fun j => (data.getD (i + 2 * j) 0 <<< 8) ||| data.getD (i + 2 * j + 1) 0) := by
  induction fuel generalizing i values with
  | zero =>
    have h0 : (n - i) / 2 = 0 := by omega
    simp [parse_register_values_loop, h0]
  | succ fuel ih =>
    unfold parse_register_values_loop
    by_cases hlt : i + 1 < n
    · have hk : (n - i) / 2 = (n - (i + 2)) / 2 + 1 := by omega
      rw [if_pos hlt, ih (i + 2) _ (by omega), hk, List.range_succ_eq_map, List.map_cons,
        List.map_map, List.append_assoc]
      congr 1
      simp only [List.singleton_append, Nat.mul_zero, Nat.add_zero, List.cons.injEq, true_and]
      apply List.map_congr_left
      intro j _
      simp only [Function.comp_apply]
      rw [show i + 2 + 2 * j = i + 2 * (j + 1) by omega]
    · have h0 : (n - i) / 2 = 0 := by omega
      rw [if_neg hlt, h0]
      simp

theorem parse_register_values_eq (data : List Nat) (n : Nat) (hb : ∀ b ∈ data, b < 256) :
    parse_register_values data n
      = (List.range (n / 2)).map (fun j => 256 * data.getD (2 * j) 0 + data.getD (2 * j + 1) 0) := by
  unfold parse_register_values
  rw [parse_register_values_loop_eq data n n 0 [] (by omega)]
  simp only [List.nil_append, Nat.sub_zero, Nat.zero_add]
  apply List.map_congr_left
  intro j _
  exact shl8_or_eq_add _ _ (getD_lt_of_forall_lt data _ hb)

theorem parse_register_values_length (data : List Nat) (n : Nat) :
    (parse_register_values data n).length = n / 2 := by
  unfold parse_register_values
  rw [parse_register_values_loop_eq data n n 0 [] (by omega)]
  simp

/-- C7: for a buffer holding at least `n` bytes, `parse_register_values` returns
exactly `n / 2` values, the `i`-th being `256 * data[2i] + data[2i+1]`; an odd
final byte is ignored and `n = 0` gives the empty list; 02 BC 02 DA gives
[700, 730] and 02 BC FF gives [700]. -/
theorem C7_parse_register_values_spec (data : List Nat) (n : Nat)
    (_hn : n ≤ data.length) (hb : ∀ b ∈ data, b < 256) :
    (parse_register_values data n).length = n / 2
    ∧ (∀ i, i < n / 2 →
        (parse_register_values data n)[i]?
          = some (256 * data.getD (2 * i) 0 + data.getD (2 * i + 1) 0))
    ∧ (n % 2 = 1 → parse_register_values data n = parse_register_values data (n - 1))
    ∧ parse_register_values data 0 = []
    ∧ parse_register_values [0x02, 0xBC, 0x02, 0xDA] 4 = [700, 730]
    ∧ parse_register_values [0x02, 0xBC, 0xFF] 3 = [700] := by
  refine ⟨parse_register_values_length data n, ?_, ?_, by rfl, by decide, by decide⟩
  · intro i hi
    rw [parse_register_values_eq data n hb, List.getElem?_map, List.getElem?_range hi]
    rfl
  · intro hodd
    rw [parse_register_values_eq data n hb, parse_register_values_eq data (n - 1) hb,
      show (n - 1) / 2 = n / 2 by omega]

/-- C7 at the five-byte buffer 31 4B 02 BC 07 with data length 5. -/
theorem C7_parse_register_values_spec_witness :
    (5 ≤ [0x31, 0x4B, 0x02, 0xBC, 0x07].length ∧ ∀ b ∈ [0x31, 0x4B, 0x02, 0xBC, 0x07], b < 256)
    ∧ (parse_register_values [0x31, 0x4B, 0x02, 0xBC, 0x07] 5).length = 5 / 2
    ∧ parse_register_values [0x31, 0x4B, 0x02, 0xBC, 0x07] 5
        = parse_register_values [0x31, 0x4B, 0x02, 0xBC, 0x07] (5 - 1) :=
  ⟨⟨by decide, by decide⟩,
    (C7_parse_register_values_spec [0x31, 0x4B, 0x02, 0xBC, 0x07] 5 (by decide) (by decide)).1,
    (C7_parse_register_values_spec [0x31, 0x4B, 0x02, 0xBC, 0x07] 5
      (by decide) (by decide)).2.2.1 (by decide)⟩

/-! ## What the steps of the state machine leave alone -/

theorem listener_calls_append (xs ys : List Effect) :
    listener_calls (xs ++ ys) = listener_calls xs ++ listener_calls ys := by
  induction xs with
  | nil => rfl
  | cons e rest ih => cases e <;> simp [listener_calls, ih]

theorem sent_frames_append (xs ys : List Effect) :
    sent_frames (xs ++ ys) = sent_frames xs ++ sent_frames ys := by
  induction xs with
  | nil => rfl
  | cons e rest ih => cases e <;> simp [sent_frames, ih]

theorem foldl_proj_eq {α γ : Type} (g : WaterFurnace → γ) (f : WaterFurnace → α → WaterFurnace)
    (h : ∀ s x, g (f s x) = g s) (xs : List α) (s : WaterFurnace) :
    g (xs.foldl f s) = g s := by
  induction xs generalizing s with
  | nil => rfl
  | cons x rest ih => rw [List.foldl_cons, ih, h]

theorem read_frame__keeps (s : WaterFurnace) :
    (read_frame_ s).2.2.registers_ = s.registers_
    ∧ (read_frame_ s).2.2.listeners_ = s.listeners_
    ∧ (read_frame_ s).2.2.pending_writes_ = s.pending_writes_
    ∧ (read_frame_ s).2.2.expected_addresses_ = s.expected_addresses_
    ∧ (read_frame_ s).2.2.effects = s.effects
    ∧ (read_frame_ s).2.2.state_ = s.state_ := by
  unfold read_frame_
  simp only
  split_ifs <;> simp

theorem poll_next_group__keeps (t : Nat) (s : WaterFurnace) :
    (poll_next_group_ t s).registers_ = s.registers_
    ∧ (poll_next_group_ t s).listeners_ = s.listeners_
    ∧ (poll_next_group_ t s).pending_writes_ = s.pending_writes_
    ∧ listener_calls (poll_next_group_ t s).effects = listener_calls s.effects := by
  unfold poll_next_group_
  split
  · simp
  · simp only [send_frame_]
    split_ifs <;> simp [listener_calls_append, listener_calls]

theorem finish_system_id__keeps (s : WaterFurnace) :
    (finish_system_id_ s).registers_ = s.registers_
    ∧ (finish_system_id_ s).listeners_ = s.listeners_
    ∧ (finish_system_id_ s).pending_writes_ = s.pending_writes_
    ∧ (finish_system_id_ s).effects = s.effects := by
  simp [finish_system_id_]

theorem finish_detection__keeps (s : WaterFurnace) :
    (finish_detection_ s).registers_ = s.registers_
    ∧ (finish_detection_ s).listeners_ = s.listeners_
    ∧ (finish_detection_ s).pending_writes_ = s.pending_writes_
    ∧ (finish_detection_ s).effects = s.effects := by
  unfold finish_detection_ build_poll_groups_
  simp only
  split_ifs <;> (try split) <;> (try split_ifs) <;> simp

theorem process_transition__keeps (t : Nat) (s : WaterFurnace) :
    (process_transition_ t s).registers_ = s.registers_
    ∧ (process_transition_ t s).listeners_ = s.listeners_
    ∧ (process_transition_ t s).pending_writes_ = s.pending_writes_
    ∧ listener_calls (process_transition_ t s).effects = listener_calls s.effects := by
  unfold process_transition_
  have h1 := finish_system_id__keeps s
  have h2 := finish_detection__keeps s
  have h3 := poll_next_group__keeps t
    { s with current_poll_group_ := (s.current_poll_group_ + 1) % 256 }
  dsimp only
  split_ifs
  · exact ⟨h1.1, h1.2.1, h1.2.2.1, by rw [h1.2.2.2]⟩
  · exact ⟨h2.1, h2.2.1, h2.2.2.1, by rw [h2.2.2.2]⟩
  · exact h3
  · exact ⟨rfl, rfl, rfl, rfl⟩
  · exact ⟨rfl, rfl, rfl, rfl⟩

theorem process_read_values__keeps (frame : List Nat) (s : WaterFurnace) :
    (process_read_values_ frame s).listeners_ = s.listeners_
    ∧ (process_read_values_ frame s).pending_writes_ = s.pending_writes_
    ∧ (process_read_values_ frame s).state_ = s.state_ := by
  unfold process_read_values_
  dsimp only
  split_ifs
  · refine ⟨?_, ?_, ?_⟩
    · exact foldl_proj_eq (fun s => s.listeners_) store_and_dispatch_ (fun _ _ => rfl) _ _
    · exact foldl_proj_eq (fun s => s.pending_writes_) store_and_dispatch_ (fun _ _ => rfl) _ _
    · exact foldl_proj_eq (fun s => s.state_) store_and_dispatch_ (fun _ _ => rfl) _ _
  · exact ⟨rfl, rfl, rfl⟩

theorem process_write_single__keeps (frame : List Nat) (s : WaterFurnace) :
    (process_write_single_ frame s).listeners_ = s.listeners_
    ∧ (process_write_single_ frame s).pending_writes_ = s.pending_writes_
    ∧ (process_write_single_ frame s).state_ = s.state_ := by
  unfold process_write_single_
  split_ifs
  · exact ⟨rfl, rfl, rfl⟩
  · exact ⟨rfl, rfl, rfl⟩

theorem process_response__keeps (frame : List Nat) (t : Nat) (s : WaterFurnace) :
    (process_response_ frame t s).listeners_ = s.listeners_
    ∧ (process_response_ frame t s).pending_writes_ = s.pending_writes_ := by
  unfold process_response_
  dsimp only
  split_ifs
  all_goals first
    | exact ⟨rfl, rfl⟩
    | (have ht := process_transition__keeps t
        (process_write_single_ frame (process_read_values_ frame s))
       have hw := process_write_single__keeps frame (process_read_values_ frame s)
       have hr := process_read_values__keeps frame s
       exact ⟨by rw [ht.2.1, hw.1, hr.1], by rw [ht.2.2.1, hw.2.1, hr.2.1]⟩)
    | (have ht := process_transition__keeps t (process_write_single_ frame s)
       have hw := process_write_single__keeps frame s
       exact ⟨by rw [ht.2.1, hw.1], by rw [ht.2.2.1, hw.2.1]⟩)

theorem update_keeps (t : Nat) (s : WaterFurnace) :
    (update t s).listeners_ = s.listeners_
    ∧ (update t s).pending_writes_ = s.pending_writes_ := by
  unfold update
  split_ifs
  · have h := poll_next_group__keeps t { s with current_poll_group_ := 0 }
    exact ⟨h.2.1, h.2.2.1⟩
  · exact ⟨rfl, rfl⟩

/-- A tick that does not drain the queue leaves the queue as it is. -/
theorem loop_keeps_pending_writes (now t : Nat) (s : WaterFurnace)
    (h : drains s (Event.tick now t) = false) :
    (loop now t s).pending_writes_ = s.pending_writes_ := by
  unfold loop
  split
  · split_ifs <;> rfl
  · split_ifs <;> rfl
  · next hs =>
    simp only [drains, hs, decide_True, Bool.true_and, decide_eq_false_iff_not, not_not] at h
    simp [h]
  · dsimp only
    have hr := read_frame__keeps s
    split_ifs
    · rw [(process_response__keeps _ t _).2]
      exact hr.2.2.1
    · exact hr.2.2.1
    · exact hr.2.2.1
  · dsimp only
    split_ifs <;> rfl

theorem step_keeps_pending_writes (s : WaterFurnace) (e : Event) (h : drains s e = false) :
    (step s e).pending_writes_ = s.pending_writes_ ++ writes_of [e] := by
  cases e with
  | tick now t => simpa [step, writes_of] using loop_keeps_pending_writes now t s h
  | poll t => simpa [step, writes_of] using (update_keeps t s).2
  | write addr value => rfl
  | listen addr => simp [step, writes_of, register_listener]
  | rx bytes => simp [step, writes_of, uart_receive]

theorem writes_of_cons (e : Event) (rest : List Event) :
    writes_of (e :: rest) = writes_of [e] ++ writes_of rest := by
  cases e <;> simp [writes_of]

theorem run_keeps_pending_writes (events : List Event) (s : WaterFurnace)
    (h : no_drain s events) :
    (run s events).pending_writes_ = s.pending_writes_ ++ writes_of events := by
  induction events generalizing s with
  | nil => simp [run, writes_of]
  | cons e rest ih =>
    have h1 := step_keeps_pending_writes s e h.1
    have h2 := ih (step s e) h.2
    unfold run at h2 ⊢
    rw [List.foldl_cons, h2, h1, writes_of_cons e rest, List.append_assoc]

/-! ## Draining the pending-write queue -/

theorem process_pending_writes__spec (t : Nat) (s : WaterFurnace) (h : s.pending_writes_ ≠ []) :
    (process_pending_writes_ t s).effects
        = s.effects ++ [Effect.tx (build_write_registers_request s.pending_writes_)]
    ∧ (process_pending_writes_ t s).pending_writes_ = []
    ∧ (process_pending_writes_ t s).state_ = State.WAITING_RESPONSE := by
  unfold process_pending_writes_
  rw [if_neg h]
  exact ⟨rfl, rfl, rfl⟩

theorem loop_idle_eq (now t : Nat) (s : WaterFurnace) (hidle : s.state_ = State.IDLE)
    (h : s.pending_writes_ ≠ []) : loop now t s = process_pending_writes_ t s := by
  unfold loop
  rw [hidle]
  dsimp only
  rw [if_pos h]

set_option maxRecDepth 100000 in
/-- C8: take a hub whose pending-write queue is empty (just drained) and any
sequence of events after it in which no tick drains the queue and at least one
`write_register` call is made. If the hub is then in `IDLE`, the next tick
sends exactly one frame, `build_write_registers_request` of the queued
(address, value) pairs in call order (01 43, each address and value big-endian,
CRC low then high), leaves the queue empty and moves the hub to
`WAITING_RESPONSE`. -/
theorem C8_idle_tick_sends_queued_writes (s : WaterFurnace) (events : List Event)
    (now t : Nat)
    (h0 : s.pending_writes_ = [])
    (hnd : no_drain s events)
    (hne : writes_of events ≠ [])
    (hidle : (run s events).state_ = State.IDLE)
    (h16 : ∀ w ∈ writes_of events, w.1 < 65536 ∧ w.2 < 65536) :
    (loop now t (run s events)).effects
        = (run s events).effects
          ++ [Effect.tx (build_write_registers_request (writes_of events))]
    ∧ build_write_registers_request (writes_of events)
        = ([0x01, 0x43] ++ (writes_of events).flatMap
              (fun w => [w.1 / 256, w.1 % 256, w.2 / 256, w.2 % 256]))
          ++ [crc16 ([0x01, 0x43] ++ (writes_of events).flatMap
                (fun w => [w.1 / 256, w.1 % 256, w.2 / 256, w.2 % 256])) % 256,
              crc16 ([0x01, 0x43] ++ (writes_of events).flatMap
                (fun w => [w.1 / 256, w.1 % 256, w.2 / 256, w.2 % 256])) / 256]
    ∧ (loop now t (run s events)).pending_writes_ = []
    ∧ (loop now t (run s events)).state_ = State.WAITING_RESPONSE := by
  have hq : (run s events).pending_writes_ = writes_of events := by
    rw [run_keeps_pending_writes events s hnd, h0, List.nil_append]
  have hq2 : (run s events).pending_writes_ ≠ [] := by rw [hq]; exact hne
  have hp := process_pending_writes__spec t (run s events) hq2
  rw [loop_idle_eq now t _ hidle hq2]
  rw [hq] at hp
  refine ⟨hp.1, ?_, hp.2.1, hp.2.2⟩
  rw [build_write_registers_request_eq,
    append_crc_of_bytes _ (header_payload_lt pair_bytes pair_bytes_lt 67 (by decide) _),
    flatMap_pair_bytes_of_lt _ h16]

set_option maxRecDepth 100000 in
/-- C8 at the idle sample hub: two writes, with bytes arriving, a poll trigger
and a listener registration in between. -/
theorem C8_idle_tick_sends_queued_writes_witness :
    (idle_hub.pending_writes_ = []
      ∧ no_drain idle_hub
          [Event.write 12619 700, Event.rx [1, 67], Event.listen 12619, Event.write 12620 730]
      ∧ writes_of
          [Event.write 12619 700, Event.rx [1, 67], Event.listen 12619, Event.write 12620 730]
          = [(12619, 700), (12620, 730)])
    ∧ (loop 1000 1001 (run idle_hub
          [Event.write 12619 700, Event.rx [1, 67], Event.listen 12619,
            Event.write 12620 730])).effects
        = [Effect.tx (build_write_registers_request [(12619, 700), (12620, 730)])]
    ∧ (loop 1000 1001 (run idle_hub
          [Event.write 12619 700, Event.rx [1, 67], Event.listen 12619,
            Event.write 12620 730])).pending_writes_ = []
    ∧ (loop 1000 1001 (run idle_hub
          [Event.write 12619 700, Event.rx [1, 67], Event.listen 12619,
            Event.write 12620 730])).state_ = State.WAITING_RESPONSE :=
  ⟨⟨rfl, ⟨rfl, rfl, rfl, rfl, trivial⟩, rfl⟩,
    (C8_idle_tick_sends_queued_writes idle_hub
      [Event.write 12619 700, Event.rx [1, 67], Event.listen 12619, Event.write 12620 730]
      1000 1001 rfl ⟨rfl, rfl, rfl, rfl, trivial⟩ (by decide) rfl (by decide)).1,
    (C8_idle_tick_sends_queued_writes idle_hub
      [Event.write 12619 700, Event.rx [1, 67], Event.listen 12619, Event.write 12620 730]
      1000 1001 rfl ⟨rfl, rfl, rfl, rfl, trivial⟩ (by decide) rfl (by decide)).2.2.1,
    (C8_idle_tick_sends_queued_writes idle_hub
      [Event.write 12619 700, Event.rx [1, 67], Event.listen 12619, Event.write 12620 730]
      1000 1001 rfl ⟨rfl, rfl, rfl, rfl, trivial⟩ (by decide) rfl (by decide)).2.2.2⟩

/-! ## Storing and dispatching register values -/

theorem dispatch_loop_eq (addr value : Nat) (ls : List RegisterListener) (i : Nat)
    (effs : List Effect) :
    dispatch_loop addr value ls i effs
      = effs ++ (((ls.enumFrom i).filter (fun p => decide (p.2.address = addr))).map
          (fun p => p.1)).map (fun j => Effect.call j value) := by
  induction ls generalizing i effs with
  | nil => simp [dispatch_loop]
  | cons l rest ih =>
    unfold dispatch_loop
    rw [ih, List.enumFrom_cons, List.filter_cons]
    by_cases h : l.address = addr <;> simp [h]

theorem dispatch_register__effects (addr value : Nat) (s : WaterFurnace) :
    (dispatch_register_ addr value s).effects
      = s.effects ++ (listeners_for s.listeners_ addr).map (fun j => Effect.call j value) := by
  unfold dispatch_register_ listeners_for List.enum
  exact dispatch_loop_eq addr value s.listeners_ 0 s.effects

theorem foldl_store_and_dispatch (pairs : List (Nat × Nat)) (s : WaterFurnace) :
    (pairs.foldl store_and_dispatch_ s).registers_
        = pairs.foldl (fun regs av => map_assign regs av.1 av.2) s.registers_
    ∧ (pairs.foldl store_and_dispatch_ s).effects
        = s.effects ++ pairs.flatMap
            (fun av => (listeners_for s.listeners_ av.1).map (fun j => Effect.call j av.2))
    ∧ (pairs.foldl store_and_dispatch_ s).listeners_ = s.listeners_ := by
  induction pairs generalizing s with
  | nil => simp
  | cons av rest ih =>
    have h := ih (store_and_dispatch_ s av)
    have hl : (store_and_dispatch_ s av).listeners_ = s.listeners_ := rfl
    have hr : (store_and_dispatch_ s av).registers_ = map_assign s.registers_ av.1 av.2 := rfl
    have he : (store_and_dispatch_ s av).effects
        = s.effects ++ (listeners_for s.listeners_ av.1).map (fun j => Effect.call j av.2) :=
      dispatch_register__effects av.1 av.2 _
    rw [hl, hr, he] at h
    simp only [List.foldl_cons, List.flatMap_cons]
    exact ⟨h.1, by rw [h.2.1, List.append_assoc], h.2.2⟩

theorem listener_calls_map_call (js : List Nat) (v : Nat) :
    listener_calls (js.map (fun j => Effect.call j v)) = js.map (fun j => (j, v)) := by
  induction js with
  | nil => rfl
  | cons j rest ih => simp [listener_calls, ih]

theorem listener_calls_flatMap_call (ls : List RegisterListener) (pairs : List (Nat × Nat)) :
    listener_calls (pairs.flatMap
        (fun av => (listeners_for ls av.1).map (fun j => Effect.call j av.2)))
      = pairs.flatMap (fun av => (listeners_for ls av.1).map (fun j => (j, av.2))) := by
  induction pairs with
  | nil => rfl
  | cons av rest ih =>
    rw [List.flatMap_cons, List.flatMap_cons, listener_calls_append, ih,
      listener_calls_map_call]

theorem foldl_assign_of_not_mem (pairs : List (Nat × Nat)) (regs : Nat → Option Nat) (a : Nat)
    (h : ∀ p ∈ pairs, p.1 ≠ a) :
    (pairs.foldl (fun regs av => map_assign regs av.1 av.2) regs) a = regs a := by
  induction pairs generalizing regs with
  | nil => rfl
  | cons p rest ih =>
    rw [List.foldl_cons, ih _ (fun q hq => h q (List.mem_cons_of_mem _ hq))]
    have hp : a ≠ p.1 := fun e => h p (by simp) e.symm
    simp [map_assign, hp]

theorem foldl_assign_last (pre suf : List (Nat × Nat)) (a v : Nat) (regs : Nat → Option Nat)
    (h : ∀ p ∈ suf, p.1 ≠ a) :
    ((pre ++ (a, v) :: suf).foldl (fun regs av => map_assign regs av.1 av.2) regs) a
      = some v := by
  rw [List.foldl_append, List.foldl_cons, foldl_assign_of_not_mem suf _ a h]
  simp [map_assign]

theorem foldl_assign_of_nodup (pairs : List (Nat × Nat)) (regs : Nat → Option Nat)
    (hnd : (pairs.map Prod.fst).Nodup) (p : Nat × Nat) (hp : p ∈ pairs) :
    (pairs.foldl (fun regs av => map_assign regs av.1 av.2) regs) p.1 = some p.2 := by
  obtain ⟨pre, suf, e⟩ := List.append_of_mem hp
  subst e
  apply foldl_assign_last
  intro q hq hqp
  rw [List.map_append, List.map_cons, List.nodup_append, List.nodup_cons] at hnd
  exact hnd.2.1.1 (hqp ▸ List.mem_map_of_mem Prod.fst hq)

/-! ## Expected addresses are distinct in every reachable hub -/

theorem forall_mem_push_if {P : PollGroup → Prop} (groups : List PollGroup) (c : Prop)
    [Decidable c] (g : PollGroup) (h : ∀ x ∈ groups, P x) (hg : c → P g) :
    ∀ x ∈ (if c then groups ++ [g] else groups), P x := by
  intro x hx
  by_cases hc : c
  · rw [if_pos hc, List.mem_append, List.mem_singleton] at hx
    rcases hx with hx | hx
    · exact h x hx
    · exact hx ▸ hg hc
  · rw [if_neg hc] at hx
    exact h x hx

theorem iz2_group_nodup (n : Nat) (h0 : 0 < n) (h6 : n ≤ 6) :
    (group_addresses { ranges := get_iz2_ranges n }).Nodup := by
  interval_cases n <;> decide

theorem build_poll_groups__distinct (s : WaterFurnace) (h6 : s.iz2_zone_count_ ≤ 6) :
    ∀ group ∈ (build_poll_groups_ s).poll_groups_, (group_addresses group).Nodup := by
  unfold build_poll_groups_
  dsimp only
  apply forall_mem_push_if
  · apply forall_mem_push_if
    · apply forall_mem_push_if
      · apply forall_mem_push_if
        · apply forall_mem_push_if
          · intro x hx
            rw [List.nil_append, List.mem_singleton] at hx
            rw [hx]
            decide
          · intro _
            decide
        · intro _
          decide
      · intro _
        decide
    · intro _
      decide
  · intro hc
    simp only [Bool.and_eq_true, decide_eq_true_eq] at hc
    exact iz2_group_nodup _ hc.2 h6

theorem poll_next_group__distinct (t : Nat) (s : WaterFurnace) (h : distinct_addresses s) :
    distinct_addresses (poll_next_group_ t s) := by
  unfold poll_next_group_
  split
  · exact h
  · next group hg =>
    have hmem : group ∈ s.poll_groups_ := List.getElem?_mem hg
    have hn := h.2.1 group hmem
    unfold send_frame_
    dsimp only
    split_ifs <;> exact ⟨hn, h.2.1, h.2.2⟩

theorem finish_detection__distinct (s : WaterFurnace) (h : distinct_addresses s) :
    distinct_addresses (finish_detection_ s) := by
  unfold finish_detection_
  dsimp only
  split_ifs
  · split
    · exact ⟨h.1, build_poll_groups__distinct _ h.2.2, h.2.2⟩
    · next v _ =>
      split_ifs with hv
      · exact ⟨h.1, build_poll_groups__distinct _ hv.2, hv.2⟩
      · exact ⟨h.1, build_poll_groups__distinct _ h.2.2, h.2.2⟩
  · exact ⟨h.1, build_poll_groups__distinct _ h.2.2, h.2.2⟩

theorem process_transition__distinct (t : Nat) (s : WaterFurnace) (h : distinct_addresses s) :
    distinct_addresses (process_transition_ t s) := by
  unfold process_transition_
  dsimp only
  split_ifs
  · exact h
  · exact finish_detection__distinct s h
  · exact poll_next_group__distinct t _ h
  · exact h
  · exact h

theorem process_read_values__distinct (frame : List Nat) (s : WaterFurnace)
    (h : distinct_addresses s) : distinct_addresses (process_read_values_ frame s) := by
  unfold process_read_values_
  dsimp only
  split_ifs
  · unfold distinct_addresses
    rw [foldl_proj_eq (fun s => s.expected_addresses_) store_and_dispatch_ (fun _ _ => rfl),
      foldl_proj_eq (fun s => s.poll_groups_) store_and_dispatch_ (fun _ _ => rfl),
      foldl_proj_eq (fun s => s.iz2_zone_count_) store_and_dispatch_ (fun _ _ => rfl)]
    exact h
  · exact h

theorem process_write_single__distinct (frame : List Nat) (s : WaterFurnace)
    (h : distinct_addresses s) : distinct_addresses (process_write_single_ frame s) := by
  unfold process_write_single_
  split_ifs
  · exact h
  · exact h

theorem process_response__distinct (frame : List Nat) (t : Nat) (s : WaterFurnace)
    (h : distinct_addresses s) : distinct_addresses (process_response_ frame t s) := by
  unfold process_response_
  dsimp only
  split_ifs
  all_goals first
    | exact h
    | exact process_transition__distinct t _
        (process_write_single__distinct frame _ (process_read_values__distinct frame s h))
    | exact process_transition__distinct t _ (process_write_single__distinct frame s h)

theorem read_frame__distinct (s : WaterFurnace) (h : distinct_addresses s) :
    distinct_addresses (read_frame_ s).2.2 := by
  unfold read_frame_
  dsimp only
  split_ifs <;> exact h

theorem read_system_id__distinct (t : Nat) (s : WaterFurnace) (h : distinct_addresses s) :
    distinct_addresses (read_system_id_ t s) := by
  refine ⟨?_, h.2.1, h.2.2⟩
  show (push_range_addresses get_system_id_ranges []).Nodup
  decide

theorem detect_components__distinct (t : Nat) (s : WaterFurnace) (h : distinct_addresses s) :
    distinct_addresses (detect_components_ t s) := by
  refine ⟨?_, h.2.1, h.2.2⟩
  show (push_range_addresses get_component_detect_ranges []).Nodup
  decide

theorem process_pending_writes__distinct (t : Nat) (s : WaterFurnace)
    (h : distinct_addresses s) : distinct_addresses (process_pending_writes_ t s) := by
  unfold process_pending_writes_
  split_ifs
  · exact h
  · exact ⟨List.nodup_nil, h.2.1, h.2.2⟩

theorem loop_distinct (now t : Nat) (s : WaterFurnace) (h : distinct_addresses s) :
    distinct_addresses (loop now t s) := by
  have h1 := read_system_id__distinct t s h
  have h2 := detect_components__distinct t s h
  have h3 := process_pending_writes__distinct t s h
  unfold loop
  split
  · split_ifs
    · exact ⟨h1.1, h1.2.1, h1.2.2⟩
    · exact h
  · split_ifs
    · exact ⟨h2.1, h2.2.1, h2.2.2⟩
    · exact h
  · split_ifs
    · exact h3
    · exact h
  · dsimp only
    have hr := read_frame__distinct s h
    split_ifs
    · exact process_response__distinct _ t _ hr
    · exact hr
    · exact hr
  · dsimp only
    split_ifs <;> exact h

theorem step_distinct (s : WaterFurnace) (e : Event) (h : distinct_addresses s) :
    distinct_addresses (step s e) := by
  cases e with
  | tick now t => exact loop_distinct now t s h
  | poll t =>
    unfold step update
    split_ifs
    · exact poll_next_group__distinct t _ h
    · exact h
  | write addr value => exact h
  | listen addr => exact h
  | rx bytes => exact h

/-- In every hub reached from the initial one, the recorded expected addresses
are distinct. -/
theorem run_distinct (events : List Event) (s : WaterFurnace) (h : distinct_addresses s) :
    distinct_addresses (run s events) := by
  induction events generalizing s with
  | nil => exact h
  | cons e rest ih => exact ih (step s e) (step_distinct s e h)

theorem initial_distinct : distinct_addresses {} :=
  ⟨List.nodup_nil, fun _ h => absurd h (List.not_mem_nil _), by decide⟩

/-! ## Frames handed over by `read_frame_` -/

theorem getD_take_of_lt (xs : List Nat) (n i : Nat) (h : i < n) :
    (xs.take n).getD i 0 = xs.getD i 0 := by
  rw [List.getD_eq_getElem?_getD, List.getD_eq_getElem?_getD, List.getElem?_take_of_lt h]

/-- A frame for which `read_frame_` returns true passes the CRC check, and a
read response among them holds at least five bytes. -/
theorem read_frame__ok (s : WaterFurnace) (h : (read_frame_ s).1 = true) :
    validate_frame_crc (read_frame_ s).2.1 = true
    ∧ ((read_frame_ s).2.1.getD 1 0 = FUNC_READ_RANGES
        ∨ (read_frame_ s).2.1.getD 1 0 = FUNC_READ_REGISTERS → 5 ≤ (read_frame_ s).2.1.length) := by
  unfold read_frame_ at h ⊢
  dsimp only at h ⊢
  generalize s.rx_buffer_ ++ s.uart_rx = rx at h ⊢
  by_cases h3 : rx.length < 3
  · rw [if_pos h3] at h
    exact absurd h (by simp)
  rw [if_neg h3] at h ⊢
  by_cases he : is_error_response (rx.getD 1 0) = true
  · rw [if_pos he] at h ⊢
    by_cases h5 : rx.length ≥ 5
    · rw [if_pos h5] at h ⊢
      refine ⟨h, ?_⟩
      intro hf
      rw [getD_take_of_lt rx 5 1 (by decide)] at hf
      rcases hf with hf | hf <;> rw [hf] at he <;> exact absurd he (by decide)
    · rw [if_neg h5] at h
      exact absurd h (by simp)
  · rw [if_neg he] at h ⊢
    generalize hE :
      (if rx.getD 1 0 = FUNC_READ_RANGES ∨ rx.getD 1 0 = FUNC_READ_REGISTERS then
          3 + rx.getD 2 0 + 2
        else if rx.getD 1 0 = FUNC_WRITE_REGISTERS then 4
        else if rx.getD 1 0 = FUNC_WRITE_SINGLE then 8
        else 3 + rx.getD 2 0 + 2) = E at h ⊢
    have hE4 : 4 ≤ E := by
      rw [← hE]
      split_ifs <;> omega
    have hE5 : rx.getD 1 0 = FUNC_READ_RANGES ∨ rx.getD 1 0 = FUNC_READ_REGISTERS →
        E = 3 + rx.getD 2 0 + 2 := by
      intro hf
      rw [← hE, if_pos hf]
    by_cases hlen : rx.length < E
    · rw [if_pos hlen] at h
      exact absurd h (by simp)
    rw [if_neg hlen] at h ⊢
    by_cases hv : (!validate_frame_crc (rx.take E)) = true
    · rw [if_pos hv] at h
      exact absurd h (by simp)
    rw [if_neg hv]
    refine ⟨by simpa using hv, ?_⟩
    intro hf
    dsimp only at hf ⊢
    rw [getD_take_of_lt rx E 1 (by omega)] at hf
    rw [List.length_take]
    have := hE5 hf
    omega

theorem loop_waiting_ok (now t : Nat) (s : WaterFurnace)
    (hstate : s.state_ = State.WAITING_RESPONSE) (hread : (read_frame_ s).1 = true) :
    loop now t s
      = process_response_ (read_frame_ s).2.1 t
          { (read_frame_ s).2.2 with last_response_time_ := now } := by
  unfold loop
  rw [hstate]
  dsimp only
  rw [if_pos hread]

theorem process_response__read (frame : List Nat) (t : Nat) (s : WaterFurnace)
    (hlen : 5 ≤ frame.length)
    (hfunc : frame.getD 1 0 = FUNC_READ_RANGES ∨ frame.getD 1 0 = FUNC_READ_REGISTERS) :
    process_response_ frame t s = process_transition_ t (process_read_values_ frame s) := by
  have h4 : ¬ frame.length < MIN_FRAME_SIZE := by simp only [MIN_FRAME_SIZE]; omega
  have he : ¬ is_error_response (frame.getD 1 0) = true := by
    rcases hfunc with h | h <;> rw [h] <;> decide
  have h5 : ¬ ((frame.getD 1 0 = FUNC_READ_RANGES ∨ frame.getD 1 0 = FUNC_READ_REGISTERS)
      ∧ frame.length < 5) := by
    intro h
    omega
  have hw : ¬ (frame.getD 1 0 = FUNC_WRITE_SINGLE ∧ frame.length ≥ 6) := by
    intro h
    rcases hfunc with h' | h' <;> rw [h'] at h <;> exact absurd h.1 (by decide)
  unfold process_response_
  dsimp only
  rw [if_neg h4, if_neg he, if_neg h5, if_pos hfunc]
  unfold process_write_single_
  rw [if_neg hw]

/-- A tick in `WAITING_RESPONSE` that assembles a CRC-valid read response runs
the read branch and then the state transitions, on a hub whose cache,
listeners, expected addresses and effects are those before the tick. -/
theorem loop_read_response (now t : Nat) (s : WaterFurnace)
    (hstate : s.state_ = State.WAITING_RESPONSE) (hread : (read_frame_ s).1 = true)
    (hfunc : (read_frame_ s).2.1.getD 1 0 = FUNC_READ_RANGES
      ∨ (read_frame_ s).2.1.getD 1 0 = FUNC_READ_REGISTERS) :
    ∃ s2 : WaterFurnace,
      loop now t s = process_transition_ t (process_read_values_ (read_frame_ s).2.1 s2)
      ∧ s2.registers_ = s.registers_ ∧ s2.listeners_ = s.listeners_
      ∧ s2.expected_addresses_ = s.expected_addresses_ ∧ s2.effects = s.effects := by
  have hk := read_frame__keeps s
  refine ⟨{ (read_frame_ s).2.2 with last_response_time_ := now }, ?_,
    hk.1, hk.2.1, hk.2.2.2.1, hk.2.2.2.2.1⟩
  rw [loop_waiting_ok now t s hstate hread,
    process_response__read _ t _ ((read_frame__ok s hread).2 hfunc) hfunc]

/-! ## Register cache and listener dispatch: the claims -/

/-- C9: when a tick in `WAITING_RESPONSE` assembles a CRC-valid read response
(function 65 or 66) whose value count equals the length of the recorded
expected-address list, the expected addresses are paired with the values
one to one, and for each pair in index order the value is stored in the cache
and the listeners registered for the address, and only those, are called with
the raw value, each registration once, in registration order. Afterwards the
cache is the old cache with the pairs assigned in index order: every pair not
followed by a later pair for the same address is what `get_register` returns,
which is every pair when the expected addresses are distinct, as they are in
every hub reached from the initial one; and every address that is not expected
keeps its entry. -/
theorem C9_matching_read_response_stores_and_dispatches (now t : Nat) (s : WaterFurnace)
    (hstate : s.state_ = State.WAITING_RESPONSE) (hread : (read_frame_ s).1 = true)
    (hfunc : (read_frame_ s).2.1.getD 1 0 = FUNC_READ_RANGES
      ∨ (read_frame_ s).2.1.getD 1 0 = FUNC_READ_REGISTERS)
    (hcount : (parse_register_values ((read_frame_ s).2.1.drop 3)
      ((read_frame_ s).2.1.getD 2 0)).length = s.expected_addresses_.length) :
    let frame := (read_frame_ s).2.1
    let values := parse_register_values (frame.drop 3) (frame.getD 2 0)
    let pairs := s.expected_addresses_.zip values
    validate_frame_crc frame = true
    ∧ pairs.map Prod.fst = s.expected_addresses_
    ∧ pairs.map Prod.snd = values
    ∧ listener_calls (loop now t s).effects
        = listener_calls s.effects
          ++ pairs.flatMap (fun av => (listeners_for s.listeners_ av.1).map (fun j => (j, av.2)))
    ∧ (loop now t s).registers_
        = pairs.foldl (fun regs av => map_assign regs av.1 av.2) s.registers_
    ∧ (∀ pre suf a v, pairs = pre ++ (a, v) :: suf → (∀ p ∈ suf, p.1 ≠ a) →
        get_register a (loop now t s) = some v)
    ∧ (s.expected_addresses_.Nodup → ∀ p ∈ pairs, get_register p.1 (loop now t s) = some p.2)
    ∧ (∀ events, s = run {} events → ∀ p ∈ pairs, get_register p.1 (loop now t s) = some p.2)
    ∧ (∀ a, a ∉ s.expected_addresses_ → get_register a (loop now t s) = get_register a s) := by
  intro frame values pairs
  obtain ⟨s2, hloop, hregs, hlis, hexp, heff⟩ := loop_read_response now t s hstate hread hfunc
  have hfst : pairs.map Prod.fst = s.expected_addresses_ :=
    List.map_fst_zip _ _ (le_of_eq hcount.symm)
  have hsnd : pairs.map Prod.snd = values := List.map_snd_zip _ _ (le_of_eq hcount)
  have hrv : process_read_values_ frame s2 = pairs.foldl store_and_dispatch_ s2 := by
    unfold process_read_values_
    dsimp only
    rw [hexp, if_pos hcount]
  have hf := foldl_store_and_dispatch pairs s2
  have ht := process_transition__keeps t (pairs.foldl store_and_dispatch_ s2)
  rw [hregs, heff, hlis] at hf
  have hcache : (loop now t s).registers_
      = pairs.foldl (fun regs av => map_assign regs av.1 av.2) s.registers_ := by
    rw [hloop, hrv, ht.1, hf.1]
  have hdistinct : s.expected_addresses_.Nodup →
      ∀ p ∈ pairs, get_register p.1 (loop now t s) = some p.2 := by
    intro hnd p hp
    unfold get_register
    rw [hcache]
    exact foldl_assign_of_nodup pairs _ (by rw [hfst]; exact hnd) p hp
  refine ⟨(read_frame__ok s hread).1, hfst, hsnd, ?_, hcache, ?_, hdistinct, ?_, ?_⟩
  · rw [hloop, hrv, ht.2.2.2, hf.2.1, listener_calls_append, listener_calls_flatMap_call]
  · intro pre suf a v hp hsuf
    unfold get_register
    rw [hcache, hp]
    exact foldl_assign_last pre suf a v _ hsuf
  · intro events hs
    exact hdistinct (hs ▸ (run_distinct events {} initial_distinct).1)
  · intro a ha
    unfold get_register
    rw [hcache]
    apply foldl_assign_of_not_mem
    intro p hp hpa
    exact ha (hpa ▸ (List.of_mem_zip (a := p.1) (b := p.2) hp).1)

set_option maxRecDepth 100000 in
/-- C9 at the waiting sample hub (expected addresses 745 and 746, listeners for
745, 746 and 745 again, register 19 cached) receiving the values 700 and
730. -/
theorem C9_matching_read_response_stores_and_dispatches_witness :
    ((waiting_hub sample_read_response).state_ = State.WAITING_RESPONSE
      ∧ (read_frame_ (waiting_hub sample_read_response)).1 = true
      ∧ (read_frame_ (waiting_hub sample_read_response)).2.1 = sample_read_response
      ∧ parse_register_values (sample_read_response.drop 3) (sample_read_response.getD 2 0)
          = [700, 730])
    ∧ listener_calls (loop 1000 1001 (waiting_hub sample_read_response)).effects
        = [(0, 700), (2, 700), (1, 730)]
    ∧ get_register 745 (loop 1000 1001 (waiting_hub sample_read_response)) = some 700
    ∧ get_register 746 (loop 1000 1001 (waiting_hub sample_read_response)) = some 730
    ∧ get_register 19 (loop 1000 1001 (waiting_hub sample_read_response)) = some 512 :=
  ⟨⟨rfl, by decide, by decide, by decide⟩,
    (C9_matching_read_response_stores_and_dispatches 1000 1001
      (waiting_hub sample_read_response) rfl (by decide) (by decide) (by decide)).2.2.2.1,
    (C9_matching_read_response_stores_and_dispatches 1000 1001
      (waiting_hub sample_read_response) rfl (by decide) (by decide)
      (by decide)).2.2.2.2.2.2.1 (by decide) (745, 700) (by decide),
    (C9_matching_read_response_stores_and_dispatches 1000 1001
      (waiting_hub sample_read_response) rfl (by decide) (by decide)
      (by decide)).2.2.2.2.2.2.1 (by decide) (746, 730) (by decide),
    (C9_matching_read_response_stores_and_dispatches 1000 1001
      (waiting_hub sample_read_response) rfl (by decide) (by decide)
      (by decide)).2.2.2.2.2.2.2.2 19 (by decide)⟩

/-- C10: when a tick in `WAITING_RESPONSE` assembles a CRC-valid read response
(function 65 or 66) whose value count differs from the length of the recorded
expected-address list, the register cache is left exactly as it was and no
listener is called. -/
theorem C10_mismatched_read_response_is_ignored (now t : Nat) (s : WaterFurnace)
    (hstate : s.state_ = State.WAITING_RESPONSE) (hread : (read_frame_ s).1 = true)
    (hfunc : (read_frame_ s).2.1.getD 1 0 = FUNC_READ_RANGES
      ∨ (read_frame_ s).2.1.getD 1 0 = FUNC_READ_REGISTERS)
    (hcount : (parse_register_values ((read_frame_ s).2.1.drop 3)
      ((read_frame_ s).2.1.getD 2 0)).length ≠ s.expected_addresses_.length) :
    validate_frame_crc (read_frame_ s).2.1 = true
    ∧ (loop now t s).registers_ = s.registers_
    ∧ (∀ a, get_register a (loop now t s) = get_register a s)
    ∧ listener_calls (loop now t s).effects = listener_calls s.effects := by
  obtain ⟨s2, hloop, hregs, _, hexp, heff⟩ := loop_read_response now t s hstate hread hfunc
  have hrv : process_read_values_ (read_frame_ s).2.1 s2 = s2 := by
    unfold process_read_values_
    dsimp only
    rw [hexp, if_neg hcount]
  have ht := process_transition__keeps t s2
  have hcache : (loop now t s).registers_ = s.registers_ := by
    rw [hloop, hrv, ht.1, hregs]
  refine ⟨(read_frame__ok s hread).1, hcache, ?_, ?_⟩
  · intro a
    unfold get_register
    rw [hcache]
  · rw [hloop, hrv, ht.2.2.2, heff]

set_option maxRecDepth 100000 in
/-- C10 at the waiting sample hub (two expected addresses) receiving a single
value. -/
theorem C10_mismatched_read_response_is_ignored_witness :
    ((waiting_hub sample_short_response).state_ = State.WAITING_RESPONSE
      ∧ (read_frame_ (waiting_hub sample_short_response)).1 = true
      ∧ (read_frame_ (waiting_hub sample_short_response)).2.1 = sample_short_response
      ∧ parse_register_values (sample_short_response.drop 3) (sample_short_response.getD 2 0)
          = [700]
      ∧ (waiting_hub sample_short_response).expected_addresses_ = [745, 746])
    ∧ (loop 1000 1001 (waiting_hub sample_short_response)).registers_
        = (waiting_hub sample_short_response).registers_
    ∧ get_register 745 (loop 1000 1001 (waiting_hub sample_short_response)) = none
    ∧ listener_calls (loop 1000 1001 (waiting_hub sample_short_response)).effects = [] :=
  ⟨⟨rfl, by decide, by decide, by decide, rfl⟩,
    (C10_mismatched_read_response_is_ignored 1000 1001
      (waiting_hub sample_short_response) rfl (by decide) (by decide) (by decide)).2.1,
    (C10_mismatched_read_response_is_ignored 1000 1001
      (waiting_hub sample_short_response) rfl (by decide) (by decide) (by decide)).2.2.1 745,
    (C10_mismatched_read_response_is_ignored 1000 1001
      (waiting_hub sample_short_response) rfl (by decide) (by decide) (by decide)).2.2.2⟩

/-! ## Identity strings -/

theorem char_ofNat_toNat (b : Nat) (h : b < 256) : (Char.ofNat b).toNat = b := by
  unfold Char.ofNat
  have hv : b.isValidChar := Or.inl (by omega)
  rw [dif_pos hv]
  rfl

theorem char_ofNat_ne_nul (b : Nat) (h0 : b ≠ 0) (h : b < 256) :
    Char.ofNat b ≠ Char.ofNat 0 := by
  intro e
  have := congrArg Char.toNat e
  rw [char_ofNat_toNat b h, char_ofNat_toNat 0 (by decide)] at this
  exact h0 this

theorem register_chars_eq (val : Nat) (result : List Char) :
    (if val &&& 0xFF ≠ 0 then
        (if (val >>> 8) &&& 0xFF ≠ 0 then result ++ [Char.ofNat ((val >>> 8) &&& 0xFF)]
          else result) ++ [Char.ofNat (val &&& 0xFF)]
      else
        (if (val >>> 8) &&& 0xFF ≠ 0 then result ++ [Char.ofNat ((val >>> 8) &&& 0xFF)]
          else result))
      = result ++ register_chars val := by
  rw [and_0xFF_eq_mod, and_0xFF_eq_mod, shr8_eq_div]
  unfold register_chars
  by_cases hhi : val / 256 % 256 = 0 <;> by_cases hlo : val % 256 = 0 <;>
    simp [hhi, hlo, List.filter_cons]

theorem register_chars_ne_nul (v : Nat) : ∀ c ∈ register_chars v, c ≠ Char.ofNat 0 := by
  intro c hc
  unfold register_chars at hc
  rw [List.mem_map] at hc
  obtain ⟨b, hb, rfl⟩ := hc
  rw [List.mem_filter] at hb
  have hb0 : b ≠ 0 := by simpa using hb.2
  have hb256 : b < 256 := by
    have := hb.1
    simp only [List.mem_cons, List.mem_singleton, List.not_mem_nil, or_false] at this
    rcases this with h | h <;> (rw [h]; exact Nat.mod_lt _ (by decide))
  exact char_ofNat_ne_nul b hb0 hb256

theorem decode_string_loop_eq (regs : Nat → Option Nat) (start n i : Nat) (result : List Char)
    (hc : ∀ j, j < n → regs ((start + (i + j)) % 65536) ≠ none) :
    decode_string_loop regs start n i result
      = result ++ (List.range n).flatMap
          (fun j => register_chars ((regs ((start + (i + j)) % 65536)).getD 0)) := by
  induction n generalizing i result with
  | zero => simp [decode_string_loop]
  | succ n ih =>
    have h0 := hc 0 (Nat.succ_pos n)
    rw [Nat.add_zero] at h0
    obtain ⟨val, hval⟩ := Option.ne_none_iff_exists'.mp h0
    unfold decode_string_loop
    rw [hval]
    dsimp only
    rw [register_chars_eq val result, ih (i + 1) _ (fun j hj => by
      have := hc (j + 1) (Nat.succ_lt_succ hj)
      rwa [show i + (j + 1) = i + 1 + j by omega] at this)]
    rw [List.range_succ_eq_map, List.flatMap_cons, List.flatMap_map, List.append_assoc]
    simp only [Nat.add_zero, hval, Option.getD_some]
    congr 2
    apply List.flatMap_congr
    intro j _
    rw [show i + 1 + j = i + j.succ by omega]

theorem decode_string__eq (regs : Nat → Option Nat) (start n : Nat) (hn : start + n ≤ 65536)
    (hc : ∀ j, j < n → regs (start + j) ≠ none) :
    decode_string_ regs start n = identity_chars regs start n := by
  unfold decode_string_ identity_chars
  rw [decode_string_loop_eq regs start n 0 [] (fun j hj => by
    rw [Nat.zero_add, Nat.mod_eq_of_lt (by omega)]
    exact hc j hj)]
  rw [List.nil_append]
  apply List.flatMap_congr
  intro j hj
  rw [List.mem_range] at hj
  rw [Nat.zero_add, Nat.mod_eq_of_lt (by omega)]

theorem identity_chars_ne_nul (regs : Nat → Option Nat) (start n : Nat) :
    ∀ c ∈ identity_chars regs start n, c ≠ Char.ofNat 0 := by
  intro c hc
  unfold identity_chars at hc
  rw [List.mem_flatMap] at hc
  obtain ⟨i, _, hi⟩ := hc
  exact register_chars_ne_nul _ c hi

theorem dropWhile_congr_mem {α : Type} (p q : α → Bool) (l : List α)
    (h : ∀ x ∈ l, p x = q x) : l.dropWhile p = l.dropWhile q := by
  induction l with
  | nil => rfl
  | cons x rest ih =>
    rw [List.dropWhile_cons, List.dropWhile_cons, h x (by simp),
      ih (fun y hy => h y (List.mem_cons_of_mem _ hy))]

theorem trim_trailing_eq (chars : List Char) (h : ∀ c ∈ chars, c ≠ Char.ofNat 0) :
    trim_trailing chars = strip_trailing_spaces chars := by
  unfold trim_trailing strip_trailing_spaces List.rdropWhile
  rw [dropWhile_congr_mem _ (fun c => c == ' ') chars.reverse]
  intro c hc
  have hne := h c (List.mem_reverse.mp hc)
  have : (c == Char.ofNat 0) = false := by simpa using hne
  rw [this, Bool.or_false]

/-! ## A valid response reaches the state transitions -/

theorem read_frame__control (s : WaterFurnace) :
    control_part (read_frame_ s).2.2 = control_part s := by
  unfold read_frame_
  dsimp only
  split_ifs <;> rfl

theorem process_read_values__control (frame : List Nat) (s : WaterFurnace) :
    control_part (process_read_values_ frame s) = control_part s := by
  unfold process_read_values_
  dsimp only
  split_ifs
  · exact foldl_proj_eq control_part store_and_dispatch_ (fun _ _ => rfl) _ _
  · rfl

theorem process_write_single__control (frame : List Nat) (s : WaterFurnace) :
    control_part (process_write_single_ frame s) = control_part s := by
  unfold process_write_single_
  split_ifs <;> rfl

theorem validate_frame_crc_length (frame : List Nat) (h : validate_frame_crc frame = true) :
    4 ≤ frame.length := by
  unfold validate_frame_crc at h
  by_contra hlt
  simp only [MIN_FRAME_SIZE] at h
  rw [if_pos (by omega)] at h
  exact absurd h (by simp)

theorem sent_frames_map_call (js : List Nat) (v : Nat) :
    sent_frames (js.map (fun j => Effect.call j v)) = [] := by
  induction js with
  | nil => rfl
  | cons j rest ih => simpa [sent_frames] using ih

theorem dispatch_register__sent (addr value : Nat) (s : WaterFurnace) :
    sent_frames (dispatch_register_ addr value s).effects = sent_frames s.effects := by
  rw [dispatch_register__effects, sent_frames_append, sent_frames_map_call, List.append_nil]

theorem process_read_values__sent (frame : List Nat) (s : WaterFurnace) :
    sent_frames (process_read_values_ frame s).effects = sent_frames s.effects := by
  unfold process_read_values_
  dsimp only
  split_ifs
  · exact foldl_proj_eq (fun s => sent_frames s.effects) store_and_dispatch_
      (fun s av => dispatch_register__sent av.1 av.2 _) _ _
  · rfl

theorem process_write_single__sent (frame : List Nat) (s : WaterFurnace) :
    sent_frames (process_write_single_ frame s).effects = sent_frames s.effects := by
  unfold process_write_single_
  split_ifs
  · exact dispatch_register__sent _ _ _
  · rfl

/-- A tick in `WAITING_RESPONSE` that assembles a CRC-valid frame without the
error bit stores what the frame carries and then runs the state transitions;
up to the transitions, only the cache, the effects, the buffers and the time
of the last response have changed, and nothing has been sent. -/
theorem loop_valid_response (now t : Nat) (s : WaterFurnace)
    (hstate : s.state_ = State.WAITING_RESPONSE) (hread : (read_frame_ s).1 = true)
    (hne : is_error_response ((read_frame_ s).2.1.getD 1 0) = false) :
    ∃ s2 : WaterFurnace,
      loop now t s = process_transition_ t s2
      ∧ control_part s2 = control_part s
      ∧ sent_frames s2.effects = sent_frames s.effects := by
  have hok := read_frame__ok s hread
  have h4 := validate_frame_crc_length _ hok.1
  have hk := read_frame__keeps s
  have hc := read_frame__control s
  rw [loop_waiting_ok now t s hstate hread]
  unfold process_response_
  dsimp only
  rw [if_neg (by simp only [MIN_FRAME_SIZE]; omega), hne]
  simp only [Bool.false_eq_true, if_false]
  by_cases hf : (read_frame_ s).2.1.getD 1 0 = FUNC_READ_RANGES
      ∨ (read_frame_ s).2.1.getD 1 0 = FUNC_READ_REGISTERS
  · have h5 := hok.2 hf
    rw [if_neg (by intro h; omega), if_pos hf]
    refine ⟨_, rfl, ?_, ?_⟩
    · rw [process_write_single__control, process_read_values__control]
      exact hc
    · rw [process_write_single__sent, process_read_values__sent]
      exact congrArg sent_frames hk.2.2.2.2.1
  · rw [if_neg (fun h => hf h.1), if_neg hf]
    refine ⟨_, rfl, ?_, ?_⟩
    · rw [process_write_single__control]
      exact hc
    · rw [process_write_single__sent]
      exact congrArg sent_frames hk.2.2.2.2.1

theorem foldl_assign_of_mem (pairs : List (Nat × Nat)) (regs : Nat → Option Nat) (a : Nat)
    (h : a ∈ pairs.map Prod.fst) :
    (pairs.foldl (fun regs av => map_assign regs av.1 av.2) regs) a ≠ none := by
  induction pairs generalizing regs with
  | nil => simp at h
  | cons p rest ih =>
    rw [List.foldl_cons]
    by_cases hr : a ∈ rest.map Prod.fst
    · exact ih _ hr
    · rw [foldl_assign_of_not_mem rest _ a
        (fun q hq e => hr (e ▸ List.mem_map_of_mem Prod.fst hq))]
      have : a = p.1 := by
        rw [List.map_cons, List.mem_cons] at h
        exact h.resolve_right hr
      simp [map_assign, this]

/-- A tick in `WAITING_RESPONSE` that assembles a CRC-valid read response with
as many values as there are expected addresses: the state transitions run on a
hub in which every expected address is cached. -/
theorem loop_matching_read_response (now t : Nat) (s : WaterFurnace)
    (hstate : s.state_ = State.WAITING_RESPONSE) (hread : (read_frame_ s).1 = true)
    (hfunc : (read_frame_ s).2.1.getD 1 0 = FUNC_READ_RANGES
      ∨ (read_frame_ s).2.1.getD 1 0 = FUNC_READ_REGISTERS)
    (hcount : (parse_register_values ((read_frame_ s).2.1.drop 3)
      ((read_frame_ s).2.1.getD 2 0)).length = s.expected_addresses_.length) :
    ∃ s2 : WaterFurnace,
      loop now t s = process_transition_ t s2
      ∧ control_part s2 = control_part s
      ∧ (∀ a ∈ s.expected_addresses_, s2.registers_ a ≠ none) := by
  have hk := read_frame__keeps s
  have hc := read_frame__control s
  have hrv : process_read_values_ (read_frame_ s).2.1
        { (read_frame_ s).2.2 with last_response_time_ := now }
      = (s.expected_addresses_.zip (parse_register_values ((read_frame_ s).2.1.drop 3)
          ((read_frame_ s).2.1.getD 2 0))).foldl store_and_dispatch_
          { (read_frame_ s).2.2 with last_response_time_ := now } := by
    unfold process_read_values_
    dsimp only
    rw [hk.2.2.2.1, if_pos hcount]
  refine ⟨process_read_values_ (read_frame_ s).2.1
    { (read_frame_ s).2.2 with last_response_time_ := now }, ?_, ?_, ?_⟩
  · rw [loop_waiting_ok now t s hstate hread,
      process_response__read _ t _ ((read_frame__ok s hread).2 hfunc) hfunc]
  · rw [process_read_values__control]
    exact hc
  · intro a ha
    rw [hrv, (foldl_store_and_dispatch _ _).1]
    apply foldl_assign_of_mem
    rw [List.map_fst_zip _ _ (le_of_eq hcount.symm)]
    exact ha

theorem process_transition__identity (t : Nat) (s2 s : WaterFurnace)
    (hctl : control_part s2 = control_part s)
    (hstate : s.state_ = State.WAITING_RESPONSE)
    (hid : s.poll_groups_ = [] ∧ s.model_number_ = []) :
    process_transition_ t s2 = finish_system_id_ s2 := by
  have h1 : s2.state_ = s.state_ := congrArg (fun x => x.state_) hctl
  have h2 : s2.poll_groups_ = s.poll_groups_ := congrArg (fun x => x.poll_groups_) hctl
  have h3 : s2.model_number_ = s.model_number_ := congrArg (fun x => x.model_number_) hctl
  unfold process_transition_
  rw [if_pos (h1.trans hstate), if_pos ⟨h2.trans hid.1, h3.trans hid.2⟩]

/-- C11: when the response to the identity read is processed (a CRC-valid read
response with one value per expected address, while no poll groups exist and
the model number is still empty), every identity register is cached and each
identity string is the concatenation, over its registers in address order
(program 88..91, model 92..103, serial 105..109), of the high byte then the low
byte of each cached value, zero bytes omitted, with the trailing spaces
removed; the variable-speed drive is reported exactly when the program string
is ABCVSP, ABCVSPR or ABCSPLVS. With the fixture values the strings are
ABCSPLVS, OTP509 and 09 and the drive is detected. -/
theorem C11_identity_strings_decoded (now t : Nat) (s : WaterFurnace)
    (hstate : s.state_ = State.WAITING_RESPONSE)
    (hid : s.poll_groups_ = [] ∧ s.model_number_ = [])
    (hexp : s.expected_addresses_ = push_range_addresses get_system_id_ranges [])
    (hread : (read_frame_ s).1 = true)
    (hfunc : (read_frame_ s).2.1.getD 1 0 = FUNC_READ_RANGES
      ∨ (read_frame_ s).2.1.getD 1 0 = FUNC_READ_REGISTERS)
    (hcount : (parse_register_values ((read_frame_ s).2.1.drop 3)
      ((read_frame_ s).2.1.getD 2 0)).length = s.expected_addresses_.length) :
    (∀ a ∈ push_range_addresses get_system_id_ranges [], get_register a (loop now t s) ≠ none)
    ∧ (loop now t s).abc_program_
        = strip_trailing_spaces (identity_chars (loop now t s).registers_ 88 4)
    ∧ (loop now t s).model_number_
        = strip_trailing_spaces (identity_chars (loop now t s).registers_ 92 12)
    ∧ (loop now t s).serial_number_
        = strip_trailing_spaces (identity_chars (loop now t s).registers_ 105 5)
    ∧ ((loop now t s).has_vs_drive_ = true ↔
        (loop now t s).abc_program_ = "ABCVSP".toList
        ∨ (loop now t s).abc_program_ = "ABCVSPR".toList
        ∨ (loop now t s).abc_program_ = "ABCSPLVS".toList)
    ∧ String.mk (loop 10 10 identity_pending).abc_program_ = "ABCSPLVS"
    ∧ String.mk (loop 10 10 identity_pending).model_number_ = "OTP509"
    ∧ String.mk (loop 10 10 identity_pending).serial_number_ = "09"
    ∧ (loop 10 10 identity_pending).has_vs_drive_ = true := by
  obtain ⟨s2, hloop, hctl, hcached⟩ :=
    loop_matching_read_response now t s hstate hread hfunc hcount
  rw [hexp] at hcached
  rw [hloop, process_transition__identity t s2 s hctl hstate hid]
  have hregs : (finish_system_id_ s2).registers_ = s2.registers_ := rfl
  have hprog : decode_string_ s2.registers_ REG_ABC_PROGRAM 4
      = identity_chars s2.registers_ 88 4 :=
    decode_string__eq _ 88 4 (by decide) (fun j hj => hcached _ (by
      interval_cases j <;> decide))
  have hmodel : decode_string_ s2.registers_ REG_MODEL_NUMBER 12
      = identity_chars s2.registers_ 92 12 :=
    decode_string__eq _ 92 12 (by decide) (fun j hj => hcached _ (by
      interval_cases j <;> decide))
  have hserial : decode_string_ s2.registers_ REG_SERIAL_NUMBER 5
      = identity_chars s2.registers_ 105 5 :=
    decode_string__eq _ 105 5 (by decide) (fun j hj => hcached _ (by
      interval_cases j <;> decide))
  refine ⟨hcached, ?_, ?_, ?_, ?_, by decide!, by decide!, by decide!, by decide!⟩
  · show trim_trailing (decode_string_ s2.registers_ REG_ABC_PROGRAM 4) = _
    rw [hprog, trim_trailing_eq _ (identity_chars_ne_nul _ _ _)]
    rfl
  · show trim_trailing (decode_string_ s2.registers_ REG_MODEL_NUMBER 12) = _
    rw [hmodel, trim_trailing_eq _ (identity_chars_ne_nul _ _ _)]
    rfl
  · show trim_trailing (decode_string_ s2.registers_ REG_SERIAL_NUMBER 5) = _
    rw [hserial, trim_trailing_eq _ (identity_chars_ne_nul _ _ _)]
    rfl
  · show (decide _ || decide _ || decide _) = true ↔ _
    simp only [Bool.or_eq_true, decide_eq_true_eq, or_assoc]
    rfl

/-- C11 at the hub that holds the identity response of the fixture device. -/
theorem C11_identity_strings_decoded_witness :
    (identity_pending.state_ = State.WAITING_RESPONSE
      ∧ (identity_pending.poll_groups_ = [] ∧ identity_pending.model_number_ = [])
      ∧ identity_pending.expected_addresses_ = push_range_addresses get_system_id_ranges []
      ∧ (read_frame_ identity_pending).1 = true
      ∧ (read_frame_ identity_pending).2.1.getD 1 0 = FUNC_READ_RANGES)
    ∧ (loop 10 10 identity_pending).model_number_
        = strip_trailing_spaces (identity_chars (loop 10 10 identity_pending).registers_ 92 12)
    ∧ get_register 94 (loop 10 10 identity_pending) = some 12345
    ∧ get_register 95 (loop 10 10 identity_pending) = some 0
    ∧ String.mk (identity_chars (loop 10 10 identity_pending).registers_ 92 12) = "OTP509" :=
  ⟨⟨by decide!, by decide!, by decide!, by decide!, by decide!⟩,
    (C11_identity_strings_decoded 10 10 identity_pending (by decide!) (by decide!)
      (by decide!) (by decide!) (by decide!) (by decide!)).2.2.1,
    by decide!, by decide!, by decide!⟩

/-! ## Component detection -/

theorem process_transition__detection (t : Nat) (s2 s : WaterFurnace)
    (hctl : control_part s2 = control_part s)
    (hstate : s.state_ = State.WAITING_RESPONSE)
    (hdet : ¬ (s.poll_groups_ = [] ∧ s.model_number_ = []))
    (hphase : s.setup_phase_ ≠ 0) :
    process_transition_ t s2 = finish_detection_ s2 := by
  have h1 : s2.state_ = s.state_ := congrArg (fun x => x.state_) hctl
  have h2 : s2.poll_groups_ = s.poll_groups_ := congrArg (fun x => x.poll_groups_) hctl
  have h3 : s2.model_number_ = s.model_number_ := congrArg (fun x => x.model_number_) hctl
  have h4 : s2.setup_phase_ = s.setup_phase_ := congrArg (fun x => x.setup_phase_) hctl
  unfold process_transition_
  rw [if_pos (h1.trans hstate), if_neg (by rw [h2, h3]; exact hdet),
    if_pos (by rw [h4]; exact hphase)]

/-- What the detection branch computes, read off the cache it runs on. -/
theorem finish_detection__flags (s : WaterFurnace) :
    (finish_detection_ s).registers_ = s.registers_
    ∧ (finish_detection_ s).has_thermostat_ = check_component s.registers_ REG_THERMOSTAT_STATUS
    ∧ (finish_detection_ s).has_axb_ = check_component s.registers_ REG_AXB_STATUS
    ∧ (finish_detection_ s).has_iz2_ = check_component s.registers_ REG_IZ2_STATUS
    ∧ (finish_detection_ s).awl_thermostat_
        = (check_component s.registers_ REG_THERMOSTAT_STATUS
            && decide (get_version s.registers_ REG_THERMOSTAT_VERSION ≥ 300))
    ∧ (finish_detection_ s).awl_axb_
        = (check_component s.registers_ REG_AXB_STATUS
            && decide (get_version s.registers_ REG_AXB_VERSION ≥ 200))
    ∧ (finish_detection_ s).awl_iz2_
        = (check_component s.registers_ REG_IZ2_STATUS
            && decide (get_version s.registers_ REG_IZ2_VERSION ≥ 200))
    ∧ (finish_detection_ s).has_energy_monitoring_
        = check_component s.registers_ REG_AXB_STATUS := by
  unfold finish_detection_
  dsimp only
  split_ifs
  · split
    · exact ⟨rfl, rfl, rfl, rfl, rfl, rfl, rfl, rfl⟩
    · split_ifs <;> exact ⟨rfl, rfl, rfl, rfl, rfl, rfl, rfl, rfl⟩
  · exact ⟨rfl, rfl, rfl, rfl, rfl, rfl, rfl, rfl⟩

theorem check_component_iff (regs : Nat → Option Nat) (a : Nat) :
    check_component regs a = true ↔ ∃ v, regs a = some v ∧ v ≠ 3 ∧ v ≠ 0xFFFF ∧ v ≠ 0 := by
  unfold check_component
  cases regs a with
  | none => simp
  | some v => simp [COMPONENT_REMOVED, COMPONENT_MISSING, and_assoc]

theorem get_version_ge_iff (regs : Nat → Option Nat) (a k : Nat) (hk : 0 < k) :
    decide (get_version regs a ≥ k) = true ↔ ∃ v, regs a = some v ∧ k ≤ v := by
  unfold get_version
  cases regs a with
  | none => simp; omega
  | some v => simp

/-- The float comparison behind `get_version`: for any rounding of the exact
quotient that is monotone and leaves the representable numbers `k` and
`k - 1/128` alone, the rounded `v / 100` is at least `k` exactly when `v` is at
least `100 k` (used for `k = 3` and `k = 2`). -/
theorem version_threshold (rnd : ℚ → ℚ) (mono : Monotone rnd) (k : ℕ)
    (hk : rnd k = k) (hlo : rnd (k - 1 / 128) = k - 1 / 128) (v : ℕ) :
    (k : ℚ) ≤ rnd ((v : ℚ) / 100) ↔ 100 * k ≤ v := by
  constructor
  · intro h
    by_contra hv
    have hv' : v + 1 ≤ 100 * k := by omega
    have hq : (v : ℚ) + 1 ≤ 100 * k := by exact_mod_cast hv'
    have hle : (v : ℚ) / 100 ≤ k - 1 / 128 := by linarith
    have := mono hle
    rw [hlo] at this
    linarith
  · intro h
    have hq : (100 : ℚ) * k ≤ v := by exact_mod_cast h
    have hle : (k : ℚ) ≤ (v : ℚ) / 100 := by linarith
    have := mono hle
    rw [hk] at this
    exact this

/-- C12: when the detection response is processed (a CRC-valid frame without
the error bit, while a setup request is outstanding and the identity is
known), each of thermostat, AXB and IZ2 is marked present exactly when its
status register (800, 806, 812) is cached and is not 3 (removed), not 0xFFFF
(missing) and not 0; its AWL flag is true exactly when it is present and its
version register (801, 807, 813) is cached and at least 300 (thermostat),
respectively 200 (AXB, IZ2), that is version 3.0 and 2.0; energy monitoring is
reported exactly when the AXB is present. -/
theorem C12_detection_flags (now t : Nat) (s : WaterFurnace)
    (hstate : s.state_ = State.WAITING_RESPONSE) (hread : (read_frame_ s).1 = true)
    (hne : is_error_response ((read_frame_ s).2.1.getD 1 0) = false)
    (hdet : ¬ (s.poll_groups_ = [] ∧ s.model_number_ = []))
    (hphase : s.setup_phase_ ≠ 0) :
    ((loop now t s).has_thermostat_ = true ↔
        ∃ v, get_register 800 (loop now t s) = some v ∧ v ≠ 3 ∧ v ≠ 0xFFFF ∧ v ≠ 0)
    ∧ ((loop now t s).has_axb_ = true ↔
        ∃ v, get_register 806 (loop now t s) = some v ∧ v ≠ 3 ∧ v ≠ 0xFFFF ∧ v ≠ 0)
    ∧ ((loop now t s).has_iz2_ = true ↔
        ∃ v, get_register 812 (loop now t s) = some v ∧ v ≠ 3 ∧ v ≠ 0xFFFF ∧ v ≠ 0)
    ∧ ((loop now t s).awl_thermostat_ = true ↔
        (loop now t s).has_thermostat_ = true
        ∧ ∃ v, get_register 801 (loop now t s) = some v ∧ 300 ≤ v)
    ∧ ((loop now t s).awl_axb_ = true ↔
        (loop now t s).has_axb_ = true
        ∧ ∃ v, get_register 807 (loop now t s) = some v ∧ 200 ≤ v)
    ∧ ((loop now t s).awl_iz2_ = true ↔
        (loop now t s).has_iz2_ = true
        ∧ ∃ v, get_register 813 (loop now t s) = some v ∧ 200 ≤ v)
    ∧ ((loop now t s).has_energy_monitoring_ = true ↔ (loop now t s).has_axb_ = true) := by
  obtain ⟨s2, hloop, hctl, _⟩ := loop_valid_response now t s hstate hread hne
  rw [hloop, process_transition__detection t s2 s hctl hstate hdet hphase]
  obtain ⟨hr, h1, h2, h3, h4, h5, h6, h7⟩ := finish_detection__flags s2
  unfold get_register
  rw [hr, h1, h2, h3, h4, h5, h6, h7]
  simp only [Bool.and_eq_true]
  rw [get_version_ge_iff _ _ 300 (by decide), get_version_ge_iff _ _ 200 (by decide),
    get_version_ge_iff _ _ 200 (by decide)]
  exact ⟨check_component_iff _ _, check_component_iff _ _, check_component_iff _ _,
    Iff.rfl, Iff.rfl, Iff.rfl, trivial⟩

/-- C12 at the hub that holds the detection response of a device with
thermostat and AXB active at versions 3.0 and 2.0 and no IZ2. -/
theorem C12_detection_flags_witness :
    ((detection_pending (detection_fixture 300 200)).state_ = State.WAITING_RESPONSE
      ∧ (read_frame_ (detection_pending (detection_fixture 300 200))).1 = true
      ∧ is_error_response
          ((read_frame_ (detection_pending (detection_fixture 300 200))).2.1.getD 1 0) = false
      ∧ ¬ ((detection_pending (detection_fixture 300 200)).poll_groups_ = []
          ∧ (detection_pending (detection_fixture 300 200)).model_number_ = [])
      ∧ (detection_pending (detection_fixture 300 200)).setup_phase_ ≠ 0)
    ∧ ((loop 30 30 (detection_pending (detection_fixture 300 200))).awl_thermostat_ = true ↔
        (loop 30 30 (detection_pending (detection_fixture 300 200))).has_thermostat_ = true
        ∧ ∃ v, get_register 801 (loop 30 30 (detection_pending (detection_fixture 300 200)))
            = some v ∧ 300 ≤ v)
    ∧ get_register 800 (loop 30 30 (detection_pending (detection_fixture 300 200))) = some 1
    ∧ get_register 801 (loop 30 30 (detection_pending (detection_fixture 300 200))) = some 300
    ∧ get_register 812 (loop 30 30 (detection_pending (detection_fixture 300 200))) = some 0
    ∧ (loop 30 30 (detection_pending (detection_fixture 300 200))).has_thermostat_ = true
    ∧ (loop 30 30 (detection_pending (detection_fixture 300 200))).awl_thermostat_ = true
    ∧ (loop 30 30 (detection_pending (detection_fixture 300 200))).has_iz2_ = false
    ∧ (loop 30 30 (detection_pending (detection_fixture 300 200))).has_energy_monitoring_ = true :=
  ⟨⟨by decide!, by decide!, by decide!, by decide!, by decide!⟩,
    (C12_detection_flags 30 30 (detection_pending (detection_fixture 300 200)) (by decide!)
      (by decide!) (by decide!) (by decide!) (by decide!)).2.2.2.1,
    by decide!, by decide!, by decide!, by decide!, by decide!, by decide!, by decide!⟩

/-- C13, refuted as stated: from the initial hub through the identity read to
the detection response of a device with thermostat and AXB active, thermostat
version 3.0 (raw 300) and AXB version 2.99 (raw 299), the AXB AWL flag is
true, not false: 2.99 is above the AXB threshold 2.0. -/
theorem C13_axb_version_299_sets_awl :
    (detection_pending (detection_fixture 300 299)).state_ = State.WAITING_RESPONSE
    ∧ (read_frame_ (detection_pending (detection_fixture 300 299))).1 = true
    ∧ get_register 800 (loop 30 30 (detection_pending (detection_fixture 300 299))) = some 1
    ∧ get_register 801 (loop 30 30 (detection_pending (detection_fixture 300 299))) = some 300
    ∧ get_register 806 (loop 30 30 (detection_pending (detection_fixture 300 299))) = some 1
    ∧ get_register 807 (loop 30 30 (detection_pending (detection_fixture 300 299))) = some 299
    ∧ (loop 30 30 (detection_pending (detection_fixture 300 299))).has_axb_ = true
    ∧ (loop 30 30 (detection_pending (detection_fixture 300 299))).awl_axb_ = true
    ∧ ¬ ((loop 30 30 (detection_pending (detection_fixture 300 299))).awl_axb_ = false) := by
  refine ⟨?_, ?_, ?_, ?_, ?_, ?_, ?_, ?_, ?_⟩ <;> decide!

/-- C13, amended: when a detection response is processed after which the cache
holds thermostat and AXB active (status 1) with thermostat version 3.0 (raw
300) and AXB version 2.0 (raw 200), both AWL flags are true; with AXB version
2.99 (raw 299) the AXB AWL flag is still true; the AXB AWL flag is false for
every AXB version below 2.0 (raw below 200) and the thermostat AWL flag is
false for every thermostat version below 3.0 (raw below 300, so for 2.99).
The same end to end, from the initial hub through the identity read to the
detection response of such devices. -/
theorem C13_awl_thresholds (now t : Nat) (s : WaterFurnace)
    (hstate : s.state_ = State.WAITING_RESPONSE) (hread : (read_frame_ s).1 = true)
    (hne : is_error_response ((read_frame_ s).2.1.getD 1 0) = false)
    (hdet : ¬ (s.poll_groups_ = [] ∧ s.model_number_ = []))
    (hphase : s.setup_phase_ ≠ 0) :
    (get_register 800 (loop now t s) = some COMPONENT_ACTIVE →
        get_register 801 (loop now t s) = some 300 →
        (loop now t s).awl_thermostat_ = true)
    ∧ (get_register 806 (loop now t s) = some COMPONENT_ACTIVE →
        get_register 807 (loop now t s) = some 200 →
        (loop now t s).awl_axb_ = true)
    ∧ (get_register 806 (loop now t s) = some COMPONENT_ACTIVE →
        get_register 807 (loop now t s) = some 299 →
        (loop now t s).awl_axb_ = true)
    ∧ (∀ v, get_register 807 (loop now t s) = some v → v < 200 →
        (loop now t s).awl_axb_ = false)
    ∧ (∀ v, get_register 801 (loop now t s) = some v → v < 300 →
        (loop now t s).awl_thermostat_ = false)
    ∧ (loop 30 30 (detection_pending (detection_fixture 300 200))).awl_thermostat_ = true
    ∧ (loop 30 30 (detection_pending (detection_fixture 300 200))).awl_axb_ = true
    ∧ (loop 30 30 (detection_pending (detection_fixture 300 299))).awl_axb_ = true
    ∧ (loop 30 30 (detection_pending (detection_fixture 300 199))).awl_axb_ = false
    ∧ (loop 30 30 (detection_pending (detection_fixture 299 200))).awl_thermostat_ = false := by
  obtain ⟨s2, hloop, hctl, _⟩ := loop_valid_response now t s hstate hread hne
  obtain ⟨hr, _, _, _, h4, h5, _, _⟩ := finish_detection__flags s2
  refine ⟨?_, ?_, ?_, ?_, ?_, by decide!, by decide!, by decide!, by decide!, by decide!⟩
  all_goals
    rw [hloop, process_transition__detection t s2 s hctl hstate hdet hphase]
    unfold get_register
    rw [hr]
  · intro h800 h801
    rw [h4]
    simp [check_component, get_version, REG_THERMOSTAT_STATUS, REG_THERMOSTAT_VERSION,
      h800, h801, COMPONENT_ACTIVE, COMPONENT_REMOVED, COMPONENT_MISSING]
  · intro h806 h807
    rw [h5]
    simp [check_component, get_version, REG_AXB_STATUS, REG_AXB_VERSION,
      h806, h807, COMPONENT_ACTIVE, COMPONENT_REMOVED, COMPONENT_MISSING]
  · intro h806 h807
    rw [h5]
    simp [check_component, get_version, REG_AXB_STATUS, REG_AXB_VERSION,
      h806, h807, COMPONENT_ACTIVE, COMPONENT_REMOVED, COMPONENT_MISSING]
  · intro v h807 hv
    rw [h5]
    simp [get_version, REG_AXB_VERSION, h807, hv]
  · intro v h801 hv
    rw [h4]
    simp [get_version, REG_THERMOSTAT_VERSION, h801, hv]

/-- C13 (amended) at the hub that holds the detection response of a device
with AXB version 1.99. -/
theorem C13_awl_thresholds_witness :
    ((detection_pending (detection_fixture 300 199)).state_ = State.WAITING_RESPONSE
      ∧ (read_frame_ (detection_pending (detection_fixture 300 199))).1 = true
      ∧ (detection_pending (detection_fixture 300 199)).setup_phase_ ≠ 0
      ∧ get_register 807 (loop 30 30 (detection_pending (detection_fixture 300 199)))
          = some 199)
    ∧ (loop 30 30 (detection_pending (detection_fixture 300 199))).awl_axb_ = false :=
  ⟨⟨by decide!, by decide!, by decide!, by decide!⟩,
    (C13_awl_thresholds 30 30 (detection_pending (detection_fixture 300 199)) (by decide!)
      (by decide!) (by decide!) (by decide!) (by decide!)).2.2.2.1 199 (by decide!)
      (by decide)⟩

/-! ## Once setup is over, it stays over -/

theorem push_if_ne_nil (c : Prop) [Decidable c] (groups : List PollGroup) (g : PollGroup)
    (h : groups ≠ []) : (if c then groups ++ [g] else groups) ≠ [] := by
  split_ifs
  · simp
  · exact h

theorem build_poll_groups__ne_nil (s : WaterFurnace) :
    (build_poll_groups_ s).poll_groups_ ≠ [] := by
  unfold build_poll_groups_
  dsimp only
  exact push_if_ne_nil _ _ _ (push_if_ne_nil _ _ _ (push_if_ne_nil _ _ _
    (push_if_ne_nil _ _ _ (push_if_ne_nil _ _ _ (by simp)))))

theorem finish_detection__done (s : WaterFurnace) : setup_done (finish_detection_ s) := by
  unfold finish_detection_
  dsimp only
  refine ⟨build_poll_groups__ne_nil _, rfl, ?_, ?_⟩ <;> exact fun h => State.noConfusion h

theorem setup_done_of_control (a b : WaterFurnace) (h : control_part a = control_part b)
    (hb : setup_done b) : setup_done a := by
  have h1 : a.state_ = b.state_ := congrArg (fun x => x.state_) h
  have h2 : a.poll_groups_ = b.poll_groups_ := congrArg (fun x => x.poll_groups_) h
  have h4 : a.setup_phase_ = b.setup_phase_ := congrArg (fun x => x.setup_phase_) h
  unfold setup_done
  rw [h1, h2, h4]
  exact hb

theorem capabilities_of_control (a b : WaterFurnace) (h : control_part a = control_part b) :
    capabilities a = capabilities b :=
  (show capabilities a = capabilities (control_part a) from rfl).trans
    ((congrArg (fun x => capabilities x) h).trans rfl)

theorem poll_next_group__settled (t : Nat) (s : WaterFurnace) (h : setup_done s) :
    setup_done (poll_next_group_ t s)
    ∧ capabilities (poll_next_group_ t s) = capabilities s := by
  unfold poll_next_group_
  split
  · exact ⟨h, rfl⟩
  · unfold send_frame_
    dsimp only
    split_ifs <;>
      exact ⟨⟨h.1, h.2.1, fun e => State.noConfusion e, fun e => State.noConfusion e⟩, rfl⟩

theorem process_transition__settled (t : Nat) (s : WaterFurnace) (h : setup_done s) :
    setup_done (process_transition_ t s)
    ∧ capabilities (process_transition_ t s) = capabilities s := by
  unfold process_transition_
  dsimp only
  split_ifs with h1 h2 h3 h4
  · exact absurd h2.1 h.1
  · exact absurd h.2.1 h3
  · exact poll_next_group__settled t _ ⟨h.1, h.2.1, h.2.2.1, h.2.2.2⟩
  · exact ⟨⟨h.1, h.2.1, fun e => State.noConfusion e, fun e => State.noConfusion e⟩, rfl⟩
  · exact ⟨h, rfl⟩

theorem process_response__settled (frame : List Nat) (t : Nat) (s : WaterFurnace)
    (h : setup_done s) :
    setup_done (process_response_ frame t s)
    ∧ capabilities (process_response_ frame t s) = capabilities s := by
  have hdone : ∀ st : State, st ≠ State.SETUP_READ_ID → st ≠ State.SETUP_DETECT_COMPONENTS →
      ∀ b : Nat, setup_done { s with error_backoff_until_ := b, state_ := st } :=
    fun st h1 h2 _ => ⟨h.1, h.2.1, h1, h2⟩
  unfold process_response_
  dsimp only
  split_ifs
  · exact ⟨h, rfl⟩
  · exact ⟨⟨h.1, h.2.1, fun e => State.noConfusion e, fun e => State.noConfusion e⟩, rfl⟩
  · exact ⟨⟨h.1, h.2.1, fun e => State.noConfusion e, fun e => State.noConfusion e⟩, rfl⟩
  · exact ⟨h, rfl⟩
  · have hc : control_part (process_write_single_ frame (process_read_values_ frame s))
        = control_part s := by
      rw [process_write_single__control, process_read_values__control]
    have := process_transition__settled t _ (setup_done_of_control _ _ hc h)
    exact ⟨this.1, this.2.trans (capabilities_of_control _ _ hc)⟩
  · have hc : control_part (process_write_single_ frame s) = control_part s :=
      process_write_single__control frame s
    have := process_transition__settled t _ (setup_done_of_control _ _ hc h)
    exact ⟨this.1, this.2.trans (capabilities_of_control _ _ hc)⟩

theorem loop_settled (now t : Nat) (s : WaterFurnace) (h : setup_done s) :
    setup_done (loop now t s) ∧ capabilities (loop now t s) = capabilities s := by
  unfold loop
  split
  · next hs => exact absurd hs h.2.2.1
  · next hs => exact absurd hs h.2.2.2
  · unfold process_pending_writes_ send_frame_
    dsimp only
    split_ifs <;> first
      | exact ⟨h, rfl⟩
      | exact ⟨⟨h.1, h.2.1, fun e => State.noConfusion e, fun e => State.noConfusion e⟩, rfl⟩
  · dsimp only
    have hc := read_frame__control s
    have hr := setup_done_of_control _ _ hc h
    have hcap := capabilities_of_control _ _ hc
    split_ifs
    · have := process_response__settled (read_frame_ s).2.1 t
        { (read_frame_ s).2.2 with last_response_time_ := now }
        ⟨hr.1, hr.2.1, hr.2.2.1, hr.2.2.2⟩
      exact ⟨this.1, this.2.trans hcap⟩
    · exact ⟨⟨hr.1, hr.2.1, fun e => State.noConfusion e, fun e => State.noConfusion e⟩, hcap⟩
    · exact ⟨hr, hcap⟩
  · dsimp only
    split_ifs with h1 h2 <;> first
      | exact ⟨h, rfl⟩
      | exact absurd h.2.1 h2
      | exact ⟨⟨h.1, h.2.1, fun e => State.noConfusion e, fun e => State.noConfusion e⟩, rfl⟩

theorem step_settled (s : WaterFurnace) (e : Event) (h : setup_done s) :
    setup_done (step s e) ∧ capabilities (step s e) = capabilities s := by
  cases e with
  | tick now t => exact loop_settled now t s h
  | poll t =>
    unfold step update
    split_ifs
    · exact poll_next_group__settled t _ ⟨h.1, h.2.1, h.2.2.1, h.2.2.2⟩
    · exact ⟨h, rfl⟩
  | write addr value => exact ⟨h, rfl⟩
  | listen addr => exact ⟨h, rfl⟩
  | rx bytes => exact ⟨h, rfl⟩

/-- Once setup is over, no sequence of events changes what setup established. -/
theorem run_settled (events : List Event) (s : WaterFurnace) (h : setup_done s) :
    setup_done (run s events) ∧ capabilities (run s events) = capabilities s := by
  induction events generalizing s with
  | nil => exact ⟨h, rfl⟩
  | cons e rest ih =>
    have h1 := step_settled s e h
    have h2 := ih (step s e) h1.1
    exact ⟨h2.1, h2.2.trans h1.2⟩

/-! ## What holds in every hub reached from the initial one -/

theorem process_transition__progress (t : Nat) (s : WaterFurnace) :
    setup_progress s (process_transition_ t s) := by
  unfold process_transition_
  dsimp only
  split_ifs
  · exact Or.inl ⟨rfl, rfl⟩
  · exact Or.inr (finish_detection__done s)
  · unfold poll_next_group_
    dsimp only
    split
    · exact Or.inl ⟨rfl, rfl⟩
    · unfold send_frame_
      dsimp only
      split_ifs <;> exact Or.inl ⟨rfl, rfl⟩
  · exact Or.inl ⟨rfl, rfl⟩
  · exact Or.inl ⟨rfl, rfl⟩

theorem setup_progress_of_control (a b c : WaterFurnace) (h : control_part a = control_part b)
    (hp : setup_progress a c) : setup_progress b c := by
  have h2 : a.poll_groups_ = b.poll_groups_ := congrArg (fun x => x.poll_groups_) h
  have h3 : a.iz2_zone_count_ = b.iz2_zone_count_ := congrArg (fun x => x.iz2_zone_count_) h
  unfold setup_progress at hp ⊢
  rw [← h2, ← h3]
  exact hp

theorem process_response__progress (frame : List Nat) (t : Nat) (s : WaterFurnace) :
    setup_progress s (process_response_ frame t s) := by
  unfold process_response_
  dsimp only
  split_ifs
  · exact Or.inl ⟨rfl, rfl⟩
  · exact Or.inl ⟨rfl, rfl⟩
  · exact Or.inl ⟨rfl, rfl⟩
  · exact Or.inl ⟨rfl, rfl⟩
  · refine setup_progress_of_control _ _ _ ?_ (process_transition__progress t _)
    rw [process_write_single__control, process_read_values__control]
  · exact setup_progress_of_control _ _ _ (process_write_single__control frame s)
      (process_transition__progress t _)

theorem loop_progress (now t : Nat) (s : WaterFurnace) : setup_progress s (loop now t s) := by
  unfold loop
  split
  · unfold read_system_id_ send_frame_
    dsimp only
    split_ifs <;> exact Or.inl ⟨rfl, rfl⟩
  · unfold detect_components_ send_frame_
    dsimp only
    split_ifs <;> exact Or.inl ⟨rfl, rfl⟩
  · unfold process_pending_writes_ send_frame_
    dsimp only
    split_ifs <;> exact Or.inl ⟨rfl, rfl⟩
  · dsimp only
    have hc := read_frame__control s
    split_ifs
    · exact setup_progress_of_control
        { (read_frame_ s).2.2 with last_response_time_ := now } s _ hc
        (process_response__progress _ t _)
    · exact setup_progress_of_control (read_frame_ s).2.2 s _ hc (Or.inl ⟨rfl, rfl⟩)
    · exact setup_progress_of_control (read_frame_ s).2.2 s _ hc (Or.inl ⟨rfl, rfl⟩)
  · dsimp only
    split_ifs <;> exact Or.inl ⟨rfl, rfl⟩

theorem step_progress (s : WaterFurnace) (e : Event) : setup_progress s (step s e) := by
  cases e with
  | tick now t => exact loop_progress now t s
  | poll t =>
    unfold step update poll_next_group_
    split_ifs
    · dsimp only
      split
      · exact Or.inl ⟨rfl, rfl⟩
      · unfold send_frame_
        dsimp only
        split_ifs <;> exact Or.inl ⟨rfl, rfl⟩
    · exact Or.inl ⟨rfl, rfl⟩
  | write addr value => exact Or.inl ⟨rfl, rfl⟩
  | listen addr => exact Or.inl ⟨rfl, rfl⟩
  | rx bytes => exact Or.inl ⟨rfl, rfl⟩

theorem step_setup_inv (s : WaterFurnace) (e : Event) (h : setup_inv s) :
    setup_inv (step s e) := by
  rcases step_progress s e with ⟨hg, hz⟩ | hdone
  · refine ⟨fun h0 => ?_, fun h1 => ?_⟩
    · rw [hz]
      exact h.1 (hg ▸ h0)
    · exact (step_settled s e (h.2 (hg ▸ h1))).1
  · exact ⟨fun h0 => absurd h0 hdone.1, fun _ => hdone⟩

theorem run_setup_inv (events : List Event) (s : WaterFurnace) (h : setup_inv s) :
    setup_inv (run s events) := by
  induction events generalizing s with
  | nil => exact h
  | cons e rest ih => exact ih (step s e) (step_setup_inv s e h)

theorem initial_setup_inv : setup_inv {} :=
  ⟨fun _ => rfl, fun h => absurd rfl h⟩

/-! ## IZ2 zone count -/

/-- The zone count the detection branch leaves, read off the cache it runs
on. -/
theorem finish_detection__zone_count (s : WaterFurnace) :
    (finish_detection_ s).iz2_zone_count_ =
      if (check_component s.registers_ REG_IZ2_STATUS
          && decide (get_version s.registers_ REG_IZ2_VERSION ≥ 200)) = true then
        match s.registers_ REG_IZ2_ZONE_COUNT with
        | none => s.iz2_zone_count_
        | some v => if v > 0 ∧ v ≤ 6 then v else s.iz2_zone_count_
      else s.iz2_zone_count_ := by
  unfold finish_detection_ build_poll_groups_
  dsimp only
  split_ifs with h1
  · cases s.registers_ REG_IZ2_ZONE_COUNT with
    | none => rfl
    | some v =>
      dsimp only
      split_ifs <;> rfl
  · rfl

theorem push_if_eq_append (c : Prop) [Decidable c] (groups : List PollGroup) (g : PollGroup) :
    (if c then groups ++ [g] else groups) = groups ++ (if c then [g] else []) := by
  split_ifs
  · rfl
  · exact (List.append_nil _).symm

theorem build_poll_groups__eq (s : WaterFurnace) (hzone : s.iz2_zone_count_ < 256) :
    (build_poll_groups_ s).poll_groups_ = expected_poll_groups s := by
  have hiz2 : get_iz2_ranges s.iz2_zone_count_
      = if s.iz2_zone_count_ > 0 then
          [(31007, 3 * s.iz2_zone_count_), (31200, 3 * s.iz2_zone_count_)]
        else [] := by
    unfold get_iz2_ranges
    rw [Nat.mod_eq_of_lt (by omega), Nat.mul_comm]
    rfl
  have h1 : (s.awl_thermostat_ && !s.has_iz2_) = true
      ↔ s.awl_thermostat_ = true ∧ s.has_iz2_ = false := by
    cases s.awl_thermostat_ <;> cases s.has_iz2_ <;> simp
  have h6 : (s.awl_iz2_ && decide (s.iz2_zone_count_ > 0)) = true
      ↔ s.awl_iz2_ = true ∧ s.iz2_zone_count_ > 0 := by
    cases s.awl_iz2_ <;> simp
  unfold build_poll_groups_ expected_poll_groups
  dsimp only
  rw [push_if_eq_append, push_if_eq_append, push_if_eq_append, push_if_eq_append,
    push_if_eq_append, hiz2]
  simp only [h1, h6, List.nil_append]
  by_cases hz : s.awl_iz2_ = true ∧ s.iz2_zone_count_ > 0
  · rw [if_pos hz, if_pos hz, if_pos hz.2]
    rfl
  · rw [if_neg hz, if_neg hz]
    rfl

theorem finish_detection__no_iz2_group (s : WaterFurnace)
    (hawl : (finish_detection_ s).awl_iz2_ = true)
    (hz : (finish_detection_ s).iz2_zone_count_ = 0) :
    (finish_detection_ s).poll_groups_
      = [{ ranges := get_thermostat_ranges }]
        ++ (if (finish_detection_ s).has_axb_ = true then
              [{ ranges := get_axb_ranges }] else [])
        ++ (if (finish_detection_ s).has_energy_monitoring_ = true then
              [{ ranges := get_power_ranges }] else [])
        ++ (if (finish_detection_ s).has_vs_drive_ = true then
              [{ ranges := get_vs_drive_ranges }] else []) := by
  have hhas : (finish_detection_ s).has_iz2_ = true := by
    have hf := finish_detection__flags s
    rw [hf.2.2.2.2.2.2.1] at hawl
    rw [hf.2.2.2.1]
    cases hc : check_component s.registers_ REG_IZ2_STATUS
    · rw [hc] at hawl
      exact absurd hawl Bool.false_ne_true
    · rfl
  obtain ⟨hub, hhub⟩ : ∃ hub, finish_detection_ s
      = { build_poll_groups_ hub with setup_phase_ := 0, state_ := State.IDLE } := by
    unfold finish_detection_
    exact ⟨_, rfl⟩
  rw [hhub] at hawl hz hhas ⊢
  have hz2 : hub.iz2_zone_count_ = 0 := hz
  have hhas2 : hub.has_iz2_ = true := hhas
  show (build_poll_groups_ hub).poll_groups_ = _
  rw [build_poll_groups__eq hub (by omega)]
  unfold expected_poll_groups
  rw [if_neg (show ¬ (hub.awl_thermostat_ = true ∧ hub.has_iz2_ = false) by
      rw [hhas2]; exact fun h => Bool.noConfusion h.2),
    if_neg (show ¬ (hub.awl_iz2_ = true ∧ hub.iz2_zone_count_ > 0) by omega)]
  rw [List.append_nil, List.append_nil]
  rfl

/-- C14, refuted as stated: from the initial hub through the identity read to
the detection response of a device with an AWL-generation IZ2 (status 1,
version 2.0), a zone-count register of 0 leaves the zone count 0, not 1, and a
zone-count register of 7 leaves it 0, not 6; in both cases the zone count is
outside 1..6. -/
theorem C14_zone_count_not_clamped :
    (read_frame_ (detection_pending (iz2_fixture 0))).1 = true
    ∧ (loop 30 30 (detection_pending (iz2_fixture 0))).awl_iz2_ = true
    ∧ get_register 483 (loop 30 30 (detection_pending (iz2_fixture 0))) = some 0
    ∧ (loop 30 30 (detection_pending (iz2_fixture 0))).iz2_zone_count_ = 0
    ∧ (read_frame_ (detection_pending (iz2_fixture 7))).1 = true
    ∧ (loop 30 30 (detection_pending (iz2_fixture 7))).awl_iz2_ = true
    ∧ get_register 483 (loop 30 30 (detection_pending (iz2_fixture 7))) = some 7
    ∧ (loop 30 30 (detection_pending (iz2_fixture 7))).iz2_zone_count_ = 0
    ∧ ¬ (1 ≤ (loop 30 30 (detection_pending (iz2_fixture 7))).iz2_zone_count_
        ∧ (loop 30 30 (detection_pending (iz2_fixture 7))).iz2_zone_count_ ≤ 6) := by
  refine ⟨?_, ?_, ?_, ?_, ?_, ?_, ?_, ?_, ?_⟩ <;> decide!

/-- C14, amended: when the detection response is processed with an
AWL-generation IZ2 present, a cached zone-count register (483) in 1..6 becomes
the zone count; when the register is 0, above 6 or not cached, the zone count
is left as it was. In every hub reached from the initial one it was 0, so the
zone count then lies in 0..6, and it is 0 when the register is 0 or above 6.
A zone count of 0 adds no IZ2 poll group: the poll-group list is then the
thermostat group followed by the AXB, power and drive groups that are
present, and nothing else. -/
theorem C14_zone_count_kept_in_range_else_unchanged (now t : Nat) (s : WaterFurnace)
    (hstate : s.state_ = State.WAITING_RESPONSE) (hread : (read_frame_ s).1 = true)
    (hne : is_error_response ((read_frame_ s).2.1.getD 1 0) = false)
    (hdet : ¬ (s.poll_groups_ = [] ∧ s.model_number_ = []))
    (hphase : s.setup_phase_ ≠ 0)
    (hawl : (loop now t s).awl_iz2_ = true) :
    (∀ v, get_register 483 (loop now t s) = some v → 1 ≤ v → v ≤ 6 →
        (loop now t s).iz2_zone_count_ = v)
    ∧ (∀ v, get_register 483 (loop now t s) = some v → v = 0 ∨ 6 < v →
        (loop now t s).iz2_zone_count_ = s.iz2_zone_count_)
    ∧ (get_register 483 (loop now t s) = none →
        (loop now t s).iz2_zone_count_ = s.iz2_zone_count_)
    ∧ (∀ events, s = run {} events →
        s.iz2_zone_count_ = 0 ∧ (loop now t s).iz2_zone_count_ ≤ 6)
    ∧ ((loop now t s).iz2_zone_count_ = 0 →
        (loop now t s).poll_groups_
          = [{ ranges := get_thermostat_ranges }]
            ++ (if (loop now t s).has_axb_ = true then
                  [{ ranges := get_axb_ranges }] else [])
            ++ (if (loop now t s).has_energy_monitoring_ = true then
                  [{ ranges := get_power_ranges }] else [])
            ++ (if (loop now t s).has_vs_drive_ = true then
                  [{ ranges := get_vs_drive_ranges }] else [])) := by
  obtain ⟨s2, hloop, hctl, _⟩ := loop_valid_response now t s hstate hread hne
  have hz : s2.iz2_zone_count_ = s.iz2_zone_count_ :=
    congrArg (fun x => x.iz2_zone_count_) hctl
  have hfin := finish_detection__zone_count s2
  have hregs := (finish_detection__flags s2).1
  rw [hloop, process_transition__detection t s2 s hctl hstate hdet hphase] at hawl ⊢
  have hgroups := finish_detection__no_iz2_group s2 hawl
  rw [(finish_detection__flags s2).2.2.2.2.2.2.1] at hawl
  rw [if_pos hawl, hz] at hfin
  unfold get_register
  rw [hregs]
  refine ⟨fun v hv h1 h6 => ?_, fun v hv h0 => ?_, fun hnone => ?_, fun events hev => ?_,
    hgroups⟩
  · rw [hfin]
    simp only [REG_IZ2_ZONE_COUNT, hv]
    rw [if_pos ⟨h1, h6⟩]
  · rw [hfin]
    simp only [REG_IZ2_ZONE_COUNT, hv]
    rw [if_neg (by omega)]
  · rw [hfin]
    simp only [REG_IZ2_ZONE_COUNT, hnone]
  · have hinv : setup_inv s := hev ▸ run_setup_inv events {} initial_setup_inv
    have h0 : s.iz2_zone_count_ = 0 := by
      by_cases hg : s.poll_groups_ = []
      · exact hinv.1 hg
      · exact absurd (hinv.2 hg).2.1 hphase
    refine ⟨h0, ?_⟩
    rw [hfin, h0]
    split
    · exact Nat.zero_le 6
    · split_ifs with h
      · exact h.2
      · exact Nat.zero_le 6

/-- C14 (amended) at the hub, reached from the initial one, that holds the
detection response of a device whose zone-count register is 7: the zone count
stays 0 and the poll groups are the thermostat and drive groups, with no IZ2
group. -/
theorem C14_zone_count_kept_in_range_else_unchanged_witness :
    ((detection_pending (iz2_fixture 7)).state_ = State.WAITING_RESPONSE
      ∧ (read_frame_ (detection_pending (iz2_fixture 7))).1 = true
      ∧ (detection_pending (iz2_fixture 7)).setup_phase_ ≠ 0
      ∧ (loop 30 30 (detection_pending (iz2_fixture 7))).awl_iz2_ = true
      ∧ get_register 483 (loop 30 30 (detection_pending (iz2_fixture 7))) = some 7
      ∧ (loop 30 30 (detection_pending (iz2_fixture 4))).iz2_zone_count_ = 4)
    ∧ (loop 30 30 (detection_pending (iz2_fixture 7))).iz2_zone_count_
        = (detection_pending (iz2_fixture 7)).iz2_zone_count_
    ∧ (detection_pending (iz2_fixture 7)).iz2_zone_count_ = 0
    ∧ (loop 30 30 (detection_pending (iz2_fixture 7))).poll_groups_
        = [{ ranges := get_thermostat_ranges }, { ranges := get_vs_drive_ranges }] :=
  ⟨⟨by decide!, by decide!, by decide!, by decide!, by decide!, by decide!⟩,
    (C14_zone_count_kept_in_range_else_unchanged 30 30 (detection_pending (iz2_fixture 7))
      (by decide!) (by decide!) (by decide!) (by decide!) (by decide!) (by decide!)).2.1 7
      (by decide!) (Or.inr (by decide)),
    ((C14_zone_count_kept_in_range_else_unchanged 30 30 (detection_pending (iz2_fixture 7))
      (by decide!) (by decide!) (by decide!) (by decide!) (by decide!) (by decide!)).2.2.2.1
      (setup_events (iz2_fixture 7)) rfl).1,
    ((C14_zone_count_kept_in_range_else_unchanged 30 30 (detection_pending (iz2_fixture 7))
      (by decide!) (by decide!) (by decide!) (by decide!) (by decide!) (by decide!)).2.2.2.2
      (by decide!)).trans (by decide!)⟩

/-! ## Capabilities are fixed once detection is over -/

/-- C15: once the detection response has been processed the machine is Idle,
and from then on no sequence of events (ticks at any clock readings, so
timeouts and backoffs included, poll triggers, queued writes, listener
registrations, received bytes of any kind, so valid, error and corrupt
responses included) changes a capability flag (thermostat, AXB, IZ2,
variable-speed drive, energy monitoring, AOC, MOC, the three AWL flags), the
zone count, an identity string or the poll-group list. -/
theorem C15_capabilities_fixed_after_detection (now t : Nat) (s : WaterFurnace)
    (hstate : s.state_ = State.WAITING_RESPONSE) (hread : (read_frame_ s).1 = true)
    (hne : is_error_response ((read_frame_ s).2.1.getD 1 0) = false)
    (hdet : ¬ (s.poll_groups_ = [] ∧ s.model_number_ = []))
    (hphase : s.setup_phase_ ≠ 0) :
    (loop now t s).state_ = State.IDLE
    ∧ ∀ events : List Event,
        capabilities (run (loop now t s) events) = capabilities (loop now t s) := by
  obtain ⟨s2, hloop, hctl, _⟩ := loop_valid_response now t s hstate hread hne
  rw [hloop, process_transition__detection t s2 s hctl hstate hdet hphase]
  exact ⟨rfl, fun events => (run_settled events _ (finish_detection__done s2)).2⟩

/-- C15 at the hub that holds the detection response of a device with
thermostat and AXB, followed by a queued write, its transmission, a corrupt
echo, a timeout, the backoff, a poll trigger and a corrupt error response. -/
theorem C15_capabilities_fixed_after_detection_witness :
    ((detection_pending (detection_fixture 300 200)).state_ = State.WAITING_RESPONSE
      ∧ (read_frame_ (detection_pending (detection_fixture 300 200))).1 = true
      ∧ (detection_pending (detection_fixture 300 200)).setup_phase_ ≠ 0)
    ∧ (loop 30 30 (detection_pending (detection_fixture 300 200))).state_ = State.IDLE
    ∧ capabilities (run (loop 30 30 (detection_pending (detection_fixture 300 200)))
        [Event.write 12619 700, Event.tick 40 40, Event.rx [1, 67, 0, 0], Event.tick 50 50,
          Event.tick 3000 3000, Event.tick 9000 9000, Event.poll 9100,
          Event.rx [1, 193, 2, 0, 0], Event.tick 9200 9200])
      = capabilities (loop 30 30 (detection_pending (detection_fixture 300 200))) :=
  ⟨⟨by decide!, by decide!, by decide!⟩,
    (C15_capabilities_fixed_after_detection 30 30 (detection_pending (detection_fixture 300 200))
      (by decide!) (by decide!) (by decide!) (by decide!) (by decide!)).1,
    (C15_capabilities_fixed_after_detection 30 30 (detection_pending (detection_fixture 300 200))
      (by decide!) (by decide!) (by decide!) (by decide!) (by decide!)).2 _⟩

/-! ## The size of write requests -/

theorem run_append (s : WaterFurnace) (xs ys : List Event) :
    run s (xs ++ ys) = run (run s xs) ys := by
  unfold run
  rw [List.foldl_append]

theorem run_many_writes (n : Nat) (s : WaterFurnace) :
    run s (many_writes n)
      = { s with pending_writes_ := s.pending_writes_ ++ (List.range n).map (fun i => (i, 0)) } := by
  induction n with
  | zero => simp [run, many_writes]
  | succ n ih =>
    have e : many_writes (n + 1) = many_writes n ++ [Event.write n 0] := by
      simp [many_writes, List.range_succ]
    rw [e, run_append, ih]
    simp [run, step, write_register, List.range_succ]

theorem length_build_write_registers_request (writes : List (Nat × Nat)) :
    (build_write_registers_request writes).length = 4 * writes.length + 4 := by
  rw [build_write_registers_request_eq, append_crc_eq]
  simp only [List.length_append, length_flatMap_pair_bytes, List.length_cons, List.length_nil]
  omega

/-- C16, what the code does instead: in an Idle hub with an empty queue, after
`n` calls of `write_register` the next tick sends all `n` queued
(address, value) pairs in one function 67 frame of `4 n + 4` bytes; for
`n > 100` the frame carries more than `MAX_REGISTERS_PER_REQUEST` pairs and is
longer than `MAX_FRAME_SIZE` bytes. -/
theorem C16_write_request_exceeds_limits (s : WaterFurnace) (now t n : Nat)
    (hidle : s.state_ = State.IDLE) (hempty : s.pending_writes_ = []) (hn : 100 < n) :
    (loop now t (run s (many_writes n))).effects
        = s.effects
          ++ [Effect.tx (build_write_registers_request ((List.range n).map (fun i => (i, 0))))]
    ∧ ((List.range n).map (fun i => (i, 0))).length = n
    ∧ (build_write_registers_request ((List.range n).map (fun i => (i, 0)))).length = 4 * n + 4
    ∧ MAX_REGISTERS_PER_REQUEST < ((List.range n).map (fun i => (i, 0))).length
    ∧ MAX_FRAME_SIZE
        < (build_write_registers_request ((List.range n).map (fun i => (i, 0)))).length := by
  have hlen : ((List.range n).map (fun i => ((i, 0) : Nat × Nat))).length = n := by simp
  have hne : (run s (many_writes n)).pending_writes_ ≠ [] := by
    rw [run_many_writes, hempty]
    intro h
    have := congrArg List.length h
    simp at this
    omega
  have hst : (run s (many_writes n)).state_ = State.IDLE := by
    rw [run_many_writes]
    exact hidle
  refine ⟨?_, hlen, ?_, ?_, ?_⟩
  · rw [loop_idle_eq now t _ hst hne, (process_pending_writes__spec t _ hne).1, run_many_writes,
      hempty]
    rfl
  · rw [length_build_write_registers_request, hlen]
  · rw [hlen]
    exact hn
  · rw [length_build_write_registers_request, hlen]
    unfold MAX_FRAME_SIZE
    omega

/-- C16 (the divergence) at the Idle hub reached from the initial one through
identity read and detection, with 101 queued writes: one frame of 408
bytes. -/
theorem C16_write_request_exceeds_limits_witness :
    ((loop 30 30 (detection_pending (detection_fixture 300 200))).state_ = State.IDLE
      ∧ (loop 30 30 (detection_pending (detection_fixture 300 200))).pending_writes_ = [])
    ∧ (build_write_registers_request ((List.range 101).map (fun i => (i, 0)))).length = 408
    ∧ MAX_FRAME_SIZE
        < (build_write_registers_request ((List.range 101).map (fun i => (i, 0)))).length :=
  ⟨⟨by decide!, by decide!⟩,
    (C16_write_request_exceeds_limits (loop 30 30 (detection_pending (detection_fixture 300 200)))
      40 40 101 (by decide!) (by decide!) (by decide)).2.2.1,
    (C16_write_request_exceeds_limits (loop 30 30 (detection_pending (detection_fixture 300 200)))
      40 40 101 (by decide!) (by decide!) (by decide)).2.2.2.2⟩

/-! ## One request at a time -/

theorem loop_waiting_no_frame (now t : Nat) (s : WaterFurnace)
    (hstate : s.state_ = State.WAITING_RESPONSE) (hread : (read_frame_ s).1 = false) :
    loop now t s =
      if (now + 4294967296 - s.last_request_time_) % 4294967296 > RESPONSE_TIMEOUT then
        { (read_frame_ s).2.2 with
          rx_buffer_ := []
          error_backoff_until_ := (now + ERROR_BACKOFF_TIME) % 4294967296
          state_ := State.ERROR_BACKOFF }
      else (read_frame_ s).2.2 := by
  have hreq : (read_frame_ s).2.2.last_request_time_ = s.last_request_time_ :=
    congrArg (fun x => x.last_request_time_) (read_frame__control s)
  unfold loop
  rw [hstate]
  dsimp only
  rw [hread, hreq]
  rfl

theorem loop_waiting_no_frame_effects (now t : Nat) (s : WaterFurnace)
    (hstate : s.state_ = State.WAITING_RESPONSE) (hread : (read_frame_ s).1 = false) :
    (loop now t s).effects = s.effects := by
  rw [loop_waiting_no_frame now t s hstate hread]
  split_ifs
  · exact (read_frame__keeps s).2.2.2.2.1
  · exact (read_frame__keeps s).2.2.2.2.1

theorem loop_backoff_effects (now t : Nat) (s : WaterFurnace)
    (hstate : s.state_ = State.ERROR_BACKOFF) : (loop now t s).effects = s.effects := by
  unfold loop
  rw [hstate]
  dsimp only
  split_ifs <;> rfl

/-- C17: whatever the hub and the event, if the event makes the hub send a
frame then the hub was in `SETUP_READ_ID`, `SETUP_DETECT_COMPONENTS` or `IDLE`,
or it was in `WAITING_RESPONSE` and the event is a tick on which `read_frame_`
returns a complete CRC-valid frame; a tick that finds the hub in
`WAITING_RESPONSE` without such a frame sends nothing (and calls no listener);
a poll trigger in a state other than `IDLE` changes nothing at all. -/
theorem C17_requests_only_when_none_outstanding (s : WaterFurnace) (e : Event) (now t : Nat) :
    (sent_frames (step s e).effects ≠ sent_frames s.effects →
        s.state_ = State.SETUP_READ_ID ∨ s.state_ = State.SETUP_DETECT_COMPONENTS
        ∨ s.state_ = State.IDLE
        ∨ (s.state_ = State.WAITING_RESPONSE ∧ (read_frame_ s).1 = true
            ∧ ∃ now' t', e = Event.tick now' t'))
    ∧ (s.state_ = State.WAITING_RESPONSE → (read_frame_ s).1 = false →
        (loop now t s).effects = s.effects)
    ∧ (s.state_ ≠ State.IDLE → update t s = s) := by
  refine ⟨fun hsent => ?_, fun hstate hread => loop_waiting_no_frame_effects now t s hstate hread,
    fun hidle => ?_⟩
  · cases e with
    | tick now' t' =>
      cases hst : s.state_ with
      | SETUP_READ_ID => exact Or.inl rfl
      | SETUP_DETECT_COMPONENTS => exact Or.inr (Or.inl rfl)
      | IDLE => exact Or.inr (Or.inr (Or.inl rfl))
      | WAITING_RESPONSE =>
        cases hread : (read_frame_ s).1 with
        | true => exact Or.inr (Or.inr (Or.inr ⟨rfl, rfl, now', t', rfl⟩))
        | false =>
          exact absurd (congrArg sent_frames
            (loop_waiting_no_frame_effects now' t' s hst hread)) hsent
      | ERROR_BACKOFF =>
        exact absurd (congrArg sent_frames (loop_backoff_effects now' t' s hst)) hsent
    | poll t' =>
      by_cases hidle : s.state_ = State.IDLE
      · exact Or.inr (Or.inr (Or.inl hidle))
      · have hsame : step s (Event.poll t') = s := by
          show update t' s = s
          unfold update
          rw [if_neg hidle]
        rw [hsame] at hsent
        exact absurd rfl hsent
    | write addr value => exact absurd rfl hsent
    | listen addr => exact absurd rfl hsent
    | rx bytes => exact absurd rfl hsent
  · unfold update
    rw [if_neg hidle]

/-- C17 at the hub that waits for registers 745 and 746 with only the first
four bytes of the response received. -/
theorem C17_requests_only_when_none_outstanding_witness :
    ((waiting_hub [1, 66, 4, 2]).state_ = State.WAITING_RESPONSE
      ∧ (read_frame_ (waiting_hub [1, 66, 4, 2])).1 = false)
    ∧ (loop 100 100 (waiting_hub [1, 66, 4, 2])).effects = (waiting_hub [1, 66, 4, 2]).effects
    ∧ update 100 (waiting_hub [1, 66, 4, 2]) = waiting_hub [1, 66, 4, 2] :=
  ⟨⟨by decide, by decide⟩,
    (C17_requests_only_when_none_outstanding (waiting_hub [1, 66, 4, 2]) (Event.poll 100)
      100 100).2.1 (by decide) (by decide),
    (C17_requests_only_when_none_outstanding (waiting_hub [1, 66, 4, 2]) (Event.poll 100)
      100 100).2.2 (by decide)⟩

/-! ## A tick in `WAITING_RESPONSE` without a valid frame -/

/-- The method `read_frame_` in terms of the framing rule: with fewer than
three bytes at hand, or fewer than the framing rule asks for, nothing is
assigned; otherwise the frame is the first bytes at hand, as many as the
framing rule says, the flag is the verdict of `validate_frame_crc` on it, and
these bytes leave the accumulator. -/
theorem read_frame__eq (s : WaterFurnace) :
    read_frame_ s =
      if (s.rx_buffer_ ++ s.uart_rx).length < 3
          ∨ (s.rx_buffer_ ++ s.uart_rx).length
              < framing_rule_length (s.rx_buffer_ ++ s.uart_rx) then
        (false, [], { s with rx_buffer_ := s.rx_buffer_ ++ s.uart_rx, uart_rx := [] })
      else
        (validate_frame_crc
            ((s.rx_buffer_ ++ s.uart_rx).take (framing_rule_length (s.rx_buffer_ ++ s.uart_rx))),
          (s.rx_buffer_ ++ s.uart_rx).take (framing_rule_length (s.rx_buffer_ ++ s.uart_rx)),
          { s with
            rx_buffer_ :=
              (s.rx_buffer_ ++ s.uart_rx).drop (framing_rule_length (s.rx_buffer_ ++ s.uart_rx))
            uart_rx := [] }) := by
  unfold read_frame_
  dsimp only
  generalize s.rx_buffer_ ++ s.uart_rx = rx
  by_cases h3 : rx.length < 3
  · rw [if_pos h3, if_pos (Or.inl h3)]
  rw [if_neg h3]
  by_cases he : is_error_response (rx.getD 1 0) = true
  · have hF : framing_rule_length rx = 5 := by
      unfold framing_rule_length
      rw [if_pos he]
    rw [if_pos he, hF]
    by_cases h5 : rx.length ≥ 5
    · rw [if_pos h5, if_neg (show ¬ (rx.length < 3 ∨ rx.length < 5) by omega)]
    · rw [if_neg h5, if_pos (show rx.length < 3 ∨ rx.length < 5 by omega)]
  · have hF :
        (if rx.getD 1 0 = FUNC_READ_RANGES ∨ rx.getD 1 0 = FUNC_READ_REGISTERS then
            3 + rx.getD 2 0 + 2
          else if rx.getD 1 0 = FUNC_WRITE_REGISTERS then 4
          else if rx.getD 1 0 = FUNC_WRITE_SINGLE then 8
          else 3 + rx.getD 2 0 + 2) = framing_rule_length rx := by
      unfold framing_rule_length
      rw [if_neg he]
      simp only [FUNC_READ_RANGES, FUNC_READ_REGISTERS, FUNC_WRITE_REGISTERS, FUNC_WRITE_SINGLE]
      split_ifs <;> first | rfl | omega
    rw [if_neg he, hF]
    by_cases hlt : rx.length < framing_rule_length rx
    · rw [if_pos hlt, if_pos (Or.inr hlt)]
    · rw [if_neg hlt,
        if_neg (show ¬ (rx.length < 3 ∨ rx.length < framing_rule_length rx) by omega)]
      cases validate_frame_crc (List.take (framing_rule_length rx) rx) <;> rfl

theorem framing_rule_length_ge (f : List Nat) : 4 ≤ framing_rule_length f := by
  unfold framing_rule_length
  split_ifs <;> omega

/-- The bytes `read_frame_` had at hand are the frame it assigned followed by
what it leaves in the accumulator; the UART queue is left empty and nothing
else changes. -/
theorem read_frame__split (s : WaterFurnace) :
    s.rx_buffer_ ++ s.uart_rx = (read_frame_ s).2.1 ++ (read_frame_ s).2.2.rx_buffer_
    ∧ (read_frame_ s).2.2.rx_buffer_
        = (s.rx_buffer_ ++ s.uart_rx).drop (read_frame_ s).2.1.length
    ∧ (read_frame_ s).2.2
        = { s with rx_buffer_ := (read_frame_ s).2.2.rx_buffer_, uart_rx := [] } := by
  rw [read_frame__eq]
  generalize s.rx_buffer_ ++ s.uart_rx = rx
  split_ifs with h
  · exact ⟨rfl, rfl, rfl⟩
  · refine ⟨(List.take_append_drop _ rx).symm, ?_, rfl⟩
    dsimp only
    rw [List.length_take, Nat.min_eq_left (by omega)]

/-- When `read_frame_` assigns a frame, the flag it returns is the verdict of
`validate_frame_crc` on that frame. -/
theorem read_frame__flag (s : WaterFurnace) (h : (read_frame_ s).2.1 ≠ []) :
    (read_frame_ s).1 = validate_frame_crc (read_frame_ s).2.1 := by
  rw [read_frame__eq] at h ⊢
  split_ifs at h ⊢ with h1
  · exact absurd rfl h
  · rfl

set_option maxRecDepth 100000 in
/-- C19, refuted as stated: the hub waits for registers 745 and 746 and the
UART delivers the nine bytes of the response with the byte-count field
damaged (0 instead of 4). `read_frame_` assembles the five-byte frame
01 42 00 02 BC, its CRC check fails, and the four bytes that followed stay in
the accumulator: it is not empty afterwards. The same when a damaged response
of the right length is followed by one more byte. -/
theorem C19_accumulator_keeps_bytes_after_bad_frame :
    (waiting_hub [1, 66, 0, 2, 0xBC, 2, 0xDA, 0xB5, 0x85]).state_ = State.WAITING_RESPONSE
    ∧ (read_frame_ (waiting_hub [1, 66, 0, 2, 0xBC, 2, 0xDA, 0xB5, 0x85])).1 = false
    ∧ (read_frame_ (waiting_hub [1, 66, 0, 2, 0xBC, 2, 0xDA, 0xB5, 0x85])).2.1
        = [1, 66, 0, 2, 0xBC]
    ∧ validate_frame_crc [1, 66, 0, 2, 0xBC] = false
    ∧ (loop 100 100 (waiting_hub [1, 66, 0, 2, 0xBC, 2, 0xDA, 0xB5, 0x85])).state_
        = State.WAITING_RESPONSE
    ∧ (loop 100 100 (waiting_hub [1, 66, 0, 2, 0xBC, 2, 0xDA, 0xB5, 0x85])).rx_buffer_
        = [2, 0xDA, 0xB5, 0x85]
    ∧ (loop 100 100 (waiting_hub [1, 66, 0, 2, 0xBC, 2, 0xDA, 0xB5, 0x85])).rx_buffer_ ≠ []
    ∧ (read_frame_ (waiting_hub [1, 66, 4, 2, 0xBC, 2, 0xDA, 0xB5, 0x84, 1])).2.1
        = [1, 66, 4, 2, 0xBC, 2, 0xDA, 0xB5, 0x84]
    ∧ (read_frame_ (waiting_hub [1, 66, 4, 2, 0xBC, 2, 0xDA, 0xB5, 0x84, 1])).1 = false
    ∧ (loop 100 100 (waiting_hub [1, 66, 4, 2, 0xBC, 2, 0xDA, 0xB5, 0x84, 1])).rx_buffer_
        = [1] := by
  refine ⟨?_, ?_, ?_, ?_, ?_, ?_, ?_, ?_, ?_, ?_⟩ <;> decide!

/-- C19, amended: when a complete frame is assembled in `WAITING_RESPONSE` but
fails CRC validation, and the response timeout has not elapsed, the state stays
`WAITING_RESPONSE`, the register cache and the expected-address list are
unchanged, no listener is invoked and nothing is sent, and the bytes of that
frame, and only those, are removed from the receive accumulator: the bytes
received after them stay, so the accumulator is empty afterwards exactly when
the bytes at hand were those of the frame and no more. -/
theorem C19_crc_failure_drops_only_the_frame (now t : Nat) (s : WaterFurnace)
    (hstate : s.state_ = State.WAITING_RESPONSE)
    (hfail : (read_frame_ s).1 = false) (hframe : (read_frame_ s).2.1 ≠ [])
    (htime : (now + 4294967296 - s.last_request_time_) % 4294967296 ≤ RESPONSE_TIMEOUT) :
    validate_frame_crc (read_frame_ s).2.1 = false
    ∧ (loop now t s).state_ = State.WAITING_RESPONSE
    ∧ (loop now t s).registers_ = s.registers_
    ∧ (loop now t s).expected_addresses_ = s.expected_addresses_
    ∧ (loop now t s).effects = s.effects
    ∧ s.rx_buffer_ ++ s.uart_rx = (read_frame_ s).2.1 ++ (loop now t s).rx_buffer_
    ∧ (loop now t s).rx_buffer_
        = (s.rx_buffer_ ++ s.uart_rx).drop (read_frame_ s).2.1.length
    ∧ ((loop now t s).rx_buffer_ = [] ↔ s.rx_buffer_ ++ s.uart_rx = (read_frame_ s).2.1) := by
  have hloop : loop now t s = (read_frame_ s).2.2 := by
    rw [loop_waiting_no_frame now t s hstate hfail, if_neg (by omega)]
  obtain ⟨hsplit, hdrop, _⟩ := read_frame__split s
  obtain ⟨hr, _, _, hx, he, hs⟩ := read_frame__keeps s
  rw [hloop]
  refine ⟨?_, hs.trans hstate, hr, hx, he, hsplit, hdrop, ?_⟩
  · rw [← read_frame__flag s hframe]
    exact hfail
  · constructor
    · intro h
      rw [hsplit, h, List.append_nil]
    · intro h
      have := congrArg List.length hsplit
      rw [h, List.length_append] at this
      exact List.length_eq_zero.mp (by omega)

set_option maxRecDepth 100000 in
/-- C19 (amended) at the hub that waits for registers 745 and 746 while the
UART holds the response with a damaged byte-count field. -/
theorem C19_crc_failure_drops_only_the_frame_witness :
    ((waiting_hub [1, 66, 0, 2, 0xBC, 2, 0xDA, 0xB5, 0x85]).state_ = State.WAITING_RESPONSE
      ∧ (read_frame_ (waiting_hub [1, 66, 0, 2, 0xBC, 2, 0xDA, 0xB5, 0x85])).1 = false
      ∧ (read_frame_ (waiting_hub [1, 66, 0, 2, 0xBC, 2, 0xDA, 0xB5, 0x85])).2.1 ≠ []
      ∧ (100 + 4294967296
            - (waiting_hub [1, 66, 0, 2, 0xBC, 2, 0xDA, 0xB5, 0x85]).last_request_time_)
          % 4294967296 ≤ RESPONSE_TIMEOUT)
    ∧ (loop 100 100 (waiting_hub [1, 66, 0, 2, 0xBC, 2, 0xDA, 0xB5, 0x85])).state_
        = State.WAITING_RESPONSE
    ∧ (loop 100 100 (waiting_hub [1, 66, 0, 2, 0xBC, 2, 0xDA, 0xB5, 0x85])).effects
        = (waiting_hub [1, 66, 0, 2, 0xBC, 2, 0xDA, 0xB5, 0x85]).effects :=
  ⟨⟨by decide!, by decide!, by decide!, by decide!⟩,
    (C19_crc_failure_drops_only_the_frame 100 100
      (waiting_hub [1, 66, 0, 2, 0xBC, 2, 0xDA, 0xB5, 0x85]) (by decide!) (by decide!)
      (by decide!) (by decide!)).2.1,
    (C19_crc_failure_drops_only_the_frame 100 100
      (waiting_hub [1, 66, 0, 2, 0xBC, 2, 0xDA, 0xB5, 0x85]) (by decide!) (by decide!)
      (by decide!) (by decide!)).2.2.2.2.1⟩

/-! ## Response timeout -/

theorem elapsed_eq_int (now last : Nat) (h1 : now < 4294967296) (h2 : last < 4294967296) :
    (((now + 4294967296 - last) % 4294967296 : Nat) : ℤ)
      = ((now : ℤ) - (last : ℤ)) % 4294967296 := by
  omega

/-- C20: in `WAITING_RESPONSE`, on a tick where `read_frame_` returns no
complete CRC-valid frame, with 32-bit clock readings: if the time since the
last send, now minus the send time modulo 2^32, exceeds 2000 ms, the
accumulator is cleared, the backoff deadline becomes now + 5000 ms on the
32-bit clock (so exactly now + 5000 when that fits in 32 bits) and the state
becomes `ERROR_BACKOFF`; otherwise the state stays `WAITING_RESPONSE`; in both
cases the register cache is unchanged, nothing is sent and no listener is
called. -/
theorem C20_response_timeout (now t : Nat) (s : WaterFurnace)
    (hstate : s.state_ = State.WAITING_RESPONSE) (hread : (read_frame_ s).1 = false)
    (hnow : now < 4294967296) (hlast : s.last_request_time_ < 4294967296) :
    (((now : ℤ) - (s.last_request_time_ : ℤ)) % 4294967296 > 2000 →
        (loop now t s).rx_buffer_ = []
        ∧ (loop now t s).error_backoff_until_ = (now + 5000) % 4294967296
        ∧ (now + 5000 < 4294967296 → (loop now t s).error_backoff_until_ = now + 5000)
        ∧ (loop now t s).state_ = State.ERROR_BACKOFF)
    ∧ (((now : ℤ) - (s.last_request_time_ : ℤ)) % 4294967296 ≤ 2000 →
        (loop now t s).state_ = State.WAITING_RESPONSE)
    ∧ (loop now t s).registers_ = s.registers_
    ∧ (loop now t s).effects = s.effects := by
  have hel := elapsed_eq_int now s.last_request_time_ hnow hlast
  have hloop := loop_waiting_no_frame now t s hstate hread
  obtain ⟨hr, _, _, _, he, hs⟩ := read_frame__keeps s
  refine ⟨fun hgt => ?_, fun hle => ?_, ?_, ?_⟩
  · rw [hloop, if_pos (by unfold RESPONSE_TIMEOUT; omega)]
    refine ⟨rfl, rfl, fun hfit => ?_, rfl⟩
    exact Nat.mod_eq_of_lt hfit
  · rw [hloop, if_neg (by unfold RESPONSE_TIMEOUT; omega)]
    exact hs.trans hstate
  · rw [hloop]
    split_ifs
    · exact hr
    · exact hr
  · rw [hloop]
    split_ifs
    · exact he
    · exact he

/-- C20 at the hub that waits for registers 745 and 746, request sent at
clock 0, with four bytes of the response received: at clock 2001 it backs off
until 7001, at clock 2000 it keeps waiting. -/
theorem C20_response_timeout_witness :
    ((waiting_hub [1, 66, 4, 2]).state_ = State.WAITING_RESPONSE
      ∧ (read_frame_ (waiting_hub [1, 66, 4, 2])).1 = false
      ∧ (waiting_hub [1, 66, 4, 2]).last_request_time_ < 4294967296
      ∧ (((2001 : Nat) : ℤ) - ((waiting_hub [1, 66, 4, 2]).last_request_time_ : ℤ))
          % 4294967296 > 2000
      ∧ (((2000 : Nat) : ℤ) - ((waiting_hub [1, 66, 4, 2]).last_request_time_ : ℤ))
          % 4294967296 ≤ 2000)
    ∧ ((loop 2001 2001 (waiting_hub [1, 66, 4, 2])).rx_buffer_ = []
      ∧ (loop 2001 2001 (waiting_hub [1, 66, 4, 2])).error_backoff_until_
          = (2001 + 5000) % 4294967296
      ∧ (2001 + 5000 < 4294967296 →
          (loop 2001 2001 (waiting_hub [1, 66, 4, 2])).error_backoff_until_ = 2001 + 5000)
      ∧ (loop 2001 2001 (waiting_hub [1, 66, 4, 2])).state_ = State.ERROR_BACKOFF)
    ∧ (loop 2000 2000 (waiting_hub [1, 66, 4, 2])).state_ = State.WAITING_RESPONSE :=
  ⟨⟨by decide, by decide, by decide, by decide, by decide⟩,
    (C20_response_timeout 2001 2001 (waiting_hub [1, 66, 4, 2]) (by decide) (by decide)
      (by decide) (by decide)).1 (by decide),
    (C20_response_timeout 2000 2000 (waiting_hub [1, 66, 4, 2]) (by decide) (by decide)
      (by decide) (by decide)).2.1 (by decide)⟩

/-! ## Frames that arrive in pieces -/

theorem framing_rule_length_prefix (p rest : List Nat) (h : 3 ≤ p.length) :
    framing_rule_length (p ++ rest) = framing_rule_length p := by
  unfold framing_rule_length
  rw [List.getD_append p rest 0 1 (by omega), List.getD_append p rest 0 2 (by omega)]

/-- A proper prefix of a frame of the length the framing rule asks for is too
short for `read_frame_`. -/
theorem prefix_too_short (f p rest : List Nat) (hf : p ++ rest = f) (hrest : rest ≠ [])
    (hlen : f.length = framing_rule_length f) :
    p.length < 3 ∨ p.length < framing_rule_length p := by
  by_cases h3 : p.length < 3
  · exact Or.inl h3
  · right
    have h1 : framing_rule_length p = f.length := by
      rw [hlen, ← hf, framing_rule_length_prefix p rest (by omega)]
    have h2 : f.length = p.length + rest.length := by rw [← hf, List.length_append]
    have h4 : 0 < rest.length := List.length_pos.mpr hrest
    omega

/-- A tick that finds, in `WAITING_RESPONSE` and before the timeout, only a
proper prefix of the frame in accumulator and UART moves the bytes to the
accumulator and does nothing else. -/
theorem loop_partial_frame (now t : Nat) (s : WaterFurnace) (chunk f rest : List Nat)
    (hstate : s.state_ = State.WAITING_RESPONSE) (huart : s.uart_rx = [])
    (hf : (s.rx_buffer_ ++ chunk) ++ rest = f) (hrest : rest ≠ [])
    (hlen : f.length = framing_rule_length f)
    (htime : (now + 4294967296 - s.last_request_time_) % 4294967296 ≤ RESPONSE_TIMEOUT) :
    loop now t (uart_receive chunk s) = { s with rx_buffer_ := s.rx_buffer_ ++ chunk } := by
  have hacc : (uart_receive chunk s).rx_buffer_ ++ (uart_receive chunk s).uart_rx
      = s.rx_buffer_ ++ chunk := by
    show s.rx_buffer_ ++ (s.uart_rx ++ chunk) = s.rx_buffer_ ++ chunk
    rw [huart, List.nil_append]
  have hshort := prefix_too_short f (s.rx_buffer_ ++ chunk) rest hf hrest hlen
  have hrf : read_frame_ (uart_receive chunk s)
      = (false, [], { s with rx_buffer_ := s.rx_buffer_ ++ chunk, uart_rx := [] }) := by
    rw [read_frame__eq, hacc, if_pos hshort]
    rfl
  have hread : (read_frame_ (uart_receive chunk s)).1 = false := by rw [hrf]
  rw [loop_waiting_no_frame now t (uart_receive chunk s) hstate hread, hrf]
  rw [if_neg (show ¬ (now + 4294967296 - (uart_receive chunk s).last_request_time_)
      % 4294967296 > RESPONSE_TIMEOUT from Nat.not_lt.mpr htime)]
  show { s with rx_buffer_ := s.rx_buffer_ ++ chunk, uart_rx := [] }
    = { s with rx_buffer_ := s.rx_buffer_ ++ chunk }
  rw [← huart]

theorem chunk_events_cons (c : List Nat × Nat × Nat) (rest : List (List Nat × Nat × Nat)) :
    chunk_events (c :: rest) = [Event.rx c.1, Event.tick c.2.1 c.2.2] ++ chunk_events rest := by
  simp [chunk_events, List.flatMap_cons]

theorem chunk_bytes_cons (c : List Nat × Nat × Nat) (rest : List (List Nat × Nat × Nat)) :
    chunk_bytes (c :: rest) = c.1 ++ chunk_bytes rest := by
  simp [chunk_bytes, List.flatMap_cons]

theorem chunk_bytes_take_drop (k : Nat) (chunks : List (List Nat × Nat × Nat)) :
    chunk_bytes (chunks.take k) ++ chunk_bytes (chunks.drop k) = chunk_bytes chunks := by
  unfold chunk_bytes
  rw [← List.flatMap_append, List.take_append_drop]

/-- Chunks that together are a proper prefix of the frame only fill the
accumulator. -/
theorem run_partial_chunks (f : List Nat) (hlen : f.length = framing_rule_length f)
    (chunks : List (List Nat × Nat × Nat)) :
    ∀ (s : WaterFurnace) (rest : List Nat), s.state_ = State.WAITING_RESPONSE → s.uart_rx = [] →
      (s.rx_buffer_ ++ chunk_bytes chunks) ++ rest = f → rest ≠ [] →
      (∀ c ∈ chunks,
        (c.2.1 + 4294967296 - s.last_request_time_) % 4294967296 ≤ RESPONSE_TIMEOUT) →
      run s (chunk_events chunks)
        = { s with rx_buffer_ := s.rx_buffer_ ++ chunk_bytes chunks } := by
  induction chunks with
  | nil =>
    intro s rest _ _ _ _ _
    show s = { s with rx_buffer_ := s.rx_buffer_ ++ [] }
    rw [List.append_nil]
  | cons c more ih =>
    intro s rest hstate huart hf hrest htime
    rw [chunk_bytes_cons] at hf ⊢
    have hf1 : (s.rx_buffer_ ++ c.1) ++ (chunk_bytes more ++ rest) = f := by
      rw [← hf]
      simp only [List.append_assoc]
    have hstep := loop_partial_frame c.2.1 c.2.2 s c.1 f (chunk_bytes more ++ rest) hstate huart
      hf1 (by simp [hrest]) hlen (htime c (List.mem_cons_self _ _))
    rw [chunk_events_cons, run_append]
    have hrun : run s [Event.rx c.1, Event.tick c.2.1 c.2.2]
        = loop c.2.1 c.2.2 (uart_receive c.1 s) := rfl
    rw [hrun, hstep]
    have hf2 : (({ s with rx_buffer_ := s.rx_buffer_ ++ c.1 } : WaterFurnace).rx_buffer_
        ++ chunk_bytes more) ++ rest = f := by
      rw [← hf]
      show ((s.rx_buffer_ ++ c.1) ++ chunk_bytes more) ++ rest
        = (s.rx_buffer_ ++ (c.1 ++ chunk_bytes more)) ++ rest
      rw [List.append_assoc s.rx_buffer_]
    rw [ih { s with rx_buffer_ := s.rx_buffer_ ++ c.1 } rest hstate huart hf2 hrest
      (fun c' hc' => htime c' (List.mem_cons_of_mem _ hc'))]
    show { s with rx_buffer_ := (s.rx_buffer_ ++ c.1) ++ chunk_bytes more }
      = { s with rx_buffer_ := s.rx_buffer_ ++ (c.1 ++ chunk_bytes more) }
    rw [List.append_assoc]

/-- With exactly the bytes of a CRC-valid frame of the length the framing rule
asks for in accumulator and UART, `read_frame_` returns it and leaves the
accumulator empty. -/
theorem read_frame__whole (s : WaterFurnace) (f : List Nat)
    (hacc : s.rx_buffer_ ++ s.uart_rx = f) (hcrc : validate_frame_crc f = true)
    (hlen : f.length = framing_rule_length f) :
    read_frame_ s = (true, f, { s with rx_buffer_ := [], uart_rx := [] }) := by
  have h4 := framing_rule_length_ge f
  rw [read_frame__eq, hacc, if_neg (show ¬ (f.length < 3 ∨ f.length < framing_rule_length f) by
    omega), ← hlen, List.take_length, List.drop_length, hcrc]

theorem process_transition__rx_buffer (t : Nat) (s : WaterFurnace) (h : s.rx_buffer_ = []) :
    (process_transition_ t s).rx_buffer_ = [] := by
  unfold process_transition_
  dsimp only
  split_ifs
  · exact h
  · unfold finish_detection_ build_poll_groups_
    dsimp only
    split_ifs
    · split
      · exact h
      · split_ifs <;> exact h
    · exact h
  · unfold poll_next_group_
    dsimp only
    split
    · exact h
    · unfold send_frame_
      dsimp only
      split_ifs <;> rfl
  · exact h
  · exact h

theorem dispatch_register__rx_buffer (addr value : Nat) (s : WaterFurnace) :
    (dispatch_register_ addr value s).rx_buffer_ = s.rx_buffer_ := rfl

theorem process_response__rx_buffer (frame : List Nat) (t : Nat) (s : WaterFurnace)
    (h : s.rx_buffer_ = []) : (process_response_ frame t s).rx_buffer_ = [] := by
  have hread : (process_read_values_ frame s).rx_buffer_ = s.rx_buffer_ := by
    unfold process_read_values_
    dsimp only
    split_ifs
    · exact foldl_proj_eq (fun s => s.rx_buffer_) store_and_dispatch_ (fun _ _ => rfl) _ _
    · rfl
  have hwrite : ∀ s' : WaterFurnace,
      (process_write_single_ frame s').rx_buffer_ = s'.rx_buffer_ := by
    intro s'
    unfold process_write_single_
    split_ifs <;> rfl
  unfold process_response_
  dsimp only
  split_ifs
  · exact h
  · exact h
  · exact h
  · exact h
  · exact process_transition__rx_buffer t _ ((hwrite _).trans (hread.trans h))
  · exact process_transition__rx_buffer t _ ((hwrite _).trans h)

/-- C18: let `f` be a CRC-valid response frame whose length is the one the
framing rule derives from its header, and let it reach a hub that waits for a
response with empty accumulator and UART in chunks, one chunk per tick, the
last byte of `f` in the final chunk and no tick before it past the response
timeout. Then after any number of the earlier chunks the hub is what it was
but for the accumulator, which holds the bytes received so far: no frame has
been processed. On the final tick `read_frame_` hands over exactly `f` and
leaves the accumulator empty, as it does when `f` arrives in one piece, and the
hub after the final tick is the hub after a single-tick delivery of `f`:
`process_response_` run on `f`. The accumulator is empty afterwards. -/
theorem C18_split_delivery_equals_single_delivery (s : WaterFurnace) (f : List Nat)
    (pre : List (List Nat × Nat × Nat)) (last : List Nat) (now t : Nat)
    (hstate : s.state_ = State.WAITING_RESPONSE)
    (hbuf : s.rx_buffer_ = []) (huart : s.uart_rx = [])
    (hcrc : validate_frame_crc f = true) (hlen : f.length = framing_rule_length f)
    (hsplit : chunk_bytes pre ++ last = f) (hlast : last ≠ [])
    (htime : ∀ c ∈ pre,
      (c.2.1 + 4294967296 - s.last_request_time_) % 4294967296 ≤ RESPONSE_TIMEOUT) :
    (∀ k, run s (chunk_events (pre.take k))
        = { s with rx_buffer_ := chunk_bytes (pre.take k) })
    ∧ read_frame_ (uart_receive last (run s (chunk_events pre)))
        = (true, f, { s with rx_buffer_ := [], uart_rx := [] })
    ∧ read_frame_ (uart_receive f s) = (true, f, { s with rx_buffer_ := [], uart_rx := [] })
    ∧ run s (chunk_events pre ++ [Event.rx last, Event.tick now t])
        = process_response_ f t { s with last_response_time_ := now }
    ∧ run s (chunk_events pre ++ [Event.rx last, Event.tick now t])
        = run s [Event.rx f, Event.tick now t]
    ∧ (run s (chunk_events pre ++ [Event.rx last, Event.tick now t])).rx_buffer_ = [] := by
  have hpart : ∀ k, run s (chunk_events (pre.take k))
      = { s with rx_buffer_ := chunk_bytes (pre.take k) } := by
    intro k
    have h := run_partial_chunks f hlen (pre.take k) s (chunk_bytes (pre.drop k) ++ last) hstate
      huart
      (by rw [hbuf, List.nil_append, ← List.append_assoc, chunk_bytes_take_drop, hsplit])
      (by simp [hlast]) (fun c hc => htime c (List.mem_of_mem_take hc))
    rw [h, hbuf, List.nil_append]
  have hall : run s (chunk_events pre) = { s with rx_buffer_ := chunk_bytes pre } := by
    have h := hpart pre.length
    rw [List.take_length] at h
    exact h
  have hr1 : read_frame_ (uart_receive last (run s (chunk_events pre)))
      = (true, f, { s with rx_buffer_ := [], uart_rx := [] }) := by
    rw [hall]
    exact read_frame__whole _ f
      (show chunk_bytes pre ++ (s.uart_rx ++ last) = f by rw [huart, List.nil_append, hsplit])
      hcrc hlen
  have hr2 : read_frame_ (uart_receive f s)
      = (true, f, { s with rx_buffer_ := [], uart_rx := [] }) :=
    read_frame__whole _ f
      (show s.rx_buffer_ ++ (s.uart_rx ++ f) = f by rw [hbuf, huart]; rfl) hcrc hlen
  have hs0 : ({ s with rx_buffer_ := [], uart_rx := [], last_response_time_ := now }
      : WaterFurnace) = { s with last_response_time_ := now } := by
    rw [hbuf, huart]
  have hl1 : run s (chunk_events pre ++ [Event.rx last, Event.tick now t])
      = process_response_ f t { s with last_response_time_ := now } := by
    rw [run_append]
    show loop now t (uart_receive last (run s (chunk_events pre))) = _
    rw [loop_waiting_ok now t (uart_receive last (run s (chunk_events pre)))
      (by rw [hall]; exact hstate) (by rw [hr1]), hr1]
    exact congrArg (process_response_ f t) hs0
  have hl2 : run s [Event.rx f, Event.tick now t]
      = process_response_ f t { s with last_response_time_ := now } := by
    show loop now t (uart_receive f s) = _
    rw [loop_waiting_ok now t (uart_receive f s) hstate (by rw [hr2]), hr2]
    exact congrArg (process_response_ f t) hs0
  refine ⟨hpart, hr1, hr2, hl1, hl1.trans hl2.symm, ?_⟩
  rw [hl1]
  exact process_response__rx_buffer f t _ hbuf

set_option maxRecDepth 100000 in
/-- C18 at the hub that waits for registers 745 and 746: the nine-byte response
arrives as 1 + 3 + 0 + 4 + 1 bytes on five ticks. -/
theorem C18_split_delivery_equals_single_delivery_witness :
    ((waiting_hub []).state_ = State.WAITING_RESPONSE
      ∧ validate_frame_crc sample_read_response = true
      ∧ sample_read_response.length = framing_rule_length sample_read_response
      ∧ chunk_bytes [([1], 10, 10), ([66, 4, 2], 20, 20), ([], 30, 30),
            ([0xBC, 2, 0xDA, 0xB5], 40, 40)] ++ [0x85] = sample_read_response)
    ∧ run (waiting_hub [])
        (chunk_events [([1], 10, 10), ([66, 4, 2], 20, 20), ([], 30, 30),
            ([0xBC, 2, 0xDA, 0xB5], 40, 40)] ++ [Event.rx [0x85], Event.tick 50 50])
      = run (waiting_hub []) [Event.rx sample_read_response, Event.tick 50 50] :=
  ⟨⟨by decide, by decide, by decide, by decide⟩,
    (C18_split_delivery_equals_single_delivery (waiting_hub []) sample_read_response
      [([1], 10, 10), ([66, 4, 2], 20, 20), ([], 30, 30), ([0xBC, 2, 0xDA, 0xB5], 40, 40)]
      [0x85] 50 50 (by decide) (by decide) (by decide) (by decide) (by decide) (by decide)
      (by decide) (by decide)).2.2.2.2.1⟩

/-! ## Bit fields -/

theorem shiftRight_and (a b n : Nat) : (a &&& b) >>> n = (a >>> n) &&& (b >>> n) := by
  apply Nat.eq_of_testBit_eq
  intro i
  simp [Nat.testBit_shiftRight, Nat.testBit_and]

theorem and_bit_eq (x i : Nat) : x &&& 2 ^ i = x / 2 ^ i % 2 * 2 ^ i := by
  rw [Nat.and_two_pow, Nat.toNat_testBit]

theorem and_bit_ne_zero_iff (x i : Nat) : x &&& 2 ^ i ≠ 0 ↔ x.testBit i = true := by
  rw [Nat.and_two_pow]
  cases x.testBit i <;> simp

theorem shl16_or_eq_add (hi lo : Nat) (hlo : lo < 65536) :
    (hi <<< 16) ||| lo = 65536 * hi + lo := by
  rw [Nat.shiftLeft_eq, Nat.mul_comm]
  exact (Nat.mul_add_lt_is_or (show lo < 2 ^ 16 from hlo) hi).symm

theorem to_uint32_eq (hi lo : Nat) (hhi : hi < 65536) (hlo : lo < 65536) :
    to_uint32 hi lo = 65536 * hi + lo := by
  unfold to_uint32
  have h1 : hi <<< 16 = 65536 * hi := by rw [Nat.shiftLeft_eq, Nat.mul_comm]
  have h2 : (hi <<< 16) % 4294967296 = hi <<< 16 := Nat.mod_eq_of_lt (by omega)
  rw [h2, shl16_or_eq_add hi lo hlo]
  exact Nat.mod_eq_of_lt (by omega)

/-! ## 32-bit values and IZ2 zone helpers: the claims -/

/-- C22: for all 16-bit `hi` and `lo`, `to_uint32 hi lo` is `65536 * hi + lo`
and `to_int32 hi lo` is that value read as 32-bit two's complement, that is
2^32 less when `hi` is at least 0x8000, a value in the signed 32-bit range; for
every signed 32-bit `v`, `to_int32` of the upper and lower halves of the bit
pattern of `v` is `v`. 0xFFFF, 0xFFFF gives -1, and the halves 0xFFFF, 0xFC18
of -1000 give -1000. -/
theorem C22_to_uint32_to_int32 (hi lo : Nat) (v : Int)
    (hhi : hi < 65536) (hlo : lo < 65536)
    (hv : -2147483648 ≤ v ∧ v < 2147483648) :
    to_uint32 hi lo = 65536 * hi + lo
    ∧ to_int32 hi lo
        = (if hi ≥ 0x8000 then ((65536 * hi + lo : Nat) : Int) - 4294967296
            else ((65536 * hi + lo : Nat) : Int))
    ∧ (-2147483648 ≤ to_int32 hi lo ∧ to_int32 hi lo < 2147483648)
    ∧ to_int32 ((v % 4294967296).toNat / 65536) ((v % 4294967296).toNat % 65536) = v
    ∧ to_uint32 0x0001 0x0000 = 0x00010000 ∧ to_uint32 0 500 = 500
    ∧ to_uint32 1 500 = 65536 + 500
    ∧ to_int32 0xFFFF 0xFFFF = -1
    ∧ ((-1000 : Int) % 4294967296).toNat / 65536 = 0xFFFF
    ∧ ((-1000 : Int) % 4294967296).toNat % 65536 = 0xFC18
    ∧ to_int32 0xFFFF 0xFC18 = -1000 := by
  have hu := to_uint32_eq hi lo hhi hlo
  have hp : (v % 4294967296).toNat < 4294967296 := by omega
  have hu2 := to_uint32_eq ((v % 4294967296).toNat / 65536) ((v % 4294967296).toNat % 65536)
    (by omega) (by omega)
  refine ⟨hu, ?_, ?_, ?_, by decide, by decide, by decide, by decide, by decide, by decide,
    by decide⟩
  · unfold to_int32
    rw [hu]
    split_ifs <;> omega
  · unfold to_int32
    rw [hu]
    split_ifs <;> omega
  · unfold to_int32
    rw [hu2]
    split_ifs <;> omega

/-- C22 at the halves 0x8000, 0x0001 and the value -1000. -/
theorem C22_to_uint32_to_int32_witness :
    to_uint32 0x8000 0x0001 = 65536 * 0x8000 + 0x0001
    ∧ to_int32 (((-1000 : Int) % 4294967296).toNat / 65536)
        (((-1000 : Int) % 4294967296).toNat % 65536) = -1000 :=
  ⟨(C22_to_uint32_to_int32 0x8000 0x0001 (-1000) (by decide) (by decide)
      ⟨by decide, by decide⟩).1,
    (C22_to_uint32_to_int32 0x8000 0x0001 (-1000) (by decide) (by decide)
      ⟨by decide, by decide⟩).2.2.2.1⟩

theorem iz2_extract_cooling_setpoint_eq (config1 : Nat) :
    iz2_extract_cooling_setpoint config1 = (config1 >>> 1) % 64 + 36 := by
  unfold iz2_extract_cooling_setpoint
  rw [shiftRight_and]
  have h : (config1 >>> 1) &&& (0x7E >>> 1) = (config1 >>> 1) % 64 :=
    Nat.and_pow_two_sub_one_eq_mod (config1 >>> 1) 6
  rw [h]
  exact Nat.mod_eq_of_lt (by omega)

/-- C23: for every `config1` (16-bit or not),
`iz2_extract_cooling_setpoint config1` is `((config1 >> 1) mod 64) + 36`, which
lies in 36..99; two registers that agree on bits 1 to 6 give the same setpoint,
so bit 0 and bits 7 to 15 play no part; and for every setpoint `s` in 36..99
the register `(s - 36) << 1` gives `s` back. 0x0000 gives 36, 0x004E gives 75
and 0x007E gives 99. -/
theorem C23_iz2_extract_cooling_setpoint (config1 : Nat) :
    iz2_extract_cooling_setpoint config1 = (config1 >>> 1) % 64 + 36
    ∧ 36 ≤ iz2_extract_cooling_setpoint config1
    ∧ iz2_extract_cooling_setpoint config1 ≤ 99
    ∧ (∀ other, (other >>> 1) % 64 = (config1 >>> 1) % 64 →
        iz2_extract_cooling_setpoint other = iz2_extract_cooling_setpoint config1)
    ∧ iz2_extract_cooling_setpoint (config1 &&& 0x7E) = iz2_extract_cooling_setpoint config1
    ∧ (∀ s, 36 ≤ s → s ≤ 99 → iz2_extract_cooling_setpoint ((s - 36) <<< 1) = s)
    ∧ iz2_extract_cooling_setpoint 0x0000 = 36
    ∧ iz2_extract_cooling_setpoint 0x004E = 75
    ∧ iz2_extract_cooling_setpoint 0x007E = 99 := by
  have h := iz2_extract_cooling_setpoint_eq
  refine ⟨h config1, ?_, ?_, ?_, ?_, ?_, by decide, by decide, by decide⟩
  · rw [h]
    omega
  · rw [h]
    omega
  · intro other ho
    rw [h, h, ho]
  · unfold iz2_extract_cooling_setpoint
    rw [Nat.and_assoc, Nat.and_self]
  · intro s h1 h2
    rw [h, Nat.shiftLeft_eq, Nat.shiftRight_eq_div_pow]
    omega

theorem iz2_extract_heating_setpoint_eq (config1 config2 : Nat) (h2 : config2 < 65536) :
    iz2_extract_heating_setpoint config1 config2
      = 32 * (config1 % 2) + (config2 >>> 11) + 36 := by
  unfold iz2_extract_heating_setpoint
  dsimp only
  have hc : config1 &&& 0x01 = config1 % 2 := Nat.and_pow_two_sub_one_eq_mod config1 1
  have hu : (config2 &&& 0xF800) >>> 11 = config2 >>> 11 := by
    rw [shiftRight_and]
    have h : (config2 >>> 11) &&& (0xF800 >>> 11) = (config2 >>> 11) % 32 :=
      Nat.and_pow_two_sub_one_eq_mod (config2 >>> 11) 5
    rw [h, Nat.shiftRight_eq_div_pow]
    exact Nat.mod_eq_of_lt (by omega)
  have hlt : config2 >>> 11 < 2 ^ 5 := by
    rw [Nat.shiftRight_eq_div_pow]
    omega
  rw [hc, hu, Nat.mod_eq_of_lt (show config1 % 2 < 256 by omega), Nat.shiftLeft_eq,
    Nat.mul_comm, ← Nat.mul_add_lt_is_or hlt]
  have hlt2 : config2 >>> 11 < 32 := hlt
  exact Nat.mod_eq_of_lt (by omega)

/-- C24: for every `config1` (16-bit or not) and every 16-bit `config2`,
`iz2_extract_heating_setpoint config1 config2` is
`32 * (config1 mod 2) + (config2 >> 11) + 36`, which lies in 36..99, so the
conversion to 8 bits never wraps; registers that agree on bit 0 of `config1`
and on bits 11 to 15 of `config2` give the same setpoint; (0x0001, 0x0000)
gives 68 and (0x0001, 0x2000) gives 72. -/
theorem C24_iz2_extract_heating_setpoint (config1 config2 : Nat) (h2 : config2 < 65536) :
    iz2_extract_heating_setpoint config1 config2
      = 32 * (config1 % 2) + (config2 >>> 11) + 36
    ∧ 36 ≤ iz2_extract_heating_setpoint config1 config2
    ∧ iz2_extract_heating_setpoint config1 config2 ≤ 99
    ∧ (∀ other1 other2, other2 < 65536 → other1 % 2 = config1 % 2 →
        other2 >>> 11 = config2 >>> 11 →
        iz2_extract_heating_setpoint other1 other2
          = iz2_extract_heating_setpoint config1 config2)
    ∧ iz2_extract_heating_setpoint 0x0001 0x0000 = 68
    ∧ iz2_extract_heating_setpoint 0x0001 0x2000 = 72 := by
  have h := iz2_extract_heating_setpoint_eq config1 config2 h2
  have hlt : config2 >>> 11 < 32 := by
    rw [Nat.shiftRight_eq_div_pow]
    omega
  refine ⟨h, by omega, by omega, ?_, by decide, by decide⟩
  intro other1 other2 ho2 hb hu
  rw [h, iz2_extract_heating_setpoint_eq other1 other2 ho2, hb, hu]

/-- C24 at the registers 0xFFFF, 0xFFFF: the largest setpoint, 99. -/
theorem C24_iz2_extract_heating_setpoint_witness :
    iz2_extract_heating_setpoint 0xFFFF 0xFFFF = 32 * (0xFFFF % 2) + (0xFFFF >>> 11) + 36
    ∧ iz2_extract_heating_setpoint 0xFFFF 0xFFFF ≤ 99 :=
  ⟨(C24_iz2_extract_heating_setpoint 0xFFFF 0xFFFF (by decide)).1,
    (C24_iz2_extract_heating_setpoint 0xFFFF 0xFFFF (by decide)).2.2.1⟩

theorem iz2_extract_fan_mode_eq (config1 : Nat) :
    iz2_extract_fan_mode config1
      = if config1.testBit 7 = true then FAN_CONTINUOUS
        else if config1.testBit 8 = true then FAN_INTERMITTENT else FAN_AUTO := by
  unfold iz2_extract_fan_mode
  have h7 : config1 &&& 0x80 ≠ 0 ↔ config1.testBit 7 = true := and_bit_ne_zero_iff config1 7
  have h8 : config1 &&& 0x100 ≠ 0 ↔ config1.testBit 8 = true := and_bit_ne_zero_iff config1 8
  by_cases b7 : config1.testBit 7 = true
  · rw [if_pos (h7.mpr b7), if_pos b7]
    rfl
  · rw [if_neg (fun h => b7 (h7.mp h)), if_neg b7]
    by_cases b8 : config1.testBit 8 = true
    · rw [if_pos (h8.mpr b8), if_pos b8]
      rfl
    · rw [if_neg (fun h => b8 (h8.mp h)), if_neg b8]
      rfl

/-- C25: for every `config1` (16-bit or not), `iz2_extract_fan_mode config1` is
continuous (1) whenever bit 7 (0x80) is set, whatever bit 8 is; intermittent
(2) when bit 8 (0x100) is set and bit 7 is clear; auto (0) when both are
clear; registers that agree on bits 7 and 8 give the same result. -/
theorem C25_iz2_extract_fan_mode (config1 : Nat) :
    (config1.testBit 7 = true → iz2_extract_fan_mode config1 = FAN_CONTINUOUS)
    ∧ (config1.testBit 7 = false → config1.testBit 8 = true →
        iz2_extract_fan_mode config1 = FAN_INTERMITTENT)
    ∧ (config1.testBit 7 = false → config1.testBit 8 = false →
        iz2_extract_fan_mode config1 = FAN_AUTO)
    ∧ (∀ other : Nat, other.testBit 7 = config1.testBit 7 →
        other.testBit 8 = config1.testBit 8 →
        iz2_extract_fan_mode other = iz2_extract_fan_mode config1)
    ∧ (config1.testBit 7 = true ↔ config1 &&& 0x80 ≠ 0)
    ∧ (config1.testBit 8 = true ↔ config1 &&& 0x100 ≠ 0)
    ∧ FAN_CONTINUOUS = 1 ∧ FAN_INTERMITTENT = 2 ∧ FAN_AUTO = 0
    ∧ iz2_extract_fan_mode 0x0000 = 0 ∧ iz2_extract_fan_mode 0x0001 = 0
    ∧ iz2_extract_fan_mode 0x0080 = 1 ∧ iz2_extract_fan_mode 0x00FF = 1
    ∧ iz2_extract_fan_mode 0x0180 = 1
    ∧ iz2_extract_fan_mode 0x0100 = 2 ∧ iz2_extract_fan_mode 0x0101 = 2 := by
  have h := iz2_extract_fan_mode_eq
  refine ⟨?_, ?_, ?_, ?_, (and_bit_ne_zero_iff config1 7).symm,
    (and_bit_ne_zero_iff config1 8).symm, rfl, rfl, rfl, by decide, by decide, by decide,
    by decide, by decide, by decide, by decide⟩
  · intro b7
    rw [h, if_pos b7]
  · intro b7 b8
    rw [h, if_neg (by rw [b7]; decide), if_pos b8]
  · intro b7 b8
    rw [h, if_neg (by rw [b7]; decide), if_neg (by rw [b8]; decide)]
  · intro other o7 o8
    rw [h, h, o7, o8]

/-- C25 at the register 0x0180, both bits set: continuous. -/
theorem C25_iz2_extract_fan_mode_witness :
    Nat.testBit 0x0180 7 = true ∧ iz2_extract_fan_mode 0x0180 = FAN_CONTINUOUS :=
  ⟨by decide, (C25_iz2_extract_fan_mode 0x0180).1 (by decide)⟩

/-- C26: for every `config2` (16-bit or not), `iz2_extract_mode config2` is
`(config2 >> 8) mod 4`, bits 8 and 9 and nothing else, so it is one of off
(0), auto (1), cool (2) and heat (3); 0x0000, 0x0100, 0x0200 and 0x0300 give
0, 1, 2 and 3. -/
theorem C26_iz2_extract_mode (config2 : Nat) :
    iz2_extract_mode config2 = (config2 >>> 8) % 4
    ∧ (iz2_extract_mode config2 = MODE_OFF ∨ iz2_extract_mode config2 = MODE_AUTO
        ∨ iz2_extract_mode config2 = MODE_COOL ∨ iz2_extract_mode config2 = MODE_HEAT)
    ∧ iz2_extract_mode config2
        = (config2.testBit 8).toNat + 2 * (config2.testBit 9).toNat
    ∧ MODE_OFF = 0 ∧ MODE_AUTO = 1 ∧ MODE_COOL = 2 ∧ MODE_HEAT = 3
    ∧ iz2_extract_mode 0x0000 = 0 ∧ iz2_extract_mode 0x0100 = 1
    ∧ iz2_extract_mode 0x0200 = 2 ∧ iz2_extract_mode 0x0300 = 3 := by
  have h : iz2_extract_mode config2 = (config2 >>> 8) % 4 := by
    unfold iz2_extract_mode
    have h3 : (config2 >>> 8) &&& 0x03 = (config2 >>> 8) % 4 :=
      Nat.and_pow_two_sub_one_eq_mod (config2 >>> 8) 2
    rw [h3]
    exact Nat.mod_eq_of_lt (by omega)
  refine ⟨h, ?_, ?_, rfl, rfl, rfl, rfl, by decide, by decide, by decide, by decide⟩
  · rw [h]
    unfold MODE_OFF MODE_AUTO MODE_COOL MODE_HEAT
    omega
  · rw [h, Nat.toNat_testBit, Nat.toNat_testBit, Nat.shiftRight_eq_div_pow]
    omega

/-! ## Fault codes -/

theorem fault_code_to_string_from_of_not_mem (table : List FaultInfo) (code : Nat)
    (h : ∀ info ∈ table, info.code ≠ code) :
    fault_code_to_string_from table code = "Unknown Fault" := by
  induction table with
  | nil => rfl
  | cons info rest ih =>
    unfold fault_code_to_string_from
    rw [if_neg (h info (List.mem_cons_self _ _))]
    exact ih (fun i hi => h i (List.mem_cons_of_mem _ hi))

theorem fault_code_to_string_from_of_mem (table : List FaultInfo)
    (hnd : (table.map (fun info => info.code)).Nodup) (info : FaultInfo) (hmem : info ∈ table) :
    fault_code_to_string_from table info.code = info.description := by
  induction table with
  | nil => exact absurd hmem (List.not_mem_nil _)
  | cons first rest ih =>
    rw [List.map_cons, List.nodup_cons] at hnd
    unfold fault_code_to_string_from
    rcases List.mem_cons.mp hmem with e | hrest
    · rw [e, if_pos rfl]
    · have hne : first.code ≠ info.code := by
        intro e
        exact hnd.1 (e ▸ List.mem_map_of_mem (fun i => i.code) hrest)
      rw [if_neg hne]
      exact ih hnd.2 hrest

/-- C27: for every code (8-bit or not), `fault_code_to_string` returns the
description the fault table pairs with that code when the table has an entry
for it, and "Unknown Fault" when it has none; no code occurs twice in the
table, so the description is the only one. 1 gives "Input Error", 2 "High
Pressure", 99 "System Reset"; 0 and 50 give "Unknown Fault". -/
theorem C27_fault_code_to_string (code : Nat) :
    (∀ info ∈ FAULT_TABLE, info.code = code → fault_code_to_string code = info.description)
    ∧ ((∀ info ∈ FAULT_TABLE, info.code ≠ code) → fault_code_to_string code = "Unknown Fault")
    ∧ (FAULT_TABLE.map (fun info => info.code)).Nodup
    ∧ (∀ info ∈ FAULT_TABLE, ∀ other ∈ FAULT_TABLE, info.code = other.code →
        info.description = other.description)
    ∧ FAULT_TABLE.length = 26
    ∧ (∀ info ∈ FAULT_TABLE, info.code < 256)
    ∧ fault_code_to_string 1 = "Input Error"
    ∧ fault_code_to_string 2 = "High Pressure"
    ∧ fault_code_to_string 99 = "System Reset"
    ∧ fault_code_to_string 0 = "Unknown Fault"
    ∧ fault_code_to_string 50 = "Unknown Fault" := by
  have hnd : (FAULT_TABLE.map (fun info => info.code)).Nodup := by decide
  refine ⟨?_, ?_, hnd, ?_, by decide, by decide, by decide, by decide, by decide, by decide,
    by decide⟩
  · intro info hmem hcode
    rw [← hcode]
    exact fault_code_to_string_from_of_mem FAULT_TABLE hnd info hmem
  · intro h
    exact fault_code_to_string_from_of_not_mem FAULT_TABLE code h
  · intro info hmem other hother hcode
    have h1 := fault_code_to_string_from_of_mem FAULT_TABLE hnd info hmem
    have h2 := fault_code_to_string_from_of_mem FAULT_TABLE hnd other hother
    rw [hcode] at h1
    exact h1.symm.trans h2

/-- C27 at the code 42. -/
theorem C27_fault_code_to_string_witness :
    fault_code_to_string 42 = "High Discharge Temp" :=
  (C27_fault_code_to_string 42).1 ⟨42, "High Discharge Temp"⟩ (by decide) rfl

theorem fault_code_eq (value : Nat) : (value &&& 0x7FFF) % 256 = value % 256 := by
  have h : value &&& 0x7FFF = value % 32768 := Nat.and_pow_two_sub_one_eq_mod value 15
  rw [h]
  omega

theorem locked_out_iff (value : Nat) (h : value < 65536) :
    ((value &&& 0x8000) != 0) = decide (value ≥ 32768) := by
  have h15 : value &&& 0x8000 = value / 32768 % 2 * 32768 := and_bit_eq value 15
  rw [h15]
  by_cases hv : value ≥ 32768
  · have : value / 32768 % 2 = 1 := by omega
    rw [this]
    simp [hv]
  · have : value / 32768 % 2 = 0 := by omega
    rw [this]
    simp [hv]

theorem append_ne_no_fault (a b c d : String) : "E" ++ a ++ b ++ c ++ d ≠ "No Fault" := by
  intro h
  have := congrArg String.data h
  simp only [String.data_append] at this
  exact absurd this (by simp)

/-- C28, what the code does instead: `fault_code` is a `uint8_t`, so the fault
status decoder takes the low 8 bits of the last-fault register as the fault
code, not the low 15. For every 16-bit value it reports "No Fault" exactly
when the low 8 bits are all zero, and otherwise reports the low 8 bits as the
code with its table description, adding the lockout marker exactly when bit 15
is set. So 0x0100, whose low 15 bits are not zero, is reported as "No Fault",
and 0x0102 as E2 High Pressure. -/
theorem C28_fault_code_is_low_8_bits (value : Nat) (h : value < 65536) :
    (on_fault_register_ value = "No Fault" ↔ value % 256 = 0)
    ∧ (value % 256 ≠ 0 →
        on_fault_register_ value
          = "E" ++ toString (value % 256) ++ " " ++ fault_code_to_string (value % 256)
              ++ (if value ≥ 32768 then " (LOCKOUT)" else ""))
    ∧ (value % 32768 < 256 →
        (on_fault_register_ value = "No Fault" ↔ value % 32768 = 0)
        ∧ (value % 32768 ≠ 0 →
            on_fault_register_ value
              = "E" ++ toString (value % 32768) ++ " "
                  ++ fault_code_to_string (value % 32768)
                  ++ (if value ≥ 32768 then " (LOCKOUT)" else "")))
    ∧ on_fault_register_ 0x0100 = "No Fault" ∧ 0x0100 % 32768 ≠ 0
    ∧ on_fault_register_ 0x8100 = "No Fault"
    ∧ on_fault_register_ 0x0102 = "E2 High Pressure" ∧ 0x0102 % 32768 = 258
    ∧ on_fault_register_ 0x0002 = "E2 High Pressure"
    ∧ on_fault_register_ 0x8002 = "E2 High Pressure (LOCKOUT)"
    ∧ on_fault_register_ 0x0000 = "No Fault"
    ∧ on_fault_register_ 0x8000 = "No Fault" := by
  have hcode := fault_code_eq value
  have hlock := locked_out_iff value h
  have hne : value % 256 ≠ 0 →
      on_fault_register_ value
        = "E" ++ toString (value % 256) ++ " " ++ fault_code_to_string (value % 256)
            ++ (if value ≥ 32768 then " (LOCKOUT)" else "") := by
    intro hnz
    unfold on_fault_register_
    dsimp only
    rw [hcode, if_neg hnz, hlock]
    by_cases hv : value ≥ 32768
    · rw [if_pos hv, if_pos (by simp [hv])]
    · rw [if_neg hv, if_neg (by simp [hv])]
  have hiff : on_fault_register_ value = "No Fault" ↔ value % 256 = 0 := by
    constructor
    · intro heq
      by_contra hnz
      rw [hne hnz] at heq
      exact append_ne_no_fault _ _ _ _ heq
    · intro hz
      unfold on_fault_register_
      dsimp only
      rw [hcode, if_pos hz]
  refine ⟨hiff, hne, ?_, by decide, by decide, by decide, by decide, by decide, by decide,
    by decide, by decide, by decide⟩
  intro hsmall
  have e : value % 256 = value % 32768 := by omega
  rw [← e]
  exact ⟨hiff, hne⟩

/-- C28 (the divergence) at the register value 0x0100: fault code 256 in the
low 15 bits, reported as "No Fault". -/
theorem C28_fault_code_is_low_8_bits_witness :
    (0x0100 % 32768 ≠ 0 ∧ 0x0100 % 256 = 0) ∧ on_fault_register_ 0x0100 = "No Fault" :=
  ⟨⟨by decide, by decide⟩,
    (C28_fault_code_is_low_8_bits 0x0100 (by decide)).1.mpr (by decide)⟩

/-! ## Register pairs of the power poll group -/

theorem zip_split_pair (front back : List Nat) (hi lo : Nat) (values : List Nat)
    (hlen : values.length = (front ++ hi :: lo :: back).length) :
    ∃ vhi vlo, (front ++ hi :: lo :: back).zip values
        = front.zip (values.take front.length)
          ++ (hi, vhi) :: (lo, vlo) :: back.zip (values.drop (front.length + 2)) := by
  have hsplit : values = values.take front.length ++ values.drop front.length :=
    (List.take_append_drop _ _).symm
  have hl1 : (values.take front.length).length = front.length := by
    rw [List.length_take]
    simp only [List.length_append, List.length_cons] at hlen
    omega
  have hl2 : (values.drop front.length).length = back.length + 2 := by
    rw [List.length_drop]
    simp only [List.length_append, List.length_cons] at hlen
    omega
  have hdrop : values.drop (front.length + 2) = (values.drop front.length).drop 2 := by
    rw [List.drop_drop, Nat.add_comm]
  rw [hdrop]
  generalize values.take front.length = v1 at hsplit hl1 ⊢
  generalize values.drop front.length = v2 at hsplit hl2 ⊢
  match v2, hl2 with
  | vhi :: vlo :: rest, _ =>
    refine ⟨vhi, vlo, ?_⟩
    rw [hsplit, List.zip_append hl1.symm]
    rfl

theorem calls_for_append (listeners : List RegisterListener) (xs ys : List (Nat × Nat)) :
    calls_for listeners (xs ++ ys) = calls_for listeners xs ++ calls_for listeners ys := by
  unfold calls_for
  rw [List.flatMap_append]

theorem calls_for_cons (listeners : List RegisterListener) (av : Nat × Nat)
    (rest : List (Nat × Nat)) :
    calls_for listeners (av :: rest)
      = (listeners_for listeners av.1).map (fun j => (j, av.2)) ++ calls_for listeners rest := by
  unfold calls_for
  rw [List.flatMap_cons]

/-- A tick in `WAITING_RESPONSE` that assembles a CRC-valid read response with
as many values as there are expected addresses: the listener calls and the
cache afterwards. -/
theorem loop_read_response_calls (now t : Nat) (s : WaterFurnace)
    (hstate : s.state_ = State.WAITING_RESPONSE) (hread : (read_frame_ s).1 = true)
    (hfunc : (read_frame_ s).2.1.getD 1 0 = FUNC_READ_RANGES
      ∨ (read_frame_ s).2.1.getD 1 0 = FUNC_READ_REGISTERS)
    (hcount : (parse_register_values ((read_frame_ s).2.1.drop 3)
      ((read_frame_ s).2.1.getD 2 0)).length = s.expected_addresses_.length) :
    listener_calls (loop now t s).effects
        = listener_calls s.effects
          ++ calls_for s.listeners_ (s.expected_addresses_.zip
              (parse_register_values ((read_frame_ s).2.1.drop 3)
                ((read_frame_ s).2.1.getD 2 0)))
    ∧ (loop now t s).registers_
        = (s.expected_addresses_.zip
            (parse_register_values ((read_frame_ s).2.1.drop 3)
              ((read_frame_ s).2.1.getD 2 0))).foldl
            (fun regs av => map_assign regs av.1 av.2) s.registers_ := by
  obtain ⟨s2, hloop, hregs, hlis, hexp, heff⟩ := loop_read_response now t s hstate hread hfunc
  have hrv : process_read_values_ (read_frame_ s).2.1 s2
      = (s.expected_addresses_.zip
          (parse_register_values ((read_frame_ s).2.1.drop 3)
            ((read_frame_ s).2.1.getD 2 0))).foldl store_and_dispatch_ s2 := by
    unfold process_read_values_
    dsimp only
    rw [hexp, if_pos hcount]
  have hf := foldl_store_and_dispatch (s.expected_addresses_.zip
      (parse_register_values ((read_frame_ s).2.1.drop 3)
        ((read_frame_ s).2.1.getD 2 0))) s2
  have ht := process_transition__keeps t ((s.expected_addresses_.zip
      (parse_register_values ((read_frame_ s).2.1.drop 3)
        ((read_frame_ s).2.1.getD 2 0))).foldl store_and_dispatch_ s2)
  rw [hregs, heff, hlis] at hf
  constructor
  · rw [hloop, hrv, ht.2.2.2, hf.2.1, listener_calls_append, listener_calls_flatMap_call]
    rfl
  · rw [hloop, hrv, ht.1, hf.1]

theorem poll_next_group__ranges (t : Nat) (s : WaterFurnace) (ranges : List (Nat × Nat))
    (hne : ranges ≠ [])
    (hgroup : s.poll_groups_[s.current_poll_group_]? = some { ranges := ranges }) :
    (poll_next_group_ t s).expected_addresses_ = push_range_addresses ranges []
    ∧ (poll_next_group_ t s).effects
        = s.effects ++ [Effect.tx (build_read_ranges_request ranges)]
    ∧ (poll_next_group_ t s).state_ = State.WAITING_RESPONSE := by
  unfold poll_next_group_
  rw [hgroup]
  dsimp only
  rw [if_pos ⟨hne, rfl⟩]
  unfold send_frame_
  exact ⟨List.append_nil _, rfl, rfl⟩

set_option maxRecDepth 100000 in
/-- C29: the power poll group is requested in one read of its ranges, and the
flattened address list recorded for it is 16, 1146 to 1157, 1164, 1165: for
each 32-bit power or energy quantity the high-word address is immediately
followed by the low-word address. So when a matching response to that request
is processed, the values are paired with these addresses and, for each
quantity, the listeners of the high word are called with its value immediately
before the listeners of the low word are called with its value, within the
same response, and both words are cached afterwards. -/
theorem C29_power_pairs_adjacent (now t : Nat) (s : WaterFurnace)
    (hstate : s.state_ = State.WAITING_RESPONSE)
    (hexp : s.expected_addresses_ = push_range_addresses get_power_ranges [])
    (hread : (read_frame_ s).1 = true)
    (hfunc : (read_frame_ s).2.1.getD 1 0 = FUNC_READ_RANGES
      ∨ (read_frame_ s).2.1.getD 1 0 = FUNC_READ_REGISTERS)
    (hcount : (parse_register_values ((read_frame_ s).2.1.drop 3)
      ((read_frame_ s).2.1.getD 2 0)).length = s.expected_addresses_.length) :
    push_range_addresses get_power_ranges []
        = [16, 1146, 1147, 1148, 1149, 1150, 1151, 1152, 1153, 1154, 1155, 1156, 1157,
            1164, 1165]
    ∧ (∀ p ∈ power_register_pairs,
        ∃ front back, push_range_addresses get_power_ranges [] = front ++ p.1 :: p.2 :: back)
    ∧ (∀ (t' : Nat) (s' : WaterFurnace),
        s'.poll_groups_[s'.current_poll_group_]? = some { ranges := get_power_ranges } →
        (poll_next_group_ t' s').expected_addresses_ = push_range_addresses get_power_ranges []
        ∧ (poll_next_group_ t' s').effects
            = s'.effects ++ [Effect.tx (build_read_ranges_request get_power_ranges)])
    ∧ (∀ p ∈ power_register_pairs, ∃ front back vhi vlo,
        s.expected_addresses_.zip
            (parse_register_values ((read_frame_ s).2.1.drop 3) ((read_frame_ s).2.1.getD 2 0))
          = front ++ (p.1, vhi) :: (p.2, vlo) :: back
        ∧ listener_calls (loop now t s).effects
            = listener_calls s.effects ++ calls_for s.listeners_ front
              ++ (listeners_for s.listeners_ p.1).map (fun j => (j, vhi))
              ++ (listeners_for s.listeners_ p.2).map (fun j => (j, vlo))
              ++ calls_for s.listeners_ back
        ∧ get_register p.1 (loop now t s) = some vhi
        ∧ get_register p.2 (loop now t s) = some vlo) := by
  have haddr : push_range_addresses get_power_ranges []
      = [16, 1146, 1147, 1148, 1149, 1150, 1151, 1152, 1153, 1154, 1155, 1156, 1157,
          1164, 1165] := by decide
  have hadj : ∀ p ∈ power_register_pairs,
      ∃ front back, push_range_addresses get_power_ranges [] = front ++ p.1 :: p.2 :: back := by
    intro p hp
    have hin : [p.1, p.2] <:+: push_range_addresses get_power_ranges [] := by
      revert p
      decide
    obtain ⟨front, back, h⟩ := hin
    exact ⟨front, back, by rw [← h]; simp⟩
  have hnd : (push_range_addresses get_power_ranges []).Nodup := by decide
  refine ⟨haddr, hadj, ?_, ?_⟩
  · intro t' s' hgroup
    have h := poll_next_group__ranges t' s' get_power_ranges (by decide) hgroup
    exact ⟨h.1, h.2.1⟩
  · intro p hp
    obtain ⟨front, back, hfb⟩ := hadj p hp
    obtain ⟨hcalls, hcache⟩ := loop_read_response_calls now t s hstate hread hfunc hcount
    rw [hexp] at hcount hcalls hcache
    rw [hexp]
    generalize parse_register_values ((read_frame_ s).2.1.drop 3)
      ((read_frame_ s).2.1.getD 2 0) = values at hcount hcalls hcache ⊢
    have hfst : ((push_range_addresses get_power_ranges []).zip values).map Prod.fst
        = push_range_addresses get_power_ranges [] :=
      List.map_fst_zip _ _ (le_of_eq hcount.symm)
    rw [hfb] at hcount
    obtain ⟨vhi, vlo, hzip⟩ := zip_split_pair front back p.1 p.2 values hcount
    rw [← hfb] at hzip
    refine ⟨_, _, vhi, vlo, hzip, ?_, ?_, ?_⟩
    · rw [hcalls, hzip, calls_for_append, calls_for_cons, calls_for_cons]
      simp only [List.append_assoc]
    · unfold get_register
      rw [hcache]
      exact foldl_assign_of_nodup _ _ (by rw [hfst]; exact hnd) (p.1, vhi)
        (by rw [hzip]; simp)
    · unfold get_register
      rw [hcache]
      exact foldl_assign_of_nodup _ _ (by rw [hfst]; exact hnd) (p.2, vlo)
        (by rw [hzip]; simp)

/-- C29 at the hub that waits for the power poll group, with listeners
registered for 1153, 1152 and 16 in that order: the response calls the
listener of line voltage, then that of the high word 1152 and right after it
that of the low word 1153. -/
theorem C29_power_pairs_adjacent_witness :
    ((power_waiting_hub power_response).state_ = State.WAITING_RESPONSE
      ∧ (power_waiting_hub power_response).expected_addresses_
          = push_range_addresses get_power_ranges []
      ∧ (read_frame_ (power_waiting_hub power_response)).1 = true
      ∧ (read_frame_ (power_waiting_hub power_response)).2.1.getD 1 0 = FUNC_READ_RANGES
      ∧ listener_calls (loop 100 100 (power_waiting_hub power_response)).effects
          = [(2, 240), (1, 152), (0, 153)])
    ∧ ∃ front back vhi vlo,
        (power_waiting_hub power_response).expected_addresses_.zip
            (parse_register_values ((read_frame_ (power_waiting_hub power_response)).2.1.drop 3)
              ((read_frame_ (power_waiting_hub power_response)).2.1.getD 2 0))
          = front ++ (1152, vhi) :: (1153, vlo) :: back
        ∧ listener_calls (loop 100 100 (power_waiting_hub power_response)).effects
            = listener_calls (power_waiting_hub power_response).effects
              ++ calls_for (power_waiting_hub power_response).listeners_ front
              ++ (listeners_for (power_waiting_hub power_response).listeners_ 1152).map
                  (fun j => (j, vhi))
              ++ (listeners_for (power_waiting_hub power_response).listeners_ 1153).map
                  (fun j => (j, vlo))
              ++ calls_for (power_waiting_hub power_response).listeners_ back
        ∧ get_register 1152 (loop 100 100 (power_waiting_hub power_response)) = some vhi
        ∧ get_register 1153 (loop 100 100 (power_waiting_hub power_response)) = some vlo :=
  ⟨⟨by decide!, by decide!, by decide!, by decide!, by decide!⟩,
    (C29_power_pairs_adjacent 100 100 (power_waiting_hub power_response) (by decide!)
      (by decide!) (by decide!) (Or.inl (by decide!)) (by decide!)).2.2.2 (1152, 1153)
      (by decide)⟩

/-! ## Error responses -/

theorem process_response__error (frame : List Nat) (t : Nat) (s : WaterFurnace)
    (hlen : 4 ≤ frame.length) (herr : is_error_response (frame.getD 1 0) = true) :
    process_response_ frame t s =
      if s.state_ = State.WAITING_RESPONSE ∧ (s.model_number_ = [] ∨ s.poll_groups_ = []) then
        { s with
          error_backoff_until_ := (t + ERROR_BACKOFF_TIME) % 4294967296
          state_ := State.ERROR_BACKOFF }
      else { s with state_ := State.IDLE } := by
  unfold process_response_
  dsimp only
  rw [if_neg (show ¬ frame.length < MIN_FRAME_SIZE by unfold MIN_FRAME_SIZE; omega), if_pos herr]

/-- C21: when a tick in `WAITING_RESPONSE` assembles a CRC-valid error response
(function code with bit 0x80 set): if the model number is still empty or no
poll groups have been built, the state becomes `ERROR_BACKOFF` with the
deadline 5000 ms after the clock reading `t` taken while the response is
handled (on the 32-bit clock; exactly `t + 5000` when that fits); otherwise the
state becomes `IDLE`. In both cases the register cache, the poll-group index,
the capability flags (with zone count, identity strings and poll-group list),
the pending-write queue are unchanged, no listener is called and nothing is
sent. -/
theorem C21_error_response (now t : Nat) (s : WaterFurnace)
    (hstate : s.state_ = State.WAITING_RESPONSE) (hread : (read_frame_ s).1 = true)
    (herr : is_error_response ((read_frame_ s).2.1.getD 1 0) = true) :
    (s.model_number_ = [] ∨ s.poll_groups_ = [] →
        (loop now t s).state_ = State.ERROR_BACKOFF
        ∧ (loop now t s).error_backoff_until_ = (t + 5000) % 4294967296
        ∧ (t + 5000 < 4294967296 → (loop now t s).error_backoff_until_ = t + 5000))
    ∧ (¬ (s.model_number_ = [] ∨ s.poll_groups_ = []) → (loop now t s).state_ = State.IDLE)
    ∧ (loop now t s).registers_ = s.registers_
    ∧ (loop now t s).current_poll_group_ = s.current_poll_group_
    ∧ capabilities (loop now t s) = capabilities s
    ∧ (loop now t s).pending_writes_ = s.pending_writes_
    ∧ (loop now t s).effects = s.effects := by
  have hlen := validate_frame_crc_length _ (read_frame__ok s hread).1
  obtain ⟨hr, _, hp, _, he, _⟩ := read_frame__keeps s
  have hloop := loop_waiting_ok now t s hstate hread
  have hc : control_part { (read_frame_ s).2.2 with last_response_time_ := now }
      = control_part s := read_frame__control s
  have hr1 : ({ (read_frame_ s).2.2 with last_response_time_ := now } : WaterFurnace).registers_
      = s.registers_ := hr
  have hp1 :
      ({ (read_frame_ s).2.2 with last_response_time_ := now } : WaterFurnace).pending_writes_
      = s.pending_writes_ := hp
  have he1 : ({ (read_frame_ s).2.2 with last_response_time_ := now } : WaterFurnace).effects
      = s.effects := he
  generalize ({ (read_frame_ s).2.2 with last_response_time_ := now } : WaterFurnace) = s1
    at hloop hc hr1 hp1 he1
  have hst : s1.state_ = s.state_ := congrArg (fun x => x.state_) hc
  have hmodel : s1.model_number_ = s.model_number_ := congrArg (fun x => x.model_number_) hc
  have hgroups : s1.poll_groups_ = s.poll_groups_ := congrArg (fun x => x.poll_groups_) hc
  have hidx : s1.current_poll_group_ = s.current_poll_group_ :=
    congrArg (fun x => x.current_poll_group_) hc
  have hcap : capabilities s1 = capabilities s := capabilities_of_control _ _ hc
  rw [hloop, process_response__error _ t _ hlen herr]
  by_cases hsetup : s.model_number_ = [] ∨ s.poll_groups_ = []
  · rw [if_pos ⟨hst.trans hstate, by rw [hmodel, hgroups]; exact hsetup⟩]
    exact ⟨fun _ => ⟨rfl, rfl, fun hfit => Nat.mod_eq_of_lt hfit⟩, fun h => absurd hsetup h,
      hr1, hidx, hcap, hp1, he1⟩
  · rw [if_neg (fun h => hsetup (by rw [← hmodel, ← hgroups]; exact h.2))]
    exact ⟨fun h => absurd h hsetup, fun _ => rfl, hr1, hidx, hcap, hp1, he1⟩

set_option maxRecDepth 100000 in
/-- C21 at the initial hub whose identity request is answered by the error
response 01 C1 02 (backoff until 5011), and at the sample hub that waits for
registers 745 and 746 after setup and receives 01 C2 02 (back to `IDLE`). -/
theorem C21_error_response_witness :
    ((run {} [Event.tick 0 0, Event.rx (append_crc [1, 0xC1, 2])]).state_
        = State.WAITING_RESPONSE
      ∧ (read_frame_ (run {} [Event.tick 0 0, Event.rx (append_crc [1, 0xC1, 2])])).1 = true
      ∧ (run {} [Event.tick 0 0, Event.rx (append_crc [1, 0xC1, 2])]).model_number_ = []
      ∧ (read_frame_ (waiting_hub (append_crc [1, 0xC2, 2]))).1 = true
      ∧ ¬ ((waiting_hub (append_crc [1, 0xC2, 2])).model_number_ = []
          ∨ (waiting_hub (append_crc [1, 0xC2, 2])).poll_groups_ = []))
    ∧ ((loop 10 11 (run {} [Event.tick 0 0, Event.rx (append_crc [1, 0xC1, 2])])).state_
          = State.ERROR_BACKOFF
        ∧ (loop 10 11
            (run {} [Event.tick 0 0, Event.rx (append_crc [1, 0xC1, 2])])).error_backoff_until_
          = (11 + 5000) % 4294967296
        ∧ (11 + 5000 < 4294967296 →
          (loop 10 11
            (run {} [Event.tick 0 0, Event.rx (append_crc [1, 0xC1, 2])])).error_backoff_until_
            = 11 + 5000))
    ∧ (loop 100 101 (waiting_hub (append_crc [1, 0xC2, 2]))).state_ = State.IDLE :=
  ⟨⟨by decide!, by decide!, by decide!, by decide!, by decide!⟩,
    (C21_error_response 10 11 (run {} [Event.tick 0 0, Event.rx (append_crc [1, 0xC1, 2])])
      (by decide!) (by decide!) (by decide!)).1 (Or.inl (by decide!)),
    (C21_error_response 100 101 (waiting_hub (append_crc [1, 0xC2, 2]))
      (by decide!) (by decide!) (by decide!)).2.1 (by decide!)⟩

/-! ## Detection after the identity read -/

theorem push_if_head (c : Prop) [Decidable c] (groups : List PollGroup) (g first : PollGroup)
    (h : groups.head? = some first) : (if c then groups ++ [g] else groups).head? = some first := by
  split_ifs
  · cases groups with
    | nil => exact absurd h (by simp)
    | cons a rest => exact h
  · exact h

theorem build_poll_groups__head (s : WaterFurnace) :
    (build_poll_groups_ s).poll_groups_.head? = some { ranges := get_thermostat_ranges } := by
  unfold build_poll_groups_
  dsimp only
  exact push_if_head _ _ _ _ (push_if_head _ _ _ _ (push_if_head _ _ _ _
    (push_if_head _ _ _ _ (push_if_head _ _ _ _ rfl))))

theorem finish_detection__head (s : WaterFurnace) :
    (finish_detection_ s).poll_groups_.head? = some { ranges := get_thermostat_ranges } := by
  unfold finish_detection_
  dsimp only
  exact build_poll_groups__head _

/-- C30, what the code does: take a hub that waits for the detection response
(no poll groups yet, setup-phase flag set) and a tick that assembles a
CRC-valid non-error response. If the model number decoded from the identity
response is not empty, the capability flags are computed, the poll-group list
is built, non-empty, with the core thermostat ranges first, the setup-phase
flag is cleared and the hub is `IDLE`. If the model number is empty, the
response is taken for an identity response instead: no capability flag is
computed, no poll group is built and the hub is back in
`SETUP_DETECT_COMPONENTS`. For a device whose model registers 92 to 103 are all
zero this repeats: from the initial hub, after the identity response and two
detection responses the hub has sent the detection request a third time and
still has no poll groups. -/
theorem C30_detection_needs_model_number (now t : Nat) (s : WaterFurnace)
    (hstate : s.state_ = State.WAITING_RESPONSE) (hread : (read_frame_ s).1 = true)
    (hne : is_error_response ((read_frame_ s).2.1.getD 1 0) = false)
    (hgroups : s.poll_groups_ = []) (hphase : s.setup_phase_ ≠ 0) :
    (s.model_number_ ≠ [] →
        (loop now t s).state_ = State.IDLE
        ∧ (loop now t s).setup_phase_ = 0
        ∧ (loop now t s).poll_groups_ ≠ []
        ∧ (loop now t s).poll_groups_.head? = some { ranges := get_thermostat_ranges }
        ∧ (loop now t s).has_thermostat_
            = check_component (loop now t s).registers_ REG_THERMOSTAT_STATUS
        ∧ (loop now t s).has_axb_ = check_component (loop now t s).registers_ REG_AXB_STATUS
        ∧ (loop now t s).has_iz2_ = check_component (loop now t s).registers_ REG_IZ2_STATUS)
    ∧ (s.model_number_ = [] →
        (loop now t s).state_ = State.SETUP_DETECT_COMPONENTS
        ∧ (loop now t s).setup_phase_ = 0
        ∧ (loop now t s).poll_groups_ = []
        ∧ (loop now t s).has_thermostat_ = s.has_thermostat_
        ∧ (loop now t s).has_axb_ = s.has_axb_
        ∧ (loop now t s).has_iz2_ = s.has_iz2_)
    ∧ (blank_model_detection_pending (detection_fixture 300 200)).state_
        = State.WAITING_RESPONSE
    ∧ (blank_model_detection_pending (detection_fixture 300 200)).setup_phase_ = 1
    ∧ (blank_model_detection_pending (detection_fixture 300 200)).model_number_ = []
    ∧ (read_frame_ (blank_model_detection_pending (detection_fixture 300 200))).1 = true
    ∧ (loop 30 30 (blank_model_detection_pending (detection_fixture 300 200))).state_
        = State.SETUP_DETECT_COMPONENTS
    ∧ (loop 30 30 (blank_model_detection_pending (detection_fixture 300 200))).poll_groups_
        = []
    ∧ (loop 30 30 (blank_model_detection_pending (detection_fixture 300 200))).has_thermostat_
        = false
    ∧ get_register 800 (loop 30 30 (blank_model_detection_pending (detection_fixture 300 200)))
        = some 1
    ∧ (run (loop 30 30 (blank_model_detection_pending (detection_fixture 300 200)))
        [Event.tick 40 40,
          Event.rx (mock_response (detection_fixture 300 200)
            (push_range_addresses get_component_detect_ranges [])),
          Event.tick 50 50, Event.tick 60 60]).state_ = State.WAITING_RESPONSE
    ∧ (run (loop 30 30 (blank_model_detection_pending (detection_fixture 300 200)))
        [Event.tick 40 40,
          Event.rx (mock_response (detection_fixture 300 200)
            (push_range_addresses get_component_detect_ranges [])),
          Event.tick 50 50, Event.tick 60 60]).poll_groups_ = []
    ∧ sent_frames (run (loop 30 30 (blank_model_detection_pending (detection_fixture 300 200)))
        [Event.tick 40 40,
          Event.rx (mock_response (detection_fixture 300 200)
            (push_range_addresses get_component_detect_ranges [])),
          Event.tick 50 50, Event.tick 60 60]).effects
        = [build_read_ranges_request get_system_id_ranges,
            build_read_ranges_request get_component_detect_ranges,
            build_read_ranges_request get_component_detect_ranges,
            build_read_ranges_request get_component_detect_ranges] := by
  obtain ⟨s2, hloop, hctl, _⟩ := loop_valid_response now t s hstate hread hne
  refine ⟨fun hmodel => ?_, fun hmodel => ?_, by decide!, by decide!, by decide!, by decide!,
    by decide!, by decide!, by decide!, by decide!, by decide!, by decide!, by decide!⟩
  · rw [hloop, process_transition__detection t s2 s hctl hstate (fun h => hmodel h.2) hphase]
    obtain ⟨hr, h1, h2, h3, _⟩ := finish_detection__flags s2
    have hd := finish_detection__done s2
    refine ⟨rfl, rfl, hd.1, finish_detection__head s2, ?_, ?_, ?_⟩
    · rw [hr, h1]
    · rw [hr, h2]
    · rw [hr, h3]
  · rw [hloop, process_transition__identity t s2 s hctl hstate ⟨hgroups, hmodel⟩]
    have hg : s2.poll_groups_ = s.poll_groups_ := congrArg (fun x => x.poll_groups_) hctl
    have ht : s2.has_thermostat_ = s.has_thermostat_ :=
      congrArg (fun x => x.has_thermostat_) hctl
    have ha : s2.has_axb_ = s.has_axb_ := congrArg (fun x => x.has_axb_) hctl
    have hi : s2.has_iz2_ = s.has_iz2_ := congrArg (fun x => x.has_iz2_) hctl
    exact ⟨rfl, rfl, hg.trans hgroups, ht, ha, hi⟩

/-- C30 (the divergence) at the hub that holds the detection response of a
device with a blank model number. -/
theorem C30_detection_needs_model_number_witness :
    ((blank_model_detection_pending (detection_fixture 300 200)).state_
        = State.WAITING_RESPONSE
      ∧ (read_frame_ (blank_model_detection_pending (detection_fixture 300 200))).1 = true
      ∧ (blank_model_detection_pending (detection_fixture 300 200)).poll_groups_ = []
      ∧ (blank_model_detection_pending (detection_fixture 300 200)).setup_phase_ ≠ 0
      ∧ (blank_model_detection_pending (detection_fixture 300 200)).model_number_ = [])
    ∧ ((loop 30 30 (blank_model_detection_pending (detection_fixture 300 200))).state_
          = State.SETUP_DETECT_COMPONENTS
      ∧ (loop 30 30 (blank_model_detection_pending (detection_fixture 300 200))).setup_phase_
          = 0
      ∧ (loop 30 30 (blank_model_detection_pending (detection_fixture 300 200))).poll_groups_
          = []) :=
  ⟨⟨by decide!, by decide!, by decide!, by decide!, by decide!⟩,
    ((C30_detection_needs_model_number 30 30
      (blank_model_detection_pending (detection_fixture 300 200)) (by decide!) (by decide!)
      (by decide!) (by decide!) (by decide!)).2.1 (by decide!)).elim
      (fun h1 h2 => ⟨h1, h2.1, h2.2.1⟩)⟩

/-! ## Setup requests and poll groups -/

set_option maxRecDepth 100000 in
/-- C35: in `SETUP_READ_ID` with the setup-phase flag 0, as in the initial hub,
a tick sends exactly one frame, `build_read_ranges_request` of the
system-identity ranges, records as expected addresses the 27 addresses 2,
88..91, 92..103, 105..109, 400, 401, 404, 412, 413 in that order, sets the
setup-phase flag to 1 and moves to `WAITING_RESPONSE`. -/
theorem C35_first_tick_reads_identity (now t : Nat) (s : WaterFurnace)
    (hstate : s.state_ = State.SETUP_READ_ID) (hphase : s.setup_phase_ = 0) :
    (loop now t s).effects
        = s.effects ++ [Effect.tx (build_read_ranges_request get_system_id_ranges)]
    ∧ (loop now t s).expected_addresses_
        = [2, 88, 89, 90, 91, 92, 93, 94, 95, 96, 97, 98, 99, 100, 101, 102, 103,
            105, 106, 107, 108, 109, 400, 401, 404, 412, 413]
    ∧ (loop now t s).expected_addresses_.length = 27
    ∧ (loop now t s).setup_phase_ = 1
    ∧ (loop now t s).state_ = State.WAITING_RESPONSE
    ∧ (loop now t s).registers_ = s.registers_
    ∧ build_read_ranges_request get_system_id_ranges
        = [1, 65, 0, 2, 0, 1, 0, 88, 0, 4, 0, 92, 0, 12, 0, 105, 0, 5, 1, 144, 0, 2,
            1, 148, 0, 1, 1, 156, 0, 2, 157, 205]
    ∧ ({} : WaterFurnace).state_ = State.SETUP_READ_ID
    ∧ ({} : WaterFurnace).setup_phase_ = 0
    ∧ sent_frames (loop 0 0 {}).effects = [build_read_ranges_request get_system_id_ranges] := by
  have haddr : push_range_addresses get_system_id_ranges []
      = [2, 88, 89, 90, 91, 92, 93, 94, 95, 96, 97, 98, 99, 100, 101, 102, 103,
          105, 106, 107, 108, 109, 400, 401, 404, 412, 413] := by decide
  have hloop : loop now t s
      = { read_system_id_ t s with setup_phase_ := 1, state_ := State.WAITING_RESPONSE } := by
    unfold loop
    rw [hstate]
    dsimp only
    rw [if_pos hphase]
  rw [hloop]
  refine ⟨rfl, haddr, ?_, rfl, rfl, rfl, by decide, rfl, rfl, rfl⟩
  show (push_range_addresses get_system_id_ranges []).length = 27
  rw [haddr]
  rfl

/-- C35 at the initial hub. -/
theorem C35_first_tick_reads_identity_witness :
    (loop 0 0 {}).effects = [Effect.tx (build_read_ranges_request get_system_id_ranges)]
    ∧ (loop 0 0 {}).setup_phase_ = 1
    ∧ (loop 0 0 {}).state_ = State.WAITING_RESPONSE :=
  ⟨(C35_first_tick_reads_identity 0 0 {} rfl rfl).1,
    (C35_first_tick_reads_identity 0 0 {} rfl rfl).2.2.2.1,
    (C35_first_tick_reads_identity 0 0 {} rfl rfl).2.2.2.2.1⟩

theorem expected_poll_groups_shape (s : WaterFurnace) :
    ∀ g ∈ expected_poll_groups s,
      (g.ranges ≠ [] ∧ g.individual = []) ∨ (g.ranges = [] ∧ g.individual ≠ []) := by
  intro g hg
  unfold expected_poll_groups at hg
  simp only [List.mem_append, List.mem_singleton] at hg
  rcases hg with ((((h | h) | h) | h) | h) | h
  · rw [h]
    exact Or.inl ⟨by simp, rfl⟩
  · split_ifs at h
    · rw [List.mem_singleton.mp h]
      exact Or.inr ⟨rfl, by simp⟩
    · exact absurd h (List.not_mem_nil _)
  · split_ifs at h
    · rw [List.mem_singleton.mp h]
      exact Or.inl ⟨by simp, rfl⟩
    · exact absurd h (List.not_mem_nil _)
  · split_ifs at h
    · rw [List.mem_singleton.mp h]
      exact Or.inl ⟨by simp, rfl⟩
    · exact absurd h (List.not_mem_nil _)
  · split_ifs at h
    · rw [List.mem_singleton.mp h]
      exact Or.inl ⟨by simp, rfl⟩
    · exact absurd h (List.not_mem_nil _)
  · split_ifs at h
    · rw [List.mem_singleton.mp h]
      exact Or.inl ⟨by simp, rfl⟩
    · exact absurd h (List.not_mem_nil _)

/-- C36: for every combination of capability flags and every (8-bit) zone
count, the list `build_poll_groups_` builds is, in this order: the core
thermostat and status ranges, always; the thermostat configuration registers
12005 and 12006, exactly when the thermostat is AWL and no IZ2 is present; the
AXB ranges, exactly when the AXB is present; the power ranges, exactly when
energy monitoring is available; the variable-speed-drive ranges, exactly when
the drive is present; the per-zone ranges (31007, 3n) and (31200, 3n) for zone
count n, exactly when the IZ2 is AWL and n > 0. Every group holds only ranges
or only individual addresses, never both and never neither. The list left by
the detection branch is this list for the flags and zone count it leaves. -/
theorem C36_poll_groups_built (s : WaterFurnace) (hzone : s.iz2_zone_count_ < 256) :
    (build_poll_groups_ s).poll_groups_ = expected_poll_groups s
    ∧ (∀ g ∈ (build_poll_groups_ s).poll_groups_,
        (g.ranges ≠ [] ∧ g.individual = []) ∨ (g.ranges = [] ∧ g.individual ≠ []))
    ∧ ((finish_detection_ s).iz2_zone_count_ < 256 →
        (finish_detection_ s).poll_groups_ = expected_poll_groups (finish_detection_ s))
    ∧ get_thermostat_ranges = [(19, 2), (25, 2), (30, 2), (502, 1), (740, 3), (745, 3)]
    ∧ get_thermostat_config_registers = [12005, 12006]
    ∧ get_iz2_ranges 3 = [(31007, 9), (31200, 9)]
    ∧ get_iz2_ranges 0 = [] := by
  have h := build_poll_groups__eq s hzone
  refine ⟨h, ?_, ?_, rfl, rfl, rfl, rfl⟩
  · rw [h]
    exact expected_poll_groups_shape s
  · intro hz
    obtain ⟨hub, hhub⟩ : ∃ hub, finish_detection_ s
        = { build_poll_groups_ hub with setup_phase_ := 0, state_ := State.IDLE } := by
      unfold finish_detection_
      exact ⟨_, rfl⟩
    rw [hhub] at hz ⊢
    have hzone2 : hub.iz2_zone_count_ < 256 := hz
    show (build_poll_groups_ hub).poll_groups_ = _
    rw [build_poll_groups__eq hub hzone2]
    rfl

/-- C36 at a hub with an AWL thermostat, an AXB with energy monitoring, no
drive and an AWL IZ2 with 3 zones: four groups, no thermostat configuration
group. -/
theorem C36_poll_groups_built_witness :
    (build_poll_groups_
      { awl_thermostat_ := true, has_iz2_ := true, awl_iz2_ := true, has_axb_ := true,
        has_energy_monitoring_ := true, iz2_zone_count_ := 3 }).poll_groups_
      = [{ ranges := get_thermostat_ranges }, { ranges := get_axb_ranges },
          { ranges := get_power_ranges }, { ranges := [(31007, 9), (31200, 9)] }] :=
  (C36_poll_groups_built
    { awl_thermostat_ := true, has_iz2_ := true, awl_iz2_ := true, has_axb_ := true,
      has_energy_monitoring_ := true, iz2_zone_count_ := 3 } (by decide)).1.trans (by decide)

theorem iz2_group_length (n : Nat) (h0 : 0 < n) (h6 : n ≤ 6) :
    (group_addresses { ranges := get_iz2_ranges n }).length = 6 * n := by
  interval_cases n <;> decide

theorem build_poll_groups__length (s : WaterFurnace) (h6 : s.iz2_zone_count_ ≤ 6) :
    ∀ group ∈ (build_poll_groups_ s).poll_groups_, (group_addresses group).length ≤ 36 := by
  unfold build_poll_groups_
  dsimp only
  refine forall_mem_push_if _ _ _ (forall_mem_push_if _ _ _ (forall_mem_push_if _ _ _
    (forall_mem_push_if _ _ _ (forall_mem_push_if _ _ _ ?_ ?_) ?_) ?_) ?_) ?_
  · intro x hx
    rw [List.nil_append, List.mem_singleton] at hx
    rw [hx]
    decide
  · intro _
    decide
  · intro _
    decide
  · intro _
    decide
  · intro _
    decide
  · intro h
    have h0 : 0 < s.iz2_zone_count_ := by
      cases hawl : s.awl_iz2_
      · rw [hawl] at h
        exact absurd h (by simp)
      · rw [hawl] at h
        simpa using h
    rw [iz2_group_length _ h0 h6]
    omega

/-- C37: for every combination of capability flags and every zone count 0..6,
each poll group built by `build_poll_groups_` flattens to at most 36 addresses,
so to at most `MAX_REGISTERS_PER_REQUEST` = 100, and twice that number, the
byte count of the response, fits one byte; the identity read has 27 addresses
and the detection read 22. In every hub reached from the initial one the zone
count is at most 6, so the bound holds for every list built there. -/
theorem C37_read_requests_within_cap (s : WaterFurnace) (h6 : s.iz2_zone_count_ ≤ 6) :
    (∀ group ∈ (build_poll_groups_ s).poll_groups_,
        (group_addresses group).length ≤ 36
        ∧ (group_addresses group).length ≤ MAX_REGISTERS_PER_REQUEST
        ∧ 2 * (group_addresses group).length ≤ 255)
    ∧ (push_range_addresses get_system_id_ranges []).length = 27
    ∧ (push_range_addresses get_component_detect_ranges []).length = 22
    ∧ (get_system_id_ranges.map Prod.snd).sum = 27
    ∧ (get_component_detect_ranges.map Prod.snd).sum = 22
    ∧ (group_addresses { ranges := get_thermostat_ranges }).length = 13
    ∧ (group_addresses { individual := get_thermostat_config_registers }).length = 2
    ∧ (group_addresses { ranges := get_axb_ranges }).length = 25
    ∧ (group_addresses { ranges := get_power_ranges }).length = 15
    ∧ (group_addresses { ranges := get_vs_drive_ranges }).length = 21
    ∧ (group_addresses { ranges := get_iz2_ranges 6 }).length = 36
    ∧ (∀ events, (run {} events).iz2_zone_count_ ≤ 6) := by
  refine ⟨fun group hg => ?_, by decide, by decide, by decide, by decide, by decide, by decide,
    by decide, by decide, by decide, by decide,
    fun events => (run_distinct events {} initial_distinct).2.2⟩
  have h := build_poll_groups__length s h6 group hg
  unfold MAX_REGISTERS_PER_REQUEST
  omega

/-- C37 at a hub with every component present and 6 zones: the IZ2 group, the
largest, has 36 addresses. -/
theorem C37_read_requests_within_cap_witness :
    (group_addresses { ranges := get_iz2_ranges 6 }).length ≤ 36
    ∧ (group_addresses { ranges := get_iz2_ranges 6 }).length ≤ MAX_REGISTERS_PER_REQUEST :=
  ⟨((C37_read_requests_within_cap
      { awl_thermostat_ := true, has_iz2_ := true, awl_iz2_ := true, has_axb_ := true,
        has_energy_monitoring_ := true, has_vs_drive_ := true, iz2_zone_count_ := 6 }
      (by decide)).1 { ranges := get_iz2_ranges 6 } (by decide)).1,
    ((C37_read_requests_within_cap
      { awl_thermostat_ := true, has_iz2_ := true, awl_iz2_ := true, has_axb_ := true,
        has_energy_monitoring_ := true, has_vs_drive_ := true, iz2_zone_count_ := 6 }
      (by decide)).1 { ranges := get_iz2_ranges 6 } (by decide)).2.1⟩

/-! ## The request for a poll group -/

theorem foldl_invariant {α β : Type} (P : β → Prop) (f : β → α → β)
    (hf : ∀ acc x, P acc → P (f acc x)) (xs : List α) (acc : β) (h : P acc) :
    P (xs.foldl f acc) := by
  induction xs generalizing acc with
  | nil => exact h
  | cons x rest ih => exact ih (f acc x) (hf acc x h)

theorem push_range_addresses_lt (ranges : List (Nat × Nat)) (acc : List Nat)
    (hacc : ∀ a ∈ acc, a < 65536) : ∀ a ∈ push_range_addresses ranges acc, a < 65536 := by
  unfold push_range_addresses
  apply foldl_invariant (fun l : List Nat => ∀ a ∈ l, a < 65536) _ _ ranges acc hacc
  intro l range hl
  apply foldl_invariant (fun l : List Nat => ∀ a ∈ l, a < 65536) _ _ (List.range range.2) l hl
  intro l2 i hl2 a ha
  rw [List.mem_append, List.mem_singleton] at ha
  rcases ha with ha | ha
  · exact hl2 a ha
  · rw [ha]
    exact Nat.mod_lt _ (by decide)

theorem decode_range_pairs_encode (ranges : List (Nat × Nat))
    (h : ∀ p ∈ ranges, p.1 < 65536 ∧ p.2 < 65536) :
    decode_range_pairs (ranges.flatMap pair_bytes) = ranges := by
  induction ranges with
  | nil => rfl
  | cons p rest ih =>
    have hp := h p (List.mem_cons_self _ _)
    rw [List.flatMap_cons, pair_bytes_of_lt p hp.1 hp.2]
    show (256 * (p.1 / 256) + p.1 % 256, 256 * (p.2 / 256) + p.2 % 256)
      :: decode_range_pairs (rest.flatMap pair_bytes) = p :: rest
    rw [ih (fun q hq => h q (List.mem_cons_of_mem _ hq)), Nat.div_add_mod, Nat.div_add_mod]

theorem decode_addresses_encode (addrs : List Nat) (h : ∀ a ∈ addrs, a < 65536) :
    decode_addresses (addrs.flatMap addr_bytes) = addrs := by
  induction addrs with
  | nil => rfl
  | cons a rest ih =>
    rw [List.flatMap_cons, addr_bytes_of_lt a (h a (List.mem_cons_self _ _))]
    show (256 * (a / 256) + a % 256) :: decode_addresses (rest.flatMap addr_bytes) = a :: rest
    rw [ih (fun q hq => h q (List.mem_cons_of_mem _ hq)), Nat.div_add_mod]

theorem payload_of_append_crc (func : Nat) (payload : List Nat) :
    ((append_crc ([1, func] ++ payload)).drop 2).take
        ((append_crc ([1, func] ++ payload)).length - 4) = payload
    ∧ (append_crc ([1, func] ++ payload)).getD 1 0 = func := by
  rw [append_crc_eq]
  constructor
  · simp
  · rfl

theorem requested_addresses_read_ranges (ranges : List (Nat × Nat))
    (h : ∀ p ∈ ranges, p.1 < 65536 ∧ p.2 < 65536) :
    requested_addresses (build_read_ranges_request ranges) = push_range_addresses ranges [] := by
  unfold requested_addresses
  dsimp only
  rw [build_read_ranges_request_eq, (payload_of_append_crc 65 _).1,
    (payload_of_append_crc 65 _).2, if_pos rfl, decode_range_pairs_encode ranges h]

theorem requested_addresses_read_registers (addrs : List Nat) (h : ∀ a ∈ addrs, a < 65536) :
    requested_addresses (build_read_registers_request addrs) = addrs := by
  unfold requested_addresses
  dsimp only
  rw [build_read_registers_request_eq, (payload_of_append_crc 66 _).1,
    (payload_of_append_crc 66 _).2, if_neg (by decide), if_pos rfl,
    decode_addresses_encode addrs h]

/-- C38: for every poll group (of 16-bit ranges and addresses) at the current
index, the request step records as expected addresses the group's ranges
flattened in order followed by its individual addresses, moves to
`WAITING_RESPONSE` and sends one frame: `build_read_ranges_request` of the
ranges when the group has only ranges, `build_read_registers_request` of the
individual addresses when it has only those, and `build_read_registers_request`
of the flattened list when it has both and the total is at most 100. In each of
these cases the addresses the frame asks for, in order, are exactly the
recorded expected addresses. (When it has both and the total exceeds 100 the
frame asks for the ranges only.) -/
theorem C38_poll_request_matches_expected (t : Nat) (s : WaterFurnace) (group : PollGroup)
    (hgroup : s.poll_groups_[s.current_poll_group_]? = some group)
    (hranges : ∀ r ∈ group.ranges, r.1 < 65536 ∧ r.2 < 65536)
    (hind : ∀ a ∈ group.individual, a < 65536) :
    (poll_next_group_ t s).expected_addresses_
        = push_range_addresses group.ranges [] ++ group.individual
    ∧ (poll_next_group_ t s).expected_addresses_ = group_addresses group
    ∧ (poll_next_group_ t s).state_ = State.WAITING_RESPONSE
    ∧ (group.ranges ≠ [] → group.individual = [] →
        (poll_next_group_ t s).effects
          = s.effects ++ [Effect.tx (build_read_ranges_request group.ranges)]
        ∧ requested_addresses (build_read_ranges_request group.ranges)
          = (poll_next_group_ t s).expected_addresses_)
    ∧ (group.ranges = [] → group.individual ≠ [] →
        (poll_next_group_ t s).effects
          = s.effects ++ [Effect.tx (build_read_registers_request group.individual)]
        ∧ requested_addresses (build_read_registers_request group.individual)
          = (poll_next_group_ t s).expected_addresses_)
    ∧ (group.ranges ≠ [] → group.individual ≠ [] →
        (push_range_addresses group.ranges [] ++ group.individual).length ≤ 100 →
        (poll_next_group_ t s).effects
          = s.effects ++ [Effect.tx (build_read_registers_request
              (push_range_addresses group.ranges [] ++ group.individual))]
        ∧ requested_addresses (build_read_registers_request
              (push_range_addresses group.ranges [] ++ group.individual))
          = (poll_next_group_ t s).expected_addresses_)
    ∧ (group.ranges ≠ [] → group.individual ≠ [] →
        100 < (push_range_addresses group.ranges [] ++ group.individual).length →
        (poll_next_group_ t s).effects
          = s.effects ++ [Effect.tx (build_read_ranges_request group.ranges)]) := by
  have hall : ∀ a ∈ push_range_addresses group.ranges [] ++ group.individual, a < 65536 := by
    intro a ha
    rcases List.mem_append.mp ha with h | h
    · exact push_range_addresses_lt group.ranges [] (fun _ h' => absurd h' (List.not_mem_nil _))
        a h
    · exact hind a h
  have hexp : (poll_next_group_ t s).expected_addresses_
      = push_range_addresses group.ranges [] ++ group.individual := by
    unfold poll_next_group_
    rw [hgroup]
    dsimp only
    unfold send_frame_
    split_ifs <;> rfl
  have hstate : (poll_next_group_ t s).state_ = State.WAITING_RESPONSE := by
    unfold poll_next_group_
    rw [hgroup]
  refine ⟨hexp, hexp, hstate, ?_, ?_, ?_, ?_⟩
  · intro hr hi
    constructor
    · unfold poll_next_group_
      rw [hgroup]
      dsimp only
      rw [if_pos ⟨hr, hi⟩]
      rfl
    · rw [hexp, hi, List.append_nil]
      exact requested_addresses_read_ranges group.ranges hranges
  · intro hr hi
    constructor
    · unfold poll_next_group_
      rw [hgroup]
      dsimp only
      rw [if_neg (fun h => h.1 hr), if_pos ⟨hr, hi⟩]
      rfl
    · rw [hexp, hr]
      exact requested_addresses_read_registers group.individual hind
  · intro hr hi hlen
    constructor
    · unfold poll_next_group_
      rw [hgroup]
      dsimp only
      rw [if_neg (fun h => hi h.2), if_neg (fun h => hr h.1),
        if_pos (show (push_range_addresses group.ranges [] ++ group.individual).length
          ≤ MAX_REGISTERS_PER_REQUEST from hlen)]
      rfl
    · rw [hexp]
      exact requested_addresses_read_registers _ hall
  · intro hr hi hlen
    unfold poll_next_group_
    rw [hgroup]
    dsimp only
    rw [if_neg (fun h => hi h.2), if_neg (fun h => hr h.1),
      if_neg (show ¬ (push_range_addresses group.ranges [] ++ group.individual).length
        ≤ MAX_REGISTERS_PER_REQUEST from Nat.not_le.mpr hlen)]
    rfl

set_option maxRecDepth 100000 in
/-- C38 at a hub whose poll group mixes the range (19, 2) with the address
12005: the frame is a read-registers request for 19, 20, 12005. -/
theorem C38_poll_request_matches_expected_witness :
    (poll_next_group_ 0 mixed_group_hub).expected_addresses_ = [19, 20, 12005]
    ∧ (poll_next_group_ 0 mixed_group_hub).effects
        = mixed_group_hub.effects ++ [Effect.tx (build_read_registers_request
            (push_range_addresses [(19, 2)] [] ++ [12005]))]
    ∧ requested_addresses (build_read_registers_request
          (push_range_addresses [(19, 2)] [] ++ [12005]))
        = (poll_next_group_ 0 mixed_group_hub).expected_addresses_ :=
  ⟨(C38_poll_request_matches_expected 0 mixed_group_hub
      { ranges := [(19, 2)], individual := [12005] } (by decide) (by decide) (by decide)).1,
    (C38_poll_request_matches_expected 0 mixed_group_hub
      { ranges := [(19, 2)], individual := [12005] } (by decide) (by decide)
      (by decide)).2.2.2.2.2.1 (by decide) (by decide) (by decide)⟩

/-! ## The normal polling branch -/

theorem poll_next_group__eq (t : Nat) (s : WaterFurnace) (group : PollGroup)
    (hgroup : s.poll_groups_[s.current_poll_group_]? = some group) :
    poll_next_group_ t s
      = { s with
          expected_addresses_ := group_addresses group
          effects := s.effects ++ [Effect.tx (group_request group)]
          last_request_time_ := t
          rx_buffer_ := []
          state_ := State.WAITING_RESPONSE } := by
  unfold poll_next_group_ group_request group_addresses
  rw [hgroup]
  dsimp only
  unfold send_frame_
  split_ifs <;> rfl

theorem process_transition__normal (t : Nat) (s : WaterFurnace)
    (hstate : s.state_ = State.WAITING_RESPONSE) (hgroups : s.poll_groups_ ≠ [])
    (hphase : s.setup_phase_ = 0) :
    process_transition_ t s =
      if (s.current_poll_group_ + 1) % 256 < s.poll_groups_.length then
        poll_next_group_ t { s with current_poll_group_ := (s.current_poll_group_ + 1) % 256 }
      else
        { s with
          current_poll_group_ := (s.current_poll_group_ + 1) % 256
          state_ := State.IDLE } := by
  unfold process_transition_
  dsimp only
  rw [if_pos hstate, if_neg (fun h => hgroups h.1), if_neg (fun h => h hphase)]

theorem process_response__other (frame : List Nat) (t : Nat) (s : WaterFurnace)
    (hlen : 4 ≤ frame.length)
    (herr : is_error_response (frame.getD 1 0) = false)
    (hread : ¬ (frame.getD 1 0 = FUNC_READ_RANGES ∨ frame.getD 1 0 = FUNC_READ_REGISTERS))
    (hsingle : frame.getD 1 0 ≠ FUNC_WRITE_SINGLE) :
    process_response_ frame t s = process_transition_ t s := by
  unfold process_response_ process_write_single_
  dsimp only
  rw [if_neg (show ¬ frame.length < MIN_FRAME_SIZE by unfold MIN_FRAME_SIZE; omega),
    if_neg (by rw [herr]; decide), if_neg (fun h => hread h.1), if_neg hread,
    if_neg (fun h => hsingle h.1)]

/-- The state transition of the normal polling branch, with the group it asks
for spelled out. -/
theorem process_transition__normal_spec (t : Nat) (s : WaterFurnace)
    (hstate : s.state_ = State.WAITING_RESPONSE) (hgroups : s.poll_groups_ ≠ [])
    (hphase : s.setup_phase_ = 0) :
    (∀ group, s.poll_groups_[(s.current_poll_group_ + 1) % 256]? = some group →
        process_transition_ t s
          = { s with
              current_poll_group_ := (s.current_poll_group_ + 1) % 256
              expected_addresses_ := group_addresses group
              effects := s.effects ++ [Effect.tx (group_request group)]
              last_request_time_ := t
              rx_buffer_ := []
              state_ := State.WAITING_RESPONSE })
    ∧ (s.poll_groups_.length ≤ (s.current_poll_group_ + 1) % 256 →
        process_transition_ t s
          = { s with
              current_poll_group_ := (s.current_poll_group_ + 1) % 256
              state_ := State.IDLE }) := by
  have h := process_transition__normal t s hstate hgroups hphase
  constructor
  · intro group hg
    have hlt : (s.current_poll_group_ + 1) % 256 < s.poll_groups_.length := by
      by_contra hge
      rw [List.getElem?_eq_none (Nat.not_lt.mp hge)] at hg
      exact absurd hg (by simp)
    rw [h, if_pos hlt]
    exact poll_next_group__eq t _ group hg
  · intro hge
    rw [h, if_neg (Nat.not_lt.mpr hge)]

/-- What a tick makes of a CRC-valid frame that is neither an error, nor a
read response, nor a write-single echo: the state transitions run on the hub
as `read_frame_` left it. -/
theorem loop_other_response (now t : Nat) (s : WaterFurnace)
    (hstate : s.state_ = State.WAITING_RESPONSE) (hread : (read_frame_ s).1 = true)
    (herr : is_error_response ((read_frame_ s).2.1.getD 1 0) = false)
    (hnoread : ¬ ((read_frame_ s).2.1.getD 1 0 = FUNC_READ_RANGES
      ∨ (read_frame_ s).2.1.getD 1 0 = FUNC_READ_REGISTERS))
    (hsingle : (read_frame_ s).2.1.getD 1 0 ≠ FUNC_WRITE_SINGLE) :
    ∃ s1 : WaterFurnace, loop now t s = process_transition_ t s1
      ∧ control_part s1 = control_part s
      ∧ s1.registers_ = s.registers_ ∧ s1.effects = s.effects := by
  have hlen := validate_frame_crc_length _ (read_frame__ok s hread).1
  obtain ⟨hr, _, _, _, he, _⟩ := read_frame__keeps s
  refine ⟨{ (read_frame_ s).2.2 with last_response_time_ := now }, ?_,
    read_frame__control s, hr, he⟩
  rw [loop_waiting_ok now t s hstate hread,
    process_response__other _ t _ hlen herr hnoread hsingle]

theorem step_tick (now t : Nat) (s : WaterFurnace) :
    step s (Event.tick now t) = loop now t s := rfl

theorem run_cons (s : WaterFurnace) (e : Event) (es : List Event) :
    run s (e :: es) = run (step s e) es := rfl

set_option maxRecDepth 100000 in
/-- C31, refuted as stated: from the initial hub, setup of a device with
thermostat and AXB leaves five poll groups and index 0; before any poll one
write is queued and sent, and its CRC-valid function 67 echo `01 43 41 D1` is
processed in `WAITING_RESPONSE` with setup complete. The state does not become
`IDLE`: it stays `WAITING_RESPONSE`, the poll-group index goes from 0 to 1, the
expected-address list is replaced by 12005, 12006 and the read request of
these two registers is sent. -/
theorem C31_write_echo_requests_next_group :
    write_echo_pending
      = run {} (setup_events (detection_fixture 300 200)
          ++ [Event.tick 30 30, Event.write 12619 700, Event.tick 40 40,
              Event.rx (append_crc [1, 67])])
    ∧ write_echo_pending.state_ = State.WAITING_RESPONSE
    ∧ write_echo_pending.setup_phase_ = 0
    ∧ write_echo_pending.poll_groups_.length = 5
    ∧ write_echo_pending.current_poll_group_ = 0
    ∧ (read_frame_ write_echo_pending).1 = true
    ∧ (read_frame_ write_echo_pending).2.1 = [1, 67, 65, 209]
    ∧ (loop 50 50 write_echo_pending).state_ = State.WAITING_RESPONSE
    ∧ (loop 50 50 write_echo_pending).state_ ≠ State.IDLE
    ∧ (loop 50 50 write_echo_pending).current_poll_group_ = 1
    ∧ (loop 50 50 write_echo_pending).current_poll_group_
        ≠ write_echo_pending.current_poll_group_
    ∧ (loop 50 50 write_echo_pending).expected_addresses_ = [12005, 12006]
    ∧ (loop 50 50 write_echo_pending).expected_addresses_
        ≠ write_echo_pending.expected_addresses_
    ∧ (loop 50 50 write_echo_pending).effects
        = write_echo_pending.effects
          ++ [Effect.tx (build_read_registers_request [12005, 12006])] := by
  refine ⟨?_, by decide!, by decide!, by decide!, by decide!, by decide!, by decide!,
    by decide!, by decide!, by decide!, by decide!, by decide!, by decide!, by decide!⟩
  unfold write_echo_pending detection_pending
  rw [run_append]
  conv_rhs => rw [run_cons, step_tick]

/-- C31, amended: when a CRC-valid write-multiple echo (function 67) is
processed in `WAITING_RESPONSE` after setup has completed, the register cache
is unchanged and no listener is called, and the transition that follows every
non-error response runs. The poll-group index advances by one (modulo 256, it
is 8-bit), so it never stays what it was; if a poll group exists at the new
index, exactly that group's read request is sent, its addresses become the
expected addresses and the hub stays in `WAITING_RESPONSE`; if none exists,
the hub goes to `IDLE`, nothing is sent and the expected addresses are
unchanged. -/
theorem C31_write_echo_advances_poll_index (now t : Nat) (s : WaterFurnace)
    (hstate : s.state_ = State.WAITING_RESPONSE) (hread : (read_frame_ s).1 = true)
    (hfunc : (read_frame_ s).2.1.getD 1 0 = FUNC_WRITE_REGISTERS)
    (hgroups : s.poll_groups_ ≠ []) (hphase : s.setup_phase_ = 0) :
    (loop now t s).current_poll_group_ = (s.current_poll_group_ + 1) % 256
    ∧ (loop now t s).current_poll_group_ ≠ s.current_poll_group_
    ∧ (loop now t s).registers_ = s.registers_
    ∧ listener_calls (loop now t s).effects = listener_calls s.effects
    ∧ (∀ group, s.poll_groups_[(s.current_poll_group_ + 1) % 256]? = some group →
        (loop now t s).state_ = State.WAITING_RESPONSE
        ∧ (loop now t s).effects = s.effects ++ [Effect.tx (group_request group)]
        ∧ (loop now t s).expected_addresses_ = group_addresses group)
    ∧ (s.poll_groups_.length ≤ (s.current_poll_group_ + 1) % 256 →
        (loop now t s).state_ = State.IDLE
        ∧ (loop now t s).effects = s.effects
        ∧ (loop now t s).expected_addresses_ = s.expected_addresses_) := by
  obtain ⟨s1, hloop, hctl, hregs, heff⟩ := loop_other_response now t s hstate hread
    (by rw [hfunc]; decide) (by rw [hfunc]; decide) (by rw [hfunc]; decide)
  have hst1 : s1.state_ = s.state_ := congrArg (fun x => x.state_) hctl
  have hg1 : s1.poll_groups_ = s.poll_groups_ := congrArg (fun x => x.poll_groups_) hctl
  have hp1 : s1.setup_phase_ = s.setup_phase_ := congrArg (fun x => x.setup_phase_) hctl
  have hi1 : s1.current_poll_group_ = s.current_poll_group_ :=
    congrArg (fun x => x.current_poll_group_) hctl
  have hx1 : s1.expected_addresses_ = s.expected_addresses_ :=
    congrArg (fun x => x.expected_addresses_) hctl
  obtain ⟨hnext, hlast⟩ := process_transition__normal_spec t s1 (hst1.trans hstate)
    (by rw [hg1]; exact hgroups) (hp1.trans hphase)
  rw [hg1, hi1] at hnext hlast
  have hcases : (s.current_poll_group_ + 1) % 256 < s.poll_groups_.length
      ∨ s.poll_groups_.length ≤ (s.current_poll_group_ + 1) % 256 := Nat.lt_or_ge _ _
  have hidx : (loop now t s).current_poll_group_ = (s.current_poll_group_ + 1) % 256 := by
    rcases hcases with hlt | hge
    · rw [hloop, hnext _ (List.getElem?_eq_getElem hlt)]
    · rw [hloop, hlast hge]
  refine ⟨hidx, ?_, ?_, ?_, ?_, ?_⟩
  · rw [hidx]
    omega
  · rcases hcases with hlt | hge
    · rw [hloop, hnext _ (List.getElem?_eq_getElem hlt)]
      exact hregs
    · rw [hloop, hlast hge]
      exact hregs
  · rcases hcases with hlt | hge
    · rw [hloop, hnext _ (List.getElem?_eq_getElem hlt)]
      show listener_calls (s1.effects ++ _) = _
      rw [listener_calls_append, heff]
      exact List.append_nil _
    · rw [hloop, hlast hge]
      show listener_calls s1.effects = _
      rw [heff]
  · intro group hg
    rw [hloop, hnext group hg]
    exact ⟨rfl, by show s1.effects ++ _ = _; rw [heff], rfl⟩
  · intro hge
    rw [hloop, hlast hge]
    exact ⟨rfl, heff, hx1⟩

/-- C31 (amended) at the hub that holds the echo of a write queued right after
setup: the index moves on and the hub stays in `WAITING_RESPONSE`, having sent
the read request of the group at index 1. -/
theorem C31_write_echo_advances_poll_index_witness :
    (write_echo_pending.state_ = State.WAITING_RESPONSE
      ∧ (read_frame_ write_echo_pending).1 = true
      ∧ (read_frame_ write_echo_pending).2.1.getD 1 0 = FUNC_WRITE_REGISTERS
      ∧ write_echo_pending.poll_groups_ ≠ []
      ∧ write_echo_pending.setup_phase_ = 0
      ∧ write_echo_pending.poll_groups_[(write_echo_pending.current_poll_group_ + 1) % 256]?
          = some { individual := [12005, 12006] })
    ∧ (loop 50 50 write_echo_pending).current_poll_group_
        ≠ write_echo_pending.current_poll_group_
    ∧ (loop 50 50 write_echo_pending).state_ = State.WAITING_RESPONSE
    ∧ (loop 50 50 write_echo_pending).effects
        = write_echo_pending.effects
          ++ [Effect.tx (group_request { individual := [12005, 12006] })] :=
  ⟨⟨by decide!, by decide!, by decide!, by decide!, by decide!, by decide!⟩,
    (C31_write_echo_advances_poll_index 50 50 write_echo_pending (by decide!) (by decide!)
      (by decide!) (by decide!) (by decide!)).2.1,
    ((C31_write_echo_advances_poll_index 50 50 write_echo_pending (by decide!) (by decide!)
      (by decide!) (by decide!) (by decide!)).2.2.2.2.1
        { individual := [12005, 12006] } (by decide!)).1,
    ((C31_write_echo_advances_poll_index 50 50 write_echo_pending (by decide!) (by decide!)
      (by decide!) (by decide!) (by decide!)).2.2.2.2.1
        { individual := [12005, 12006] } (by decide!)).2.1⟩

/-! ## Leaving `ERROR_BACKOFF` -/

theorem loop_backoff_state (now t : Nat) (s : WaterFurnace)
    (hstate : s.state_ = State.ERROR_BACKOFF) :
    (loop now t s).state_ = State.ERROR_BACKOFF ↔ now < s.error_backoff_until_ := by
  unfold loop
  rw [hstate]
  dsimp only
  by_cases h : now ≥ s.error_backoff_until_
  · rw [if_pos h]
    constructor
    · intro hs
      split_ifs at hs
    · intro hlt
      omega
  · rw [if_neg h]
    exact ⟨fun _ => Nat.not_le.mp h, fun _ => hstate⟩

/-- C32, what the code does instead: the deadline is the 32-bit sum of the
clock reading on entry and 5000, and a tick leaves `ERROR_BACKOFF` exactly when
its clock reading is at least the deadline as plain numbers. When entry
reading plus 5000 fits in 32 bits and the clock has not wrapped since, this is
5000 ms of backoff, as the claim says. When the sum wraps, it is not: a hub
that enters backoff at clock reading 4294962296 gets the deadline 0 and leaves
on a tick 1 ms later; and a hub that enters at 4294962295 gets the deadline
4294967295 and is still in backoff when the clock, wrapped, reads 5, which is
5006 ms after entry. -/
theorem C32_backoff_deadline_is_plain_comparison (now t : Nat) (s : WaterFurnace)
    (hstate : s.state_ = State.ERROR_BACKOFF) :
    ((loop now t s).state_ = State.ERROR_BACKOFF ↔ now < s.error_backoff_until_)
    ∧ (∀ entered, s.error_backoff_until_ = (entered + 5000) % 4294967296 →
        entered + 5000 < 4294967296 → entered ≤ now →
        ((loop now t s).state_ = State.ERROR_BACKOFF ↔ now - entered < 5000))
    ∧ (backoff_hub 4294962296).state_ = State.ERROR_BACKOFF
    ∧ (backoff_hub 4294962296).error_backoff_until_ = 0
    ∧ (4294962297 + 4294967296 - 4294962296) % 4294967296 = 1
    ∧ (loop 4294962297 4294962297 (backoff_hub 4294962296)).state_ = State.IDLE
    ∧ (backoff_hub 4294962295).state_ = State.ERROR_BACKOFF
    ∧ (backoff_hub 4294962295).error_backoff_until_ = 4294967295
    ∧ (5 + 4294967296 - 4294962295) % 4294967296 = 5006
    ∧ (loop 5 5 (backoff_hub 4294962295)).state_ = State.ERROR_BACKOFF
    ∧ (backoff_hub 10000).error_backoff_until_ = 15000
    ∧ (loop 14999 14999 (backoff_hub 10000)).state_ = State.ERROR_BACKOFF
    ∧ (loop 15000 15000 (backoff_hub 10000)).state_ = State.IDLE := by
  have h := loop_backoff_state now t s hstate
  refine ⟨h, ?_, by decide, by decide, by decide, by decide, by decide, by decide, by decide,
    by decide, by decide, by decide, by decide⟩
  intro entered hdl hfit hle
  rw [h, hdl, Nat.mod_eq_of_lt hfit]
  omega

/-- C32 (the divergence) at the hub that entered backoff at clock reading
4294962296: one millisecond later it has left. -/
theorem C32_backoff_deadline_is_plain_comparison_witness :
    (backoff_hub 4294962296).state_ = State.ERROR_BACKOFF
    ∧ ¬ ((loop 4294962297 4294962297 (backoff_hub 4294962296)).state_ = State.ERROR_BACKOFF) :=
  ⟨by decide,
    fun hs => absurd ((C32_backoff_deadline_is_plain_comparison 4294962297 4294962297
      (backoff_hub 4294962296) (by decide)).1.mp hs) (by decide)⟩

/-! ## Reachable hubs -/

theorem reach_inv_unsettled (s : WaterFurnace) (hg : s.poll_groups_ = [])
    (ht : s.has_thermostat_ = false) (ha : s.has_axb_ = false)
    (hidle : s.state_ ≠ State.IDLE)
    (h1 : s.state_ = State.SETUP_READ_ID ∨ s.state_ = State.SETUP_DETECT_COMPONENTS →
      s.setup_phase_ = 0)
    (h2 : s.state_ = State.WAITING_RESPONSE ∨ s.state_ = State.ERROR_BACKOFF →
      s.setup_phase_ ≠ 0) : reach_inv s :=
  ⟨fun h => absurd hg h, fun _ => ⟨ht, ha, hidle, h1, h2⟩⟩

theorem reach_inv_settled (s : WaterFurnace) (hd : setup_done s) (hm : s.model_number_ ≠ []) :
    reach_inv s :=
  ⟨fun _ => ⟨hd, hm⟩, fun h => absurd h hd.1⟩

theorem reach_inv_of_control (a b : WaterFurnace) (h : control_part a = control_part b)
    (hb : reach_inv b) : reach_inv a := by
  have h1 : a.state_ = b.state_ := congrArg (fun x => x.state_) h
  have h2 : a.poll_groups_ = b.poll_groups_ := congrArg (fun x => x.poll_groups_) h
  have h3 : a.model_number_ = b.model_number_ := congrArg (fun x => x.model_number_) h
  have h4 : a.setup_phase_ = b.setup_phase_ := congrArg (fun x => x.setup_phase_) h
  have h5 : a.has_thermostat_ = b.has_thermostat_ := congrArg (fun x => x.has_thermostat_) h
  have h6 : a.has_axb_ = b.has_axb_ := congrArg (fun x => x.has_axb_) h
  unfold reach_inv setup_done
  rw [h1, h2, h3, h4, h5, h6]
  exact hb

/-- The state transitions on a hub that waits for a setup response. -/
theorem process_transition__in_setup (t : Nat) (s : WaterFurnace)
    (hg : s.poll_groups_ = []) (ht : s.has_thermostat_ = false) (ha : s.has_axb_ = false)
    (hstate : s.state_ = State.WAITING_RESPONSE) (hphase : s.setup_phase_ ≠ 0) :
    reach_inv (process_transition_ t s) := by
  unfold process_transition_
  dsimp only
  rw [if_pos hstate]
  by_cases hid : s.poll_groups_ = [] ∧ s.model_number_ = []
  · rw [if_pos hid]
    exact reach_inv_unsettled _ hg ht ha (fun e => State.noConfusion e) (fun _ => rfl)
      (fun e => e.elim (fun e => State.noConfusion e) (fun e => State.noConfusion e))
  · rw [if_neg hid, if_pos hphase]
    refine reach_inv_settled _ (finish_detection__done s) ?_
    have hm : (finish_detection_ s).model_number_ = s.model_number_ := by
      unfold finish_detection_ build_poll_groups_
      dsimp only
      split_ifs
      · split
        · rfl
        · split_ifs <;> rfl
      · rfl
    rw [hm]
    exact fun h => hid ⟨hg, h⟩

theorem process_response__in_setup (frame : List Nat) (t : Nat) (s : WaterFurnace)
    (hg : s.poll_groups_ = []) (ht : s.has_thermostat_ = false) (ha : s.has_axb_ = false)
    (hstate : s.state_ = State.WAITING_RESPONSE) (hphase : s.setup_phase_ ≠ 0) :
    reach_inv (process_response_ frame t s) := by
  have hsame : reach_inv s :=
    reach_inv_unsettled s hg ht ha (by rw [hstate]; exact fun e => State.noConfusion e)
      (by rw [hstate]; exact fun e =>
        e.elim (fun e => State.noConfusion e) (fun e => State.noConfusion e))
      (fun _ => hphase)
  have hvia : ∀ s2 : WaterFurnace, control_part s2 = control_part s →
      reach_inv (process_transition_ t s2) := by
    intro s2 hc
    exact process_transition__in_setup t s2
      ((congrArg (fun x => x.poll_groups_) hc).trans hg)
      ((congrArg (fun x => x.has_thermostat_) hc).trans ht)
      ((congrArg (fun x => x.has_axb_) hc).trans ha)
      ((congrArg (fun x => x.state_) hc).trans hstate)
      (by rw [show s2.setup_phase_ = s.setup_phase_ from
        congrArg (fun x => x.setup_phase_) hc]; exact hphase)
  unfold process_response_
  dsimp only
  split_ifs with h1 h2 h3 h4 h5
  · exact hsame
  · exact reach_inv_unsettled _ hg ht ha (fun e => State.noConfusion e)
      (fun e => e.elim (fun e => State.noConfusion e) (fun e => State.noConfusion e))
      (fun _ => hphase)
  · exact absurd ⟨hstate, Or.inr hg⟩ h3
  · exact hsame
  · exact hvia _ (by rw [process_write_single__control, process_read_values__control])
  · exact hvia _ (process_write_single__control frame s)

theorem loop_reach_inv_in_setup (now t : Nat) (s : WaterFurnace) (hg : s.poll_groups_ = [])
    (h : reach_inv s) : reach_inv (loop now t s) := by
  obtain ⟨ht, ha, hidle, h1, h2⟩ := h.2 hg
  unfold loop
  split
  · next hs =>
    rw [if_pos (h1 (Or.inl hs))]
    exact reach_inv_unsettled _ hg ht ha (fun e => State.noConfusion e)
      (fun e => e.elim (fun e => State.noConfusion e) (fun e => State.noConfusion e))
      (fun _ => Nat.succ_ne_zero 0)
  · next hs =>
    rw [if_pos (h1 (Or.inr hs))]
    exact reach_inv_unsettled _ hg ht ha (fun e => State.noConfusion e)
      (fun e => e.elim (fun e => State.noConfusion e) (fun e => State.noConfusion e))
      (fun _ => Nat.succ_ne_zero 0)
  · next hs => exact absurd hs hidle
  · next hs =>
    dsimp only
    have hc := read_frame__control s
    have hr : reach_inv (read_frame_ s).2.2 := reach_inv_of_control _ _ hc h
    have hphase := h2 (Or.inl hs)
    have hg1 : (read_frame_ s).2.2.poll_groups_ = [] :=
      (congrArg (fun x => x.poll_groups_) hc).trans hg
    have ht1 : (read_frame_ s).2.2.has_thermostat_ = false :=
      (congrArg (fun x => x.has_thermostat_) hc).trans ht
    have ha1 : (read_frame_ s).2.2.has_axb_ = false :=
      (congrArg (fun x => x.has_axb_) hc).trans ha
    have hs1 : (read_frame_ s).2.2.state_ = State.WAITING_RESPONSE :=
      (congrArg (fun x => x.state_) hc).trans hs
    have hp1 : (read_frame_ s).2.2.setup_phase_ ≠ 0 := by
      rw [show (read_frame_ s).2.2.setup_phase_ = s.setup_phase_ from
        congrArg (fun x => x.setup_phase_) hc]
      exact hphase
    split_ifs
    · exact process_response__in_setup _ t _ hg1 ht1 ha1 hs1 hp1
    · exact reach_inv_unsettled _ hg1 ht1 ha1 (fun e => State.noConfusion e)
        (fun e => e.elim (fun e => State.noConfusion e) (fun e => State.noConfusion e))
        (fun _ => hp1)
    · exact hr
  · next hs =>
    dsimp only
    have hphase := h2 (Or.inr hs)
    by_cases hnow : now ≥ s.error_backoff_until_
    · rw [if_pos hnow, if_pos hphase]
      by_cases hm : s.model_number_ = []
      · rw [if_pos hm]
        exact reach_inv_unsettled _ hg ht ha (fun e => State.noConfusion e) (fun _ => rfl)
          (fun e => e.elim (fun e => State.noConfusion e) (fun e => State.noConfusion e))
      · rw [if_neg hm, if_pos (by rw [ht, ha]; rfl)]
        exact reach_inv_unsettled _ hg ht ha (fun e => State.noConfusion e) (fun _ => rfl)
          (fun e => e.elim (fun e => State.noConfusion e) (fun e => State.noConfusion e))
    · rw [if_neg hnow]
      exact h

theorem step_reach_inv (s : WaterFurnace) (e : Event) (h : reach_inv s) :
    reach_inv (step s e) := by
  by_cases hg : s.poll_groups_ = []
  · cases e with
    | tick now t => exact loop_reach_inv_in_setup now t s hg h
    | poll t =>
      show reach_inv (update t s)
      unfold update
      rw [if_neg (h.2 hg).2.2.1]
      exact h
    | write addr value => exact h
    | listen addr => exact h
    | rx bytes => exact h
  · obtain ⟨hd, hm⟩ := h.1 hg
    obtain ⟨hd2, hcap⟩ := step_settled s e hd
    refine reach_inv_settled _ hd2 ?_
    have hmodel : (step s e).model_number_ = s.model_number_ :=
      congrArg (fun c => c.model_number) hcap
    rw [hmodel]
    exact hm

theorem run_reach_inv (events : List Event) (s : WaterFurnace) (h : reach_inv s) :
    reach_inv (run s events) := by
  induction events generalizing s with
  | nil => exact h
  | cons e rest ih => exact ih (step s e) (step_reach_inv s e h)

theorem initial_reach_inv : reach_inv {} :=
  reach_inv_unsettled {} rfl rfl rfl (fun e => State.noConfusion e) (fun _ => rfl)
    (fun e => e.elim (fun e => State.noConfusion e) (fun e => State.noConfusion e))

theorem loop_setup_read_id (now t : Nat) (s : WaterFurnace)
    (hstate : s.state_ = State.SETUP_READ_ID) (hphase : s.setup_phase_ = 0) :
    (loop now t s).state_ = State.WAITING_RESPONSE
    ∧ (loop now t s).effects
        = s.effects ++ [Effect.tx (build_read_ranges_request get_system_id_ranges)] := by
  unfold loop
  rw [hstate]
  dsimp only
  rw [if_pos hphase]
  exact ⟨rfl, rfl⟩

theorem loop_setup_detect (now t : Nat) (s : WaterFurnace)
    (hstate : s.state_ = State.SETUP_DETECT_COMPONENTS) (hphase : s.setup_phase_ = 0) :
    (loop now t s).state_ = State.WAITING_RESPONSE
    ∧ (loop now t s).effects
        = s.effects ++ [Effect.tx (build_read_ranges_request get_component_detect_ranges)] := by
  unfold loop
  rw [hstate]
  dsimp only
  rw [if_pos hphase]
  exact ⟨rfl, rfl⟩

theorem loop_backoff_exit (now t : Nat) (s : WaterFurnace)
    (hstate : s.state_ = State.ERROR_BACKOFF) (hnow : now ≥ s.error_backoff_until_) :
    loop now t s =
      if s.setup_phase_ ≠ 0 then
        if s.model_number_ = [] then
          { s with setup_phase_ := 0, state_ := State.SETUP_READ_ID }
        else if (!s.has_thermostat_ && !s.has_axb_) = true then
          { s with setup_phase_ := 0, state_ := State.SETUP_DETECT_COMPONENTS }
        else { s with setup_phase_ := 0, state_ := State.IDLE }
      else { s with state_ := State.IDLE } := by
  unfold loop
  rw [hstate]
  dsimp only
  rw [if_pos hnow]

/-- C33: in every hub reached from the initial one that is in `ERROR_BACKOFF`
with the deadline passed, setup is in progress (no poll groups yet) exactly
when the setup-phase flag is set, and the next tick moves the hub to
`SETUP_READ_ID` if setup is in progress and the model number is empty; to
`SETUP_DETECT_COMPONENTS` if setup is in progress and the model number is
known, detection then never having completed (no thermostat and no AXB
recorded); and to `IDLE` otherwise, setup being complete. When it resumes a
setup state the setup-phase flag is cleared, and the tick after that sends the
identity request, respectively the detection request, again. -/
theorem C33_backoff_exit (events : List Event) (now t now2 t2 : Nat)
    (hstate : (run {} events).state_ = State.ERROR_BACKOFF)
    (hnow : now ≥ (run {} events).error_backoff_until_) :
    ((run {} events).poll_groups_ = [] ↔ (run {} events).setup_phase_ ≠ 0)
    ∧ ((run {} events).poll_groups_ = [] → (run {} events).model_number_ = [] →
        (loop now t (run {} events)).state_ = State.SETUP_READ_ID
        ∧ (loop now t (run {} events)).setup_phase_ = 0
        ∧ (loop now2 t2 (loop now t (run {} events))).state_ = State.WAITING_RESPONSE
        ∧ (loop now2 t2 (loop now t (run {} events))).effects
            = (run {} events).effects
              ++ [Effect.tx (build_read_ranges_request get_system_id_ranges)])
    ∧ ((run {} events).poll_groups_ = [] → (run {} events).model_number_ ≠ [] →
        (run {} events).has_thermostat_ = false ∧ (run {} events).has_axb_ = false
        ∧ (loop now t (run {} events)).state_ = State.SETUP_DETECT_COMPONENTS
        ∧ (loop now t (run {} events)).setup_phase_ = 0
        ∧ (loop now2 t2 (loop now t (run {} events))).state_ = State.WAITING_RESPONSE
        ∧ (loop now2 t2 (loop now t (run {} events))).effects
            = (run {} events).effects
              ++ [Effect.tx (build_read_ranges_request get_component_detect_ranges)])
    ∧ ((run {} events).poll_groups_ ≠ [] →
        (run {} events).model_number_ ≠ []
        ∧ (loop now t (run {} events)).state_ = State.IDLE
        ∧ (loop now t (run {} events)).setup_phase_ = 0) := by
  have hinv := run_reach_inv events {} initial_reach_inv
  have hexit := loop_backoff_exit now t (run {} events) hstate hnow
  generalize run {} events = s at hstate hnow hinv hexit ⊢
  refine ⟨⟨fun hg => (hinv.2 hg).2.2.2.2 (Or.inr hstate), fun hp => ?_⟩, ?_, ?_, ?_⟩
  · by_contra hg
    exact hp (hinv.1 hg).1.2.1
  · intro hg hm
    have hp := (hinv.2 hg).2.2.2.2 (Or.inr hstate)
    rw [if_pos hp, if_pos hm] at hexit
    rw [hexit]
    have h := loop_setup_read_id now2 t2
      { s with setup_phase_ := 0, state_ := State.SETUP_READ_ID } rfl rfl
    exact ⟨rfl, rfl, h.1, h.2⟩
  · intro hg hm
    obtain ⟨ht, ha, _, _, h2⟩ := hinv.2 hg
    have hp := h2 (Or.inr hstate)
    rw [if_pos hp, if_neg hm, if_pos (by rw [ht, ha]; rfl)] at hexit
    rw [hexit]
    have h := loop_setup_detect now2 t2
      { s with setup_phase_ := 0, state_ := State.SETUP_DETECT_COMPONENTS } rfl rfl
    exact ⟨ht, ha, rfl, rfl, h.1, h.2⟩
  · intro hg
    obtain ⟨hd, hm⟩ := hinv.1 hg
    rw [if_neg (fun h => h hd.2.1)] at hexit
    rw [hexit]
    exact ⟨hm, rfl, hd.2.1⟩

/-- C33 at the initial hub whose identity request times out at clock 2001: the
backoff ends at 7001 and the hub is back in `SETUP_READ_ID` with the flag
cleared. -/
theorem C33_backoff_exit_witness :
    ((run {} [Event.tick 0 0, Event.tick 2001 2001]).state_ = State.ERROR_BACKOFF
      ∧ (run {} [Event.tick 0 0, Event.tick 2001 2001]).error_backoff_until_ = 7001
      ∧ (run {} [Event.tick 0 0, Event.tick 2001 2001]).poll_groups_ = []
      ∧ (run {} [Event.tick 0 0, Event.tick 2001 2001]).model_number_ = [])
    ∧ (loop 7001 7001 (run {} [Event.tick 0 0, Event.tick 2001 2001])).state_
        = State.SETUP_READ_ID
    ∧ (loop 7001 7001 (run {} [Event.tick 0 0, Event.tick 2001 2001])).setup_phase_ = 0 :=
  ⟨⟨by decide, by decide, by decide, by decide⟩,
    ((C33_backoff_exit [Event.tick 0 0, Event.tick 2001 2001] 7001 7001 7002 7002 (by decide)
      (by decide)).2.1 (by decide) (by decide)).1,
    ((C33_backoff_exit [Event.tick 0 0, Event.tick 2001 2001] 7001 7001 7002 7002 (by decide)
      (by decide)).2.1 (by decide) (by decide)).2.1⟩

/-- C40: in every hub reached from the initial one by ticks, poll triggers,
queued writes, listener registrations and received bytes: in `IDLE` the
poll-group list is non-empty, the model number is non-empty and the
setup-phase flag is 0; in `SETUP_READ_ID` and in `SETUP_DETECT_COMPONENTS` the
setup-phase flag is 0, so the next tick sends the identity request,
respectively the detection request, and moves to `WAITING_RESPONSE`. -/
theorem C40_reachable_hubs (events : List Event) (now t : Nat) :
    ((run {} events).state_ = State.IDLE →
        (run {} events).poll_groups_ ≠ [] ∧ (run {} events).model_number_ ≠ []
        ∧ (run {} events).setup_phase_ = 0)
    ∧ ((run {} events).state_ = State.SETUP_READ_ID
        ∨ (run {} events).state_ = State.SETUP_DETECT_COMPONENTS →
        (run {} events).setup_phase_ = 0)
    ∧ ((run {} events).state_ = State.SETUP_READ_ID →
        (loop now t (run {} events)).state_ = State.WAITING_RESPONSE
        ∧ (loop now t (run {} events)).effects
            = (run {} events).effects
              ++ [Effect.tx (build_read_ranges_request get_system_id_ranges)])
    ∧ ((run {} events).state_ = State.SETUP_DETECT_COMPONENTS →
        (loop now t (run {} events)).state_ = State.WAITING_RESPONSE
        ∧ (loop now t (run {} events)).effects
            = (run {} events).effects
              ++ [Effect.tx (build_read_ranges_request get_component_detect_ranges)]) := by
  have hinv := run_reach_inv events {} initial_reach_inv
  generalize run {} events = s at hinv ⊢
  have hsetup : s.state_ = State.SETUP_READ_ID ∨ s.state_ = State.SETUP_DETECT_COMPONENTS →
      s.setup_phase_ = 0 := by
    intro hs
    by_cases hg : s.poll_groups_ = []
    · exact (hinv.2 hg).2.2.2.1 hs
    · exact (hinv.1 hg).1.2.1
  refine ⟨fun hidle => ?_, hsetup, fun hs => loop_setup_read_id now t s hs (hsetup (Or.inl hs)),
    fun hs => loop_setup_detect now t s hs (hsetup (Or.inr hs))⟩
  by_cases hg : s.poll_groups_ = []
  · exact absurd hidle (hinv.2 hg).2.2.1
  · exact ⟨hg, (hinv.1 hg).2, (hinv.1 hg).1.2.1⟩

/-- C40 at the hub reached through the identity read and the detection of a
device with thermostat and AXB: `IDLE` with five poll groups, the model number
OTP509 and the flag 0. -/
theorem C40_reachable_hubs_witness :
    (run {} (setup_events (detection_fixture 300 200) ++ [Event.tick 30 30])).state_
        = State.IDLE
    ∧ (run {} (setup_events (detection_fixture 300 200) ++ [Event.tick 30 30])).poll_groups_
        ≠ []
    ∧ (run {} (setup_events (detection_fixture 300 200)
        ++ [Event.tick 30 30])).model_number_ ≠ []
    ∧ (run {} (setup_events (detection_fixture 300 200)
        ++ [Event.tick 30 30])).setup_phase_ = 0 :=
  ⟨by decide!,
    (C40_reachable_hubs (setup_events (detection_fixture 300 200) ++ [Event.tick 30 30])
      0 0).1 (by decide!)⟩

/-! ## Responses that do not match still drive the state machine -/

/-- The normal polling branch run on a hub that differs from `s` at most in
what receiving a response changes, told in terms of `s`. -/
theorem process_transition__polling (t : Nat) (s1 s : WaterFurnace)
    (hctl : control_part s1 = control_part s) (heff : s1.effects = s.effects)
    (hstate : s.state_ = State.WAITING_RESPONSE) (hgroups : s.poll_groups_ ≠ [])
    (hphase : s.setup_phase_ = 0) :
    (process_transition_ t s1).current_poll_group_ = (s.current_poll_group_ + 1) % 256
    ∧ (process_transition_ t s1).registers_ = s1.registers_
    ∧ (∀ group, s.poll_groups_[(s.current_poll_group_ + 1) % 256]? = some group →
        (process_transition_ t s1).state_ = State.WAITING_RESPONSE
        ∧ (process_transition_ t s1).effects = s.effects ++ [Effect.tx (group_request group)]
        ∧ (process_transition_ t s1).expected_addresses_ = group_addresses group)
    ∧ (s.poll_groups_.length ≤ (s.current_poll_group_ + 1) % 256 →
        (process_transition_ t s1).state_ = State.IDLE
        ∧ (process_transition_ t s1).effects = s.effects
        ∧ (process_transition_ t s1).expected_addresses_ = s.expected_addresses_) := by
  have hst1 : s1.state_ = s.state_ := congrArg (fun x => x.state_) hctl
  have hg1 : s1.poll_groups_ = s.poll_groups_ := congrArg (fun x => x.poll_groups_) hctl
  have hp1 : s1.setup_phase_ = s.setup_phase_ := congrArg (fun x => x.setup_phase_) hctl
  have hi1 : s1.current_poll_group_ = s.current_poll_group_ :=
    congrArg (fun x => x.current_poll_group_) hctl
  have hx1 : s1.expected_addresses_ = s.expected_addresses_ :=
    congrArg (fun x => x.expected_addresses_) hctl
  obtain ⟨hnext, hlast⟩ := process_transition__normal_spec t s1 (hst1.trans hstate)
    (by rw [hg1]; exact hgroups) (hp1.trans hphase)
  rw [hg1, hi1] at hnext hlast
  have hcases : (s.current_poll_group_ + 1) % 256 < s.poll_groups_.length
      ∨ s.poll_groups_.length ≤ (s.current_poll_group_ + 1) % 256 := Nat.lt_or_ge _ _
  refine ⟨?_, ?_, ?_, ?_⟩
  · rcases hcases with hlt | hge
    · rw [hnext _ (List.getElem?_eq_getElem hlt)]
    · rw [hlast hge]
  · rcases hcases with hlt | hge
    · rw [hnext _ (List.getElem?_eq_getElem hlt)]
    · rw [hlast hge]
  · intro group hg
    rw [hnext group hg]
    exact ⟨rfl, by show s1.effects ++ _ = _; rw [heff], rfl⟩
  · intro hge
    rw [hlast hge]
    exact ⟨rfl, heff, hx1⟩

theorem loop_mismatched_read_response (now t : Nat) (s : WaterFurnace)
    (hstate : s.state_ = State.WAITING_RESPONSE) (hread : (read_frame_ s).1 = true)
    (hfunc : (read_frame_ s).2.1.getD 1 0 = FUNC_READ_RANGES
      ∨ (read_frame_ s).2.1.getD 1 0 = FUNC_READ_REGISTERS)
    (hcount : (parse_register_values ((read_frame_ s).2.1.drop 3)
      ((read_frame_ s).2.1.getD 2 0)).length ≠ s.expected_addresses_.length) :
    ∃ s1 : WaterFurnace, loop now t s = process_transition_ t s1
      ∧ control_part s1 = control_part s
      ∧ s1.registers_ = s.registers_ ∧ s1.effects = s.effects := by
  obtain ⟨hr, _, _, hx, he, _⟩ := read_frame__keeps s
  refine ⟨{ (read_frame_ s).2.2 with last_response_time_ := now }, ?_,
    read_frame__control s, hr, he⟩
  rw [loop_waiting_ok now t s hstate hread,
    process_response__read _ t _ ((read_frame__ok s hread).2 hfunc) hfunc]
  unfold process_read_values_
  dsimp only
  rw [if_neg (by rw [hx]; exact hcount)]

set_option maxRecDepth 100000 in
/-- C39: a CRC-valid read response whose value count differs from the number
of expected addresses leaves the cache alone and calls no listener, and the
state transitions then run as after a matching response, on a hub with the
same control state. During polling the poll-group index advances by one
(modulo 256) and, if a group exists at the new index, that group is requested
and the hub stays in `WAITING_RESPONSE`; otherwise the hub returns to `IDLE`.
During the identity read the three identity strings are decoded from the
unchanged cache and the hub advances to `SETUP_DETECT_COMPONENTS` with the
setup-phase flag cleared. -/
theorem C39_mismatched_response_still_advances (now t : Nat) (s : WaterFurnace)
    (hstate : s.state_ = State.WAITING_RESPONSE) (hread : (read_frame_ s).1 = true)
    (hfunc : (read_frame_ s).2.1.getD 1 0 = FUNC_READ_RANGES
      ∨ (read_frame_ s).2.1.getD 1 0 = FUNC_READ_REGISTERS)
    (hcount : (parse_register_values ((read_frame_ s).2.1.drop 3)
      ((read_frame_ s).2.1.getD 2 0)).length ≠ s.expected_addresses_.length) :
    (loop now t s).registers_ = s.registers_
    ∧ listener_calls (loop now t s).effects = listener_calls s.effects
    ∧ (∃ s1 : WaterFurnace, loop now t s = process_transition_ t s1
        ∧ control_part s1 = control_part s)
    ∧ (s.poll_groups_ ≠ [] → s.setup_phase_ = 0 →
        (loop now t s).current_poll_group_ = (s.current_poll_group_ + 1) % 256
        ∧ (∀ group, s.poll_groups_[(s.current_poll_group_ + 1) % 256]? = some group →
            (loop now t s).state_ = State.WAITING_RESPONSE
            ∧ (loop now t s).effects = s.effects ++ [Effect.tx (group_request group)]
            ∧ (loop now t s).expected_addresses_ = group_addresses group)
        ∧ (s.poll_groups_.length ≤ (s.current_poll_group_ + 1) % 256 →
            (loop now t s).state_ = State.IDLE ∧ (loop now t s).effects = s.effects))
    ∧ (s.poll_groups_ = [] → s.model_number_ = [] →
        (loop now t s).state_ = State.SETUP_DETECT_COMPONENTS
        ∧ (loop now t s).setup_phase_ = 0
        ∧ (loop now t s).effects = s.effects
        ∧ (loop now t s).abc_program_
            = trim_trailing (decode_string_ s.registers_ REG_ABC_PROGRAM 4)
        ∧ (loop now t s).model_number_
            = trim_trailing (decode_string_ s.registers_ REG_MODEL_NUMBER 12)
        ∧ (loop now t s).serial_number_
            = trim_trailing (decode_string_ s.registers_ REG_SERIAL_NUMBER 5)) := by
  obtain ⟨s1, hloop, hctl, hregs, heff⟩ :=
    loop_mismatched_read_response now t s hstate hread hfunc hcount
  have hk := process_transition__keeps t s1
  refine ⟨?_, ?_, ⟨s1, hloop, hctl⟩, ?_, ?_⟩
  · rw [hloop, hk.1, hregs]
  · rw [hloop, hk.2.2.2, heff]
  · intro hgroups hphase
    obtain ⟨h1, _, h3, h4⟩ := process_transition__polling t s1 s hctl heff hstate hgroups hphase
    rw [hloop]
    exact ⟨h1, h3, fun hge => ⟨(h4 hge).1, (h4 hge).2.1⟩⟩
  · intro hgroups hmodel
    rw [hloop, process_transition__identity t s1 s hctl hstate ⟨hgroups, hmodel⟩, ← hregs,
      ← heff]
    exact ⟨rfl, rfl, rfl, rfl, rfl, rfl⟩

set_option maxRecDepth 100000 in
/-- C39 at the sample hub that waits for registers 745 and 746, its only poll
group, and receives a response carrying one value: the index advances from 0
to 1 and the hub returns to `IDLE`. -/
theorem C39_mismatched_response_still_advances_witness :
    ((waiting_hub sample_short_response).state_ = State.WAITING_RESPONSE
      ∧ (read_frame_ (waiting_hub sample_short_response)).1 = true
      ∧ (parse_register_values ((read_frame_ (waiting_hub sample_short_response)).2.1.drop 3)
          ((read_frame_ (waiting_hub sample_short_response)).2.1.getD 2 0)).length = 1
      ∧ (waiting_hub sample_short_response).expected_addresses_.length = 2
      ∧ (waiting_hub sample_short_response).poll_groups_.length = 1)
    ∧ (loop 100 100 (waiting_hub sample_short_response)).current_poll_group_
        = ((waiting_hub sample_short_response).current_poll_group_ + 1) % 256
    ∧ (loop 100 100 (waiting_hub sample_short_response)).state_ = State.IDLE :=
  ⟨⟨by decide, by decide, by decide, by decide, by decide⟩,
    ((C39_mismatched_response_still_advances 100 100 (waiting_hub sample_short_response)
      (by decide) (by decide) (by decide) (by decide)).2.2.2.1 (by decide) (by decide)).1,
    (((C39_mismatched_response_still_advances 100 100 (waiting_hub sample_short_response)
      (by decide) (by decide) (by decide) (by decide)).2.2.2.1 (by decide) (by decide)).2.2
      (by decide)).1⟩

/-! ## A poll cycle -/

theorem process_transition__uart_rx (t : Nat) (s : WaterFurnace) :
    (process_transition_ t s).uart_rx = s.uart_rx := by
  unfold process_transition_
  dsimp only
  split_ifs
  · rfl
  · unfold finish_detection_ build_poll_groups_
    dsimp only
    split_ifs
    · split
      · rfl
      · split_ifs <;> rfl
    · rfl
  · unfold poll_next_group_
    dsimp only
    split
    · rfl
    · unfold send_frame_
      dsimp only
      split_ifs <;> rfl
  · rfl
  · rfl

theorem process_response__uart_rx (frame : List Nat) (t : Nat) (s : WaterFurnace) :
    (process_response_ frame t s).uart_rx = s.uart_rx := by
  have hread : (process_read_values_ frame s).uart_rx = s.uart_rx := by
    unfold process_read_values_
    dsimp only
    split_ifs
    · exact foldl_proj_eq (fun s => s.uart_rx) store_and_dispatch_ (fun _ _ => rfl) _ _
    · rfl
  have hwrite : ∀ s' : WaterFurnace, (process_write_single_ frame s').uart_rx = s'.uart_rx := by
    intro s'
    unfold process_write_single_
    split_ifs <;> rfl
  unfold process_response_
  dsimp only
  split_ifs
  · rfl
  · rfl
  · rfl
  · rfl
  · exact (process_transition__uart_rx t _).trans ((hwrite _).trans hread)
  · exact (process_transition__uart_rx t _).trans (hwrite _)

/-- One response of a poll cycle: the hub waits with empty receive buffers
after setup, and exactly the bytes of a CRC-valid non-error frame arrive
before the tick. -/
theorem loop_poll_response (now t : Nat) (m : WaterFurnace) (f : List Nat)
    (hstate : m.state_ = State.WAITING_RESPONSE) (hgroups : m.poll_groups_ ≠ [])
    (hphase : m.setup_phase_ = 0) (hbuf : m.rx_buffer_ = []) (huart : m.uart_rx = [])
    (hcrc : validate_frame_crc f = true) (hlen : f.length = framing_rule_length f)
    (hne : is_error_response (f.getD 1 0) = false) :
    (loop now t (uart_receive f m)).poll_groups_ = m.poll_groups_
    ∧ (loop now t (uart_receive f m)).setup_phase_ = 0
    ∧ (loop now t (uart_receive f m)).rx_buffer_ = []
    ∧ (loop now t (uart_receive f m)).uart_rx = []
    ∧ (loop now t (uart_receive f m)).current_poll_group_ = (m.current_poll_group_ + 1) % 256
    ∧ (∀ group, m.poll_groups_[(m.current_poll_group_ + 1) % 256]? = some group →
        (loop now t (uart_receive f m)).state_ = State.WAITING_RESPONSE
        ∧ sent_frames (loop now t (uart_receive f m)).effects
            = sent_frames m.effects ++ [group_request group]
        ∧ (loop now t (uart_receive f m)).expected_addresses_ = group_addresses group)
    ∧ (m.poll_groups_.length ≤ (m.current_poll_group_ + 1) % 256 →
        (loop now t (uart_receive f m)).state_ = State.IDLE
        ∧ sent_frames (loop now t (uart_receive f m)).effects = sent_frames m.effects) := by
  have hwhole := read_frame__whole (uart_receive f m) f
    (show m.rx_buffer_ ++ (m.uart_rx ++ f) = f by rw [hbuf, huart]; rfl) hcrc hlen
  have hread : (read_frame_ (uart_receive f m)).1 = true := by rw [hwhole]
  have hframe : (read_frame_ (uart_receive f m)).2.1 = f := by rw [hwhole]
  have hst : (uart_receive f m).state_ = State.WAITING_RESPONSE := hstate
  have hloop2 := loop_waiting_ok now t (uart_receive f m) hst hread
  obtain ⟨s2, hloop, hctl, hsent⟩ := loop_valid_response now t (uart_receive f m) hst hread
    (by rw [hframe]; exact hne)
  have hctl2 : control_part s2 = control_part m := hctl
  have hsent2 : sent_frames s2.effects = sent_frames m.effects := hsent
  have hst2 : s2.state_ = m.state_ := congrArg (fun x => x.state_) hctl2
  have hg2 : s2.poll_groups_ = m.poll_groups_ := congrArg (fun x => x.poll_groups_) hctl2
  have hp2 : s2.setup_phase_ = m.setup_phase_ := congrArg (fun x => x.setup_phase_) hctl2
  have hi2 : s2.current_poll_group_ = m.current_poll_group_ :=
    congrArg (fun x => x.current_poll_group_) hctl2
  obtain ⟨hnext, hlast⟩ := process_transition__normal_spec t s2 (hst2.trans hstate)
    (by rw [hg2]; exact hgroups) (hp2.trans hphase)
  rw [hg2, hi2] at hnext hlast
  have hcases : (m.current_poll_group_ + 1) % 256 < m.poll_groups_.length
      ∨ m.poll_groups_.length ≤ (m.current_poll_group_ + 1) % 256 := Nat.lt_or_ge _ _
  have hrx : (loop now t (uart_receive f m)).rx_buffer_ = [] := by
    rw [hloop2]
    apply process_response__rx_buffer
    rw [hwhole]
  have hux : (loop now t (uart_receive f m)).uart_rx = [] := by
    rw [hloop2, process_response__uart_rx, hwhole]
  refine ⟨?_, ?_, hrx, hux, ?_, ?_, ?_⟩
  · rcases hcases with hlt | hge
    · rw [hloop, hnext _ (List.getElem?_eq_getElem hlt)]
    · rw [hloop, hlast hge]
  · rcases hcases with hlt | hge
    · rw [hloop, hnext _ (List.getElem?_eq_getElem hlt)]
      exact hp2.trans hphase
    · rw [hloop, hlast hge]
      exact hp2.trans hphase
  · rcases hcases with hlt | hge
    · rw [hloop, hnext _ (List.getElem?_eq_getElem hlt)]
    · rw [hloop, hlast hge]
  · intro group hg
    rw [hloop, hnext group hg]
    refine ⟨rfl, ?_, rfl⟩
    show sent_frames (s2.effects ++ [Effect.tx (group_request group)]) = _
    rw [sent_frames_append, hsent2]
    rfl
  · intro hge
    rw [hloop, hlast hge]
    exact ⟨rfl, hsent2⟩

theorem take_succ_of_getElem? {α : Type} (l : List α) (k : Nat) (x : α)
    (h : l[k]? = some x) : l.take (k + 1) = l.take k ++ [x] := by
  rw [List.take_succ, h]
  rfl

theorem chunk_events_snoc (chunks : List (List Nat × Nat × Nat)) (c : List Nat × Nat × Nat) :
    chunk_events (chunks ++ [c])
      = chunk_events chunks ++ [Event.rx c.1, Event.tick c.2.1 c.2.2] := by
  unfold chunk_events
  rw [List.flatMap_append]
  simp

theorem run_poll_snoc (s : WaterFurnace) (t0 : Nat) (chunks : List (List Nat × Nat × Nat))
    (c : List Nat × Nat × Nat) :
    run s (Event.poll t0 :: chunk_events (chunks ++ [c]))
      = loop c.2.1 c.2.2 (uart_receive c.1 (run s (Event.poll t0 :: chunk_events chunks))) := by
  rw [chunk_events_snoc, ← List.cons_append, run_append]
  rfl

/-- A poll cycle, `k` responses in, is waiting for the response of group
`k`. -/
theorem poll_cycle_prefix (s : WaterFurnace) (t0 : Nat)
    (responses : List (List Nat × Nat × Nat))
    (hidle : s.state_ = State.IDLE) (hphase : s.setup_phase_ = 0)
    (hlen : s.poll_groups_.length < 256) (huart : s.uart_rx = [])
    (hcount : responses.length = s.poll_groups_.length)
    (hvalid : ∀ r ∈ responses, validate_frame_crc r.1 = true
      ∧ r.1.length = framing_rule_length r.1 ∧ is_error_response (r.1.getD 1 0) = false) :
    ∀ k, k < s.poll_groups_.length →
      awaiting_group s (run s (Event.poll t0 :: chunk_events (responses.take k))) k := by
  intro k
  induction k with
  | zero =>
    intro hk
    have hg : s.poll_groups_[0]? = some (s.poll_groups_[0]) := List.getElem?_eq_getElem hk
    have hrun : run s (Event.poll t0 :: chunk_events (responses.take 0))
        = poll_next_group_ t0 { s with current_poll_group_ := 0 } := by
      show update t0 s = _
      unfold update
      rw [if_pos hidle]
    rw [hrun, poll_next_group__eq t0 _ _ hg]
    refine ⟨rfl, rfl, hphase, rfl, huart, rfl, ?_, _, hg, rfl⟩
    show sent_frames (s.effects ++ [Effect.tx (group_request s.poll_groups_[0])]) = _
    rw [sent_frames_append, take_succ_of_getElem? _ 0 _ hg]
    rfl
  | succ k ih =>
    intro hk
    obtain ⟨hst, hgr, hph, hrx, hux, hidx, hsent, _⟩ := ih (by omega)
    have hkr : k < responses.length := by omega
    have hr : responses[k]? = some (responses[k]) := List.getElem?_eq_getElem hkr
    have hv := hvalid (responses[k]) (List.getElem_mem hkr)
    have hg : s.poll_groups_[k + 1]? = some (s.poll_groups_[k + 1]) :=
      List.getElem?_eq_getElem hk
    rw [take_succ_of_getElem? _ k _ hr, run_poll_snoc]
    generalize run s (Event.poll t0 :: chunk_events (responses.take k)) = m
      at hst hgr hph hrx hux hidx hsent
    have hne : m.poll_groups_ ≠ [] := by
      rw [hgr]
      intro h
      rw [h] at hk
      exact absurd hk (by simp)
    obtain ⟨h1, h2, h3, h4, h5, h6, _⟩ := loop_poll_response (responses[k]).2.1
      (responses[k]).2.2 m (responses[k]).1 hst hne hph hrx hux hv.1 hv.2.1 hv.2.2
    have hnew : (m.current_poll_group_ + 1) % 256 = k + 1 := by
      rw [hidx]
      exact Nat.mod_eq_of_lt (by omega)
    rw [hnew, hgr] at h6
    obtain ⟨h6a, h6b, h6c⟩ := h6 _ hg
    refine ⟨h6a, h1.trans hgr, h2, h3, h4, h5.trans hnew, ?_, _, hg, h6c⟩
    rw [h6b, hsent, take_succ_of_getElem? _ (k + 1) _ hg, List.map_append, List.append_assoc]
    rfl

theorem length_push_if (c : Prop) [Decidable c] (groups : List PollGroup) (g : PollGroup) :
    (if c then groups ++ [g] else groups).length ≤ groups.length + 1 := by
  split_ifs
  · simp
  · omega

theorem build_poll_groups__count (s : WaterFurnace) :
    (build_poll_groups_ s).poll_groups_.length ≤ 6 := by
  unfold build_poll_groups_
  dsimp only
  have h1 := length_push_if (s.awl_thermostat_ && !s.has_iz2_)
    ([] ++ [{ ranges := get_thermostat_ranges }])
    { individual := get_thermostat_config_registers }
  have h2 := length_push_if (s.has_axb_ = true) _ { ranges := get_axb_ranges } |>.trans
    (Nat.add_le_add_right h1 1)
  have h3 := length_push_if (s.has_energy_monitoring_ = true) _ { ranges := get_power_ranges }
    |>.trans (Nat.add_le_add_right h2 1)
  have h4 := length_push_if (s.has_vs_drive_ = true) _ { ranges := get_vs_drive_ranges }
    |>.trans (Nat.add_le_add_right h3 1)
  have h5 := length_push_if (s.awl_iz2_ && decide (s.iz2_zone_count_ > 0)) _
    { ranges := get_iz2_ranges s.iz2_zone_count_ } |>.trans (Nat.add_le_add_right h4 1)
  exact h5

/-- C34: take an Idle hub after setup (poll groups built, setup-phase flag 0,
UART drained) with `n` poll groups, a poll trigger, and then for each request
in turn a CRC-valid non-error response delivered whole before a tick. The
trigger resets the index to 0 and requests group 0; after `k` responses, for
every `k < n`, the hub is in `WAITING_RESPONSE` with index `k`, the frames
sent since the trigger are the requests of groups 0 to `k` in list order, and
group `k` is the one expected; the response to the last group returns the hub
to `IDLE` with index `n`, the frames sent being the requests of the groups 0
to `n - 1`, each exactly once. The number of groups is below 256, the range
of the index: `build_poll_groups_` builds at most 6. -/
theorem C34_poll_cycle (s : WaterFurnace) (t0 : Nat)
    (responses : List (List Nat × Nat × Nat))
    (hidle : s.state_ = State.IDLE) (hgroups : s.poll_groups_ ≠ [])
    (hphase : s.setup_phase_ = 0)
    (hlen : s.poll_groups_.length < 256) (huart : s.uart_rx = [])
    (hcount : responses.length = s.poll_groups_.length)
    (hvalid : ∀ r ∈ responses, validate_frame_crc r.1 = true
      ∧ r.1.length = framing_rule_length r.1 ∧ is_error_response (r.1.getD 1 0) = false) :
    (∀ k, k < s.poll_groups_.length →
        (run s (Event.poll t0 :: chunk_events (responses.take k))).state_
          = State.WAITING_RESPONSE
        ∧ (run s (Event.poll t0 :: chunk_events (responses.take k))).current_poll_group_ = k
        ∧ sent_frames (run s (Event.poll t0 :: chunk_events (responses.take k))).effects
            = sent_frames s.effects ++ (s.poll_groups_.take (k + 1)).map group_request
        ∧ ∃ group, s.poll_groups_[k]? = some group
            ∧ (run s (Event.poll t0 :: chunk_events (responses.take k))).expected_addresses_
              = group_addresses group)
    ∧ (run s (Event.poll t0 :: chunk_events responses)).state_ = State.IDLE
    ∧ (run s (Event.poll t0 :: chunk_events responses)).current_poll_group_
        = s.poll_groups_.length
    ∧ sent_frames (run s (Event.poll t0 :: chunk_events responses)).effects
        = sent_frames s.effects ++ s.poll_groups_.map group_request
    ∧ (run s (Event.poll t0 :: chunk_events responses)).poll_groups_ = s.poll_groups_
    ∧ (∀ hub : WaterFurnace, (build_poll_groups_ hub).poll_groups_.length ≤ 6) := by
  have hpre := poll_cycle_prefix s t0 responses hidle hphase hlen huart hcount hvalid
  have hpos : 0 < s.poll_groups_.length := List.length_pos.mpr hgroups
  have hlast := hpre (s.poll_groups_.length - 1) (by omega)
  obtain ⟨hst, hgr, hph, hrx, hux, hidx, hsent, _⟩ := hlast
  have hkr : s.poll_groups_.length - 1 < responses.length := by omega
  have hr : responses[s.poll_groups_.length - 1]?
      = some (responses[s.poll_groups_.length - 1]) := List.getElem?_eq_getElem hkr
  have hv := hvalid _ (List.getElem_mem hkr)
  have hall : responses
      = responses.take (s.poll_groups_.length - 1) ++ [responses[s.poll_groups_.length - 1]] := by
    rw [← take_succ_of_getElem? _ _ _ hr, List.take_of_length_le (by omega)]
  have hrun : run s (Event.poll t0 :: chunk_events responses)
      = loop (responses[s.poll_groups_.length - 1]).2.1 (responses[s.poll_groups_.length - 1]).2.2
          (uart_receive (responses[s.poll_groups_.length - 1]).1
            (run s (Event.poll t0
              :: chunk_events (responses.take (s.poll_groups_.length - 1))))) := by
    rw [← run_poll_snoc, ← hall]
  generalize run s (Event.poll t0 :: chunk_events (responses.take (s.poll_groups_.length - 1)))
    = m at hst hgr hph hrx hux hidx hsent hrun
  have hne : m.poll_groups_ ≠ [] := by rw [hgr]; exact hgroups
  obtain ⟨h1, _, _, _, h5, _, h7⟩ := loop_poll_response
    (responses[s.poll_groups_.length - 1]).2.1 (responses[s.poll_groups_.length - 1]).2.2 m
    (responses[s.poll_groups_.length - 1]).1 hst hne hph hrx hux hv.1 hv.2.1 hv.2.2
  have hnew : (m.current_poll_group_ + 1) % 256 = s.poll_groups_.length := by
    rw [hidx, Nat.mod_eq_of_lt (by omega)]
    omega
  rw [hnew, hgr] at h7
  obtain ⟨h7a, h7b⟩ := h7 (Nat.le_refl _)
  refine ⟨fun k hk => ?_, ?_, ?_, ?_, ?_, build_poll_groups__count⟩
  · obtain ⟨a, _, _, _, _, b, c, d⟩ := hpre k hk
    exact ⟨a, b, c, d⟩
  · rw [hrun]
    exact h7a
  · rw [hrun, h5, hnew]
  · rw [hrun, h7b, hsent, show s.poll_groups_.length - 1 + 1 = s.poll_groups_.length by omega,
      List.take_length]
  · rw [hrun, h1, hgr]

/-- C34 at an Idle hub with two poll groups, thermostat and power: one poll
trigger and two responses send the two requests in order and end in `IDLE`. -/
theorem C34_poll_cycle_witness :
    (two_group_hub.state_ = State.IDLE ∧ two_group_hub.poll_groups_.length = 2
      ∧ two_group_responses.length = 2
      ∧ ∀ r ∈ two_group_responses, validate_frame_crc r.1 = true
          ∧ r.1.length = framing_rule_length r.1 ∧ is_error_response (r.1.getD 1 0) = false)
    ∧ (run two_group_hub (Event.poll 0 :: chunk_events two_group_responses)).state_
        = State.IDLE
    ∧ sent_frames (run two_group_hub (Event.poll 0 :: chunk_events two_group_responses)).effects
        = sent_frames two_group_hub.effects ++ two_group_hub.poll_groups_.map group_request
    ∧ two_group_hub.poll_groups_.map group_request
        = [build_read_ranges_request get_thermostat_ranges,
            build_read_ranges_request get_power_ranges] :=
  ⟨⟨by decide!, by decide!, by decide!, by decide!⟩,
    (C34_poll_cycle two_group_hub 0 two_group_responses (by decide!) (by decide!) (by decide!)
      (by decide!) (by decide!) (by decide!) (by decide!)).2.1,
    (C34_poll_cycle two_group_hub 0 two_group_responses (by decide!) (by decide!) (by decide!)
      (by decide!) (by decide!) (by decide!) (by decide!)).2.2.2.1,
    by decide!⟩

end waterfurnace
